import Mathlib

/-!
Order placement in `httpserver/services/transactions.go`.

A shallow embedding of `transactionSvc.CreateTransaction`, of the two read paths
`GetMyTransaction` and `GetUserTransaction` and of the store they talk to,
followed by the properties established about them.

* Go's `int` and `uint` are taken at 64 bits.  Values are `Int` / `Nat`, and
  every arithmetic operation and conversion of the source is written with an
  explicit reduction modulo `2 ^ 64`.
* The four repositories are interfaces whose implementations are not part of
  the service file.  They are modelled as point lookups and point updates on
  lists of rows, with a fault plan saying which repository call fails.
* Every repository call made by the service is recorded, with its arguments,
  in a trace, so that statements about "which calls were made" can be stated.
-/

set_option autoImplicit false

/-! ## Machine integers -/

/-- Number of values of a Go `int` / `uint` (64-bit platform). -/
def wordSize : Nat := 2 ^ 64

/-- Largest Go `int` plus one. -/
def halfWord : Nat := 2 ^ 63

/-- Go conversion `uint(x)` of an `int`. -/
def toUint (x : Int) : Nat := (x % (wordSize : Int)).toNat

/-- Go conversion `int(x)` of a `uint`. -/
def toInt (x : Nat) : Int :=
  if x % wordSize < halfWord then ((x % wordSize : Nat) : Int)
  else ((x % wordSize : Nat) : Int) - (wordSize : Int)

/-- Result of a signed operation whose exact value is `x`, reduced to a Go `int`. -/
def wrapInt (x : Int) : Int := toInt (toUint x)

/-- Go `a * b` on `uint`. -/
def umul (a b : Nat) : Nat := (a * b) % wordSize

/-- Go `a + b` on `uint`. -/
def uadd (a b : Nat) : Nat := (a + b) % wordSize

/-- Go `a - b` on `uint`. -/
def usub (a b : Nat) : Nat := (a % wordSize + wordSize - b % wordSize) % wordSize

/-- Go `a - b` on `int`. -/
def isub (a b : Int) : Int := wrapInt (a - b)

/-- Go `a * b` on `int`. -/
def imul (a b : Int) : Int := wrapInt (a * b)

/-- A value that a Go `uint` can hold. -/
def IsUint (n : Nat) : Prop := n < wordSize

/-- A value that a Go `int` can hold. -/
def IsInt (x : Int) : Prop := -(halfWord : Int) ≤ x ∧ x < (halfWord : Int)

instance (n : Nat) : Decidable (IsUint n) := by unfold IsUint; infer_instance

instance (x : Int) : Decidable (IsInt x) := by unfold IsInt; infer_instance

/-! ## Errors -/

/-- A Go `error` value as the service distinguishes them: `gorm.ErrRecordNotFound`
or anything else (with its text). -/
inductive GoError where
  | ErrRecordNotFound
  | other (msg : String)
  deriving DecidableEq, Repr

deriving instance DecidableEq for Except

/-! ## Rows (`repositories/models`) -/

namespace models

/-- Modelled from the spec: the type `models.Product`, whose declaration is not in
the service file: a row of the products table, with the fields the service reads. -/
structure Product where
  Id : Nat
  Title : String
  Price : Nat
  Stock : Int
  CategoryId : Nat
  CreatedAt : Nat
  UpdatedAt : Nat
  deriving DecidableEq, Repr

/-- Modelled from the spec: the type `models.User`, whose declaration is not in the
service file: a row of the users table. -/
structure User where
  Id : Nat
  FullName : String
  Email : String
  Password : String
  Balance : Nat
  CreatedAt : Nat
  UpdatedAt : Nat
  deriving DecidableEq, Repr

/-- Modelled from the spec: the type `models.Category`, whose declaration is not in
the service file: a row of the categories table. -/
structure Category where
  Id : Nat
  Name : String
  SoldProductAmount : Nat
  CreatedAt : Nat
  UpdatedAt : Nat
  deriving DecidableEq, Repr

/-- Go zero value of `models.Product`. -/
def Product.zero : Product :=
  { Id := 0, Title := "", Price := 0, Stock := 0, CategoryId := 0, CreatedAt := 0, UpdatedAt := 0 }

/-- Go zero value of `models.User`. -/
def User.zero : User :=
  { Id := 0, FullName := "", Email := "", Password := "", Balance := 0, CreatedAt := 0,
    UpdatedAt := 0 }

/-- Modelled from the spec: the type `models.TransactionHistory`, whose declaration
is not in the service file: a row of the transaction history table; `Product` and
`User` are the joined rows that the read paths access, left at their zero value
when the service builds a row. -/
structure TransactionHistory where
  Id : Nat
  ProductId : Nat
  UserId : Nat
  Quantity : Int
  TotalPrice : Int
  CreatedAt : Nat
  UpdatedAt : Nat
  Product : Product
  User : User
  deriving DecidableEq, Repr

end models

/-! ## Request and response types -/

namespace params

/-- Modelled from the spec: the type `params.CreateTransactions`, whose declaration
is not in the service file: the body of the order request; `Quantity` is the value
behind the `*int`. -/
structure CreateTransactions where
  ProductId : Nat
  Quantity : Int
  deriving DecidableEq, Repr

end params

namespace common

/-- Modelled from the spec: the type `common.CustomClaims`, whose declaration is not
in the service file: the numeric identity attached to the request context by the
authentication layer. -/
structure CustomClaims where
  Id : Int
  deriving DecidableEq, Repr

end common

/-- The part of `context.Context` the service reads: `ctx.Value("userData")`. -/
structure Context where
  userData : common.CustomClaims
  deriving DecidableEq, Repr

namespace views

/-- Modelled from the spec: the message codes `views.M_...` of the response
envelope, whose declarations are not in the service file. -/
inductive Message where
  | M_BAD_REQUEST
  | M_STOCK_IS_NOT_ENOUGH
  | M_BALANCE_IS_NOT_ENOUGH
  | M_INTERNAL_SERVER_ERROR
  | M_CREATED
  | M_OK
  deriving DecidableEq, Repr

/-- Modelled from the spec: the type `views.CreateTransaction`, whose declaration is
not in the service file: the payload of a successful order. -/
structure CreateTransaction where
  TotalPrice : Nat
  Quantity : Nat
  ProductTitle : String
  deriving DecidableEq, Repr

/-- Modelled from the spec: the type `views.Response`, whose declaration is not in
the service file: status code, message code, payload or error. -/
structure Response (α : Type) where
  Status : Nat
  Message : Message
  Data : Option α
  Error : Option GoError
  deriving DecidableEq, Repr

/-- Modelled from the spec: the envelope constructor `views.ErrorResponse`, which
is not in the service file: status code, message code and the error detail. -/
def ErrorResponse {α : Type} (status : Nat) (message : Message) (err : GoError) : Response α :=
  { Status := status, Message := message, Data := none, Error := some err }

/-- Modelled from the spec: the envelope constructor `views.SuccessResponse`, which
is not in the service file: status code, message code and the payload. -/
def SuccessResponse {α : Type} (status : Nat) (message : Message) (data : α) : Response α :=
  { Status := status, Message := message, Data := some data, Error := none }

end views

/-! ## `net/http` status codes -/

namespace http

def StatusOK : Nat := 200

def StatusCreated : Nat := 201

def StatusBadRequest : Nat := 400

def StatusInternalServerError : Nat := 500

end http

/-! ## The store and its repositories -/

/-- Modelled from the spec: the persisted state behind the four repositories: the
four tables. -/
structure Store where
  products : List models.Product
  users : List models.User
  categories : List models.Category
  transactions : List models.TransactionHistory
  deriving DecidableEq, Repr

/-- Which repository calls of one service invocation fail, and with what error.
`none` means the call is served by the store. -/
structure Faults where
  GetProductById : Option GoError
  FindCategoryById : Option GoError
  FindUserById : Option GoError
  UpdateUser : Option GoError
  UpdateProduct : Option GoError
  UpdateCategory : Option GoError
  CreateTransaction : Option GoError
  GetMyTransaction : Option GoError
  GetUserTransaction : Option GoError
  deriving DecidableEq, Repr

/-- Everything outside the store that one service invocation depends on: the
fault plan and the time stamped on new rows. -/
structure Env where
  faults : Faults
  now : Nat
  deriving DecidableEq, Repr

/-- The fault plan in which every repository call is served by the store. -/
def Faults.none : Faults :=
  { GetProductById := Option.none, FindCategoryById := Option.none, FindUserById := Option.none,
    UpdateUser := Option.none, UpdateProduct := Option.none, UpdateCategory := Option.none,
    CreateTransaction := Option.none, GetMyTransaction := Option.none,
    GetUserTransaction := Option.none }

/-- A repository call with its arguments, as recorded in the trace. -/
inductive RepoCall where
  | GetProductById (id : Nat)
  | FindCategoryById (id : Nat)
  | FindUserById (id : Nat)
  | UpdateUser (user : models.User)
  | UpdateProduct (product : models.Product) (id : Nat)
  | UpdateCategory (category : models.Category) (id : Nat)
  | CreateTransaction (model : models.TransactionHistory)
  | GetMyTransaction (userId : Nat)
  | GetUserTransaction
  deriving DecidableEq, Repr

/-- Whether a recorded call is a write. -/
def RepoCall.isWrite : RepoCall → Bool
  | .GetProductById _ => false
  | .FindCategoryById _ => false
  | .FindUserById _ => false
  | .UpdateUser _ => true
  | .UpdateProduct _ _ => true
  | .UpdateCategory _ _ => true
  | .CreateTransaction _ => true
  | .GetMyTransaction _ => false
  | .GetUserTransaction => false

namespace repositories

/-- Modelled from the spec: the point lookup of a table, whose implementation is
not in the service file: the first row carrying the identifier, if any. -/
def lookupRow {α : Type} (key : α → Nat) (id : Nat) (rows : List α) : Option α :=
  rows.find? (fun a => key a == id)

/-- Modelled from the spec: the point update of a table, whose implementation is
not in the service file: the row that the lookup by `id` returns is replaced by
`v`; a table without such a row is left as it is. -/
def updateRow {α : Type} (key : α → Nat) (id : Nat) (v : α) : List α → List α
  | [] => []
  | a :: rest => if key a == id then v :: rest else a :: updateRow key id v rest

/-- Modelled from the spec: `ProductsRepo.GetProductById`, whose implementation is
not in the service file: a point lookup by identifier that succeeds with the
current row, fails with not-found, or fails with a storage error. -/
def GetProductById (env : Env) (s : Store) (id : Nat) : Except GoError models.Product :=
  match env.faults.GetProductById with
  | some e => .error e
  | none =>
    match lookupRow models.Product.Id id s.products with
    | some p => .ok p
    | none => .error GoError.ErrRecordNotFound

/-- Modelled from the spec: `CategoryRepo.FindCategoryById`, whose implementation
is not in the service file: a point lookup by identifier. -/
def FindCategoryById (env : Env) (s : Store) (id : Nat) : Except GoError models.Category :=
  match env.faults.FindCategoryById with
  | some e => .error e
  | none =>
    match lookupRow models.Category.Id id s.categories with
    | some c => .ok c
    | none => .error GoError.ErrRecordNotFound

/-- Modelled from the spec: `UserRepo.FindUserById`, whose implementation is not in
the service file: a point lookup by identifier. -/
def FindUserById (env : Env) (s : Store) (id : Nat) : Except GoError models.User :=
  match env.faults.FindUserById with
  | some e => .error e
  | none =>
    match lookupRow models.User.Id id s.users with
    | some u => .ok u
    | none => .error GoError.ErrRecordNotFound

/-- Modelled from the spec: `UserRepo.UpdateUser`, whose implementation is not in
the service file: a point update keyed by the identifier of the row passed; a
failing call changes nothing. -/
def UpdateUser (env : Env) (s : Store) (user : models.User) : Except GoError Store :=
  match env.faults.UpdateUser with
  | some e => .error e
  | none => .ok { s with users := updateRow models.User.Id user.Id user s.users }

/-- Modelled from the spec: `ProductsRepo.UpdateProduct`, whose implementation is
not in the service file: a point update keyed by the identifier passed; a failing
call changes nothing. -/
def UpdateProduct (env : Env) (s : Store) (product : models.Product) (id : Nat) :
    Except GoError Store :=
  match env.faults.UpdateProduct with
  | some e => .error e
  | none => .ok { s with products := updateRow models.Product.Id id product s.products }

/-- Modelled from the spec: `CategoryRepo.UpdateCategory`, whose implementation is
not in the service file: a point update keyed by the identifier passed; a failing
call changes nothing. -/
def UpdateCategory (env : Env) (s : Store) (category : models.Category) (id : Nat) :
    Except GoError Store :=
  match env.faults.UpdateCategory with
  | some e => .error e
  | none => .ok { s with categories := updateRow models.Category.Id id category s.categories }

/-- Modelled from the spec: the identifier the store assigns to the next history
row; taken to be one more than the largest in use. -/
def nextTransactionId (s : Store) : Nat :=
  (s.transactions.map (fun t => t.Id)).foldr max 0 + 1

/-- Modelled from the spec: `TransactionsRepo.CreateTransaction`, whose
implementation is not in the service file: appends the row to the history,
assigning its identifier and time stamps; a failing call changes nothing. -/
def CreateTransaction (env : Env) (s : Store) (model : models.TransactionHistory) :
    Except GoError Store :=
  match env.faults.CreateTransaction with
  | some e => .error e
  | none =>
    .ok { s with transactions := s.transactions ++
            [{ model with Id := nextTransactionId s, CreatedAt := env.now, UpdatedAt := env.now }] }

/-- Modelled from the spec: the join of a history row with its product, as the
transactions repository returns rows to the read paths; a row whose product is
gone keeps the zero value. -/
def joinProduct (s : Store) (t : models.TransactionHistory) : models.TransactionHistory :=
  { t with
    Product := (lookupRow models.Product.Id t.ProductId s.products).getD models.Product.zero }

/-- Modelled from the spec: the join of a history row with its user. -/
def joinUser (s : Store) (t : models.TransactionHistory) : models.TransactionHistory :=
  { t with User := (lookupRow models.User.Id t.UserId s.users).getD models.User.zero }

/-- Modelled from the spec: `TransactionsRepo.GetMyTransaction`, whose
implementation is not in the service file: all history rows of the user, each
joined with its product, in the order of the history. -/
def GetMyTransaction (env : Env) (s : Store) (userId : Nat) :
    Except GoError (List models.TransactionHistory) :=
  match env.faults.GetMyTransaction with
  | some e => .error e
  | none => .ok ((s.transactions.filter (fun t => t.UserId == userId)).map (joinProduct s))

/-- Modelled from the spec: `TransactionsRepo.GetUserTransaction`, whose
implementation is not in the service file: all history rows, each joined with its
product and its user, in the order of the history. -/
def GetUserTransaction (env : Env) (s : Store) :
    Except GoError (List models.TransactionHistory) :=
  match env.faults.GetUserTransaction with
  | some e => .error e
  | none => .ok (s.transactions.map (fun t => joinUser s (joinProduct s t)))

end repositories

/-! ## The service -/

/-- What one service invocation leaves behind: the response, the store after the
call and the repository calls made, in order. -/
structure Outcome (α : Type) where
  response : views.Response α
  store : Store
  trace : List RepoCall
  deriving DecidableEq, Repr

namespace services

open views http repositories

/-- Embedding of `transactionSvc.CreateTransaction`. -/
def CreateTransaction (env : Env) (s : Store) (ctx : Context) (params : params.CreateTransactions) :
    Outcome views.CreateTransaction :=
  let t1 := [RepoCall.GetProductById params.ProductId]
  match GetProductById env s params.ProductId with
  | .error err =>
    if err = GoError.ErrRecordNotFound then
      ⟨ErrorResponse StatusBadRequest Message.M_BAD_REQUEST (GoError.other "product id is invalid"),
        s, t1⟩
    else
      ⟨ErrorResponse StatusInternalServerError Message.M_INTERNAL_SERVER_ERROR err, s, t1⟩
  | .ok product =>
  let t2 := t1 ++ [RepoCall.FindCategoryById product.CategoryId]
  match FindCategoryById env s product.CategoryId with
  | .error err =>
    ⟨ErrorResponse StatusInternalServerError Message.M_INTERNAL_SERVER_ERROR err, s, t2⟩
  | .ok category =>
  if product.Stock < params.Quantity then
    ⟨ErrorResponse StatusBadRequest Message.M_STOCK_IS_NOT_ENOUGH
        (GoError.other "stock is not enough"), s, t2⟩
  else
  let userData := ctx.userData
  let t3 := t2 ++ [RepoCall.FindUserById (toUint userData.Id)]
  match FindUserById env s (toUint userData.Id) with
  | .error err =>
    ⟨ErrorResponse StatusInternalServerError Message.M_INTERNAL_SERVER_ERROR err, s, t3⟩
  | .ok user =>
  if user.Balance < umul (toUint params.Quantity) product.Price then
    ⟨ErrorResponse StatusBadRequest Message.M_BALANCE_IS_NOT_ENOUGH
        (GoError.other "balance is not enough"), s, t3⟩
  else
  let user := { user with Balance := usub user.Balance (umul (toUint params.Quantity) product.Price) }
  let t4 := t3 ++ [RepoCall.UpdateUser user]
  match UpdateUser env s user with
  | .error err =>
    ⟨ErrorResponse StatusInternalServerError Message.M_INTERNAL_SERVER_ERROR err, s, t4⟩
  | .ok s1 =>
  let product := { product with Stock := isub product.Stock params.Quantity }
  let t5 := t4 ++ [RepoCall.UpdateProduct product product.Id]
  match UpdateProduct env s1 product product.Id with
  | .error err =>
    ⟨ErrorResponse StatusInternalServerError Message.M_INTERNAL_SERVER_ERROR err, s1, t5⟩
  | .ok s2 =>
  let category :=
    { category with SoldProductAmount := uadd category.SoldProductAmount (toUint params.Quantity) }
  let t6 := t5 ++ [RepoCall.UpdateCategory category category.Id]
  match UpdateCategory env s2 category category.Id with
  | .error err =>
    ⟨ErrorResponse StatusInternalServerError Message.M_INTERNAL_SERVER_ERROR err, s2, t6⟩
  | .ok s3 =>
  let model : models.TransactionHistory :=
    { Id := 0
      ProductId := params.ProductId
      UserId := user.Id
      Quantity := params.Quantity
      TotalPrice := imul params.Quantity (toInt product.Price)
      CreatedAt := 0
      UpdatedAt := 0
      Product := models.Product.zero
      User := models.User.zero }
  let t7 := t6 ++ [RepoCall.CreateTransaction model]
  match repositories.CreateTransaction env s3 model with
  | .error err =>
    ⟨ErrorResponse StatusInternalServerError Message.M_INTERNAL_SERVER_ERROR err, s3, t7⟩
  | .ok s4 =>
  ⟨SuccessResponse StatusCreated Message.M_CREATED
      { TotalPrice := umul product.Price (toUint params.Quantity)
        Quantity := toUint params.Quantity
        ProductTitle := product.Title },
    s4, t7⟩

end services

/-! ## The read paths -/

namespace views

/-- Modelled from the spec: the type `views.ProductTransaction`, whose declaration
is not in the service file: the product snapshot of a listed transaction. -/
structure ProductTransaction where
  Id : Nat
  Title : String
  Price : Nat
  Stock : Int
  CategoryId : Nat
  CreatedAt : Nat
  UpdatedAt : Nat
  deriving DecidableEq, Repr

/-- Modelled from the spec: the type `views.UserTransaction`, whose declaration is
not in the service file: the user snapshot of a listed transaction. -/
structure UserTransaction where
  Id : Nat
  Email : String
  FullName : String
  Balance : Nat
  CreatedAt : Nat
  UpdatedAt : Nat
  deriving DecidableEq, Repr

/-- Modelled from the spec: the type `views.GetMyTransaction`, whose declaration is
not in the service file: an entry of the buyer's own list; quantity and total are
`uint`, as the conversions of the service show. -/
structure GetMyTransaction where
  Id : Nat
  ProductId : Nat
  UserId : Nat
  Quantity : Nat
  TotalPrice : Nat
  Product : ProductTransaction
  deriving DecidableEq, Repr

/-- Modelled from the spec: the type `views.GetUserTransaction`, whose declaration
is not in the service file: an entry of the list of all transactions; quantity and
total are assigned unconverted, so they are `int`. -/
structure GetUserTransaction where
  Id : Nat
  ProductId : Nat
  UserId : Nat
  Quantity : Int
  TotalPrice : Int
  Product : ProductTransaction
  User : UserTransaction
  deriving DecidableEq, Repr

end views

namespace services

open views http

/-- Embedding of `transactionSvc.GetMyTransaction`; the `for ... append` loop is a
left fold that appends one entry per row. -/
def GetMyTransaction (env : Env) (s : Store) (ctx : Context) :
    Outcome (List views.GetMyTransaction) :=
  let userData := ctx.userData
  let t1 := [RepoCall.GetMyTransaction (toUint userData.Id)]
  match repositories.GetMyTransaction env s (toUint userData.Id) with
  | .error err =>
    ⟨ErrorResponse StatusInternalServerError Message.M_INTERNAL_SERVER_ERROR err, s, t1⟩
  | .ok transaction =>
  let temp : List views.GetMyTransaction :=
    transaction.foldl
      (fun temp t => temp ++
        [{ Id := t.Id
           ProductId := t.ProductId
           UserId := t.UserId
           Quantity := toUint t.Quantity
           TotalPrice := toUint t.TotalPrice
           Product :=
             { Id := t.Product.Id
               Title := t.Product.Title
               Price := t.Product.Price
               Stock := t.Product.Stock
               CategoryId := t.Product.CategoryId
               CreatedAt := t.Product.CreatedAt
               UpdatedAt := t.Product.UpdatedAt } }])
      []
  ⟨SuccessResponse StatusOK Message.M_OK temp, s, t1⟩

/-- Embedding of `transactionSvc.GetUserTransaction`. -/
def GetUserTransaction (env : Env) (s : Store) : Outcome (List views.GetUserTransaction) :=
  let t1 := [RepoCall.GetUserTransaction]
  match repositories.GetUserTransaction env s with
  | .error err =>
    ⟨ErrorResponse StatusInternalServerError Message.M_INTERNAL_SERVER_ERROR err, s, t1⟩
  | .ok transaction =>
  let temp : List views.GetUserTransaction :=
    transaction.foldl
      (fun temp t => temp ++
        [{ Id := t.Id
           ProductId := t.ProductId
           UserId := t.UserId
           Quantity := t.Quantity
           TotalPrice := t.TotalPrice
           Product :=
             { Id := t.Product.Id
               Title := t.Product.Title
               Price := t.Product.Price
               Stock := t.Product.Stock
               CategoryId := t.Product.CategoryId
               CreatedAt := t.Product.CreatedAt
               UpdatedAt := t.Product.UpdatedAt }
           User :=
             { Id := t.User.Id
               Email := t.User.Email
               FullName := t.User.FullName
               Balance := t.User.Balance
               CreatedAt := t.User.CreatedAt
               UpdatedAt := t.User.UpdatedAt } }])
      []
  ⟨SuccessResponse StatusOK Message.M_OK temp, s, t1⟩

end services

/-! ## Sequences of orders -/

/-- One order as the service receives it: its environment, the request context
and the request body. -/
structure Call where
  env : Env
  ctx : Context
  params : params.CreateTransactions
  deriving DecidableEq, Repr

/-- Store left by a finite sequence of `CreateTransaction` calls made one after
the other, each on the store the previous one left. -/
def runOrders (s : Store) : List Call → Store
  | [] => s
  | c :: rest => runOrders (services.CreateTransaction c.env s c.ctx c.params).store rest

/-- Outcomes of a finite sequence of `CreateTransaction` calls made one after the
other, in the order of the calls. -/
def runOutcomes (s : Store) : List Call → List (Outcome views.CreateTransaction)
  | [] => []
  | c :: rest =>
    services.CreateTransaction c.env s c.ctx c.params ::
      runOutcomes (services.CreateTransaction c.env s c.ctx c.params).store rest

/-- Whether the subtraction `product.Stock -= quantity` of an order stays in the
range of a Go `int` on this store: for the product the order names, the exact
difference is below `2 ^ 63`. -/
def stockFits (s : Store) (p : params.CreateTransactions) : Bool :=
  match repositories.lookupRow models.Product.Id p.ProductId s.products with
  | some product => decide (product.Stock - p.Quantity < 2 ^ 63)
  | none => true

/-- Whether `stockFits` holds of every call of a sequence, each on the store the
calls before it left. -/
def runFits (s : Store) : List Call → Bool
  | [] => true
  | c :: rest =>
    stockFits s c.params && runFits (services.CreateTransaction c.env s c.ctx c.params).store rest

/-! ## Interleaved execution of several orders -/

/-- Where one `CreateTransaction` call stands: the repository call it makes next,
with the local variables it holds at that point, or the response it returned. -/
inductive Progress where
  | atGetProductById
  | atFindCategoryById (product : models.Product)
  | atFindUserById (product : models.Product) (category : models.Category)
  | atUpdateUser (product : models.Product) (category : models.Category) (user : models.User)
  | atUpdateProduct (product : models.Product) (category : models.Category) (user : models.User)
  | atUpdateCategory (product : models.Product) (category : models.Category) (user : models.User)
  | atCreateTransaction (product : models.Product) (category : models.Category)
      (user : models.User)
  | returned (response : views.Response views.CreateTransaction)
  deriving DecidableEq, Repr

/-- Status code of the response, once the call has returned. -/
def Progress.status? : Progress → Option Nat
  | .returned response => some response.Status
  | _ => none

/-- Position of the call in its sequence of seven repository calls: the number of
the repository call it makes next, counted from 0, and 7 once it has returned. -/
def Progress.rank : Progress → Nat
  | .atGetProductById => 0
  | .atFindCategoryById _ => 1
  | .atFindUserById _ _ => 2
  | .atUpdateUser _ _ _ => 3
  | .atUpdateProduct _ _ _ => 4
  | .atUpdateCategory _ _ _ => 5
  | .atCreateTransaction _ _ _ => 6
  | .returned _ => 7

/-- One repository call of `transactionSvc.CreateTransaction`, together with the
local code between it and the next repository call: the part of the source that
runs without touching the store in between. -/
def step (env : Env) (ctx : Context) (params : params.CreateTransactions) (s : Store) :
    Progress → Store × Progress
  | .atGetProductById =>
    match repositories.GetProductById env s params.ProductId with
    | .error err =>
      if err = GoError.ErrRecordNotFound then
        (s, .returned (views.ErrorResponse http.StatusBadRequest views.Message.M_BAD_REQUEST
          (GoError.other "product id is invalid")))
      else
        (s, .returned (views.ErrorResponse http.StatusInternalServerError
          views.Message.M_INTERNAL_SERVER_ERROR err))
    | .ok product => (s, .atFindCategoryById product)
  | .atFindCategoryById product =>
    match repositories.FindCategoryById env s product.CategoryId with
    | .error err =>
      (s, .returned (views.ErrorResponse http.StatusInternalServerError
        views.Message.M_INTERNAL_SERVER_ERROR err))
    | .ok category =>
      if product.Stock < params.Quantity then
        (s, .returned (views.ErrorResponse http.StatusBadRequest
          views.Message.M_STOCK_IS_NOT_ENOUGH (GoError.other "stock is not enough")))
      else (s, .atFindUserById product category)
  | .atFindUserById product category =>
    match repositories.FindUserById env s (toUint ctx.userData.Id) with
    | .error err =>
      (s, .returned (views.ErrorResponse http.StatusInternalServerError
        views.Message.M_INTERNAL_SERVER_ERROR err))
    | .ok user =>
      if user.Balance < umul (toUint params.Quantity) product.Price then
        (s, .returned (views.ErrorResponse http.StatusBadRequest
          views.Message.M_BALANCE_IS_NOT_ENOUGH (GoError.other "balance is not enough")))
      else (s, .atUpdateUser product category user)
  | .atUpdateUser product category user =>
    let user :=
      { user with Balance := usub user.Balance (umul (toUint params.Quantity) product.Price) }
    match repositories.UpdateUser env s user with
    | .error err =>
      (s, .returned (views.ErrorResponse http.StatusInternalServerError
        views.Message.M_INTERNAL_SERVER_ERROR err))
    | .ok s1 => (s1, .atUpdateProduct product category user)
  | .atUpdateProduct product category user =>
    let product := { product with Stock := isub product.Stock params.Quantity }
    match repositories.UpdateProduct env s product product.Id with
    | .error err =>
      (s, .returned (views.ErrorResponse http.StatusInternalServerError
        views.Message.M_INTERNAL_SERVER_ERROR err))
    | .ok s2 => (s2, .atUpdateCategory product category user)
  | .atUpdateCategory product category user =>
    let category :=
      { category with
        SoldProductAmount := uadd category.SoldProductAmount (toUint params.Quantity) }
    match repositories.UpdateCategory env s category category.Id with
    | .error err =>
      (s, .returned (views.ErrorResponse http.StatusInternalServerError
        views.Message.M_INTERNAL_SERVER_ERROR err))
    | .ok s3 => (s3, .atCreateTransaction product category user)
  | .atCreateTransaction product _ user =>
    let model : models.TransactionHistory :=
      { Id := 0
        ProductId := params.ProductId
        UserId := user.Id
        Quantity := params.Quantity
        TotalPrice := imul params.Quantity (toInt product.Price)
        CreatedAt := 0
        UpdatedAt := 0
        Product := models.Product.zero
        User := models.User.zero }
    match repositories.CreateTransaction env s model with
    | .error err =>
      (s, .returned (views.ErrorResponse http.StatusInternalServerError
        views.Message.M_INTERNAL_SERVER_ERROR err))
    | .ok s4 =>
      (s4, .returned (views.SuccessResponse http.StatusCreated views.Message.M_CREATED
        { TotalPrice := umul product.Price (toUint params.Quantity)
          Quantity := toUint params.Quantity
          ProductTitle := product.Title }))
  | .returned response => (s, .returned response)

/-- A call run on its own for `n` repository calls. -/
def runSteps (env : Env) (ctx : Context) (params : params.CreateTransactions) :
    Nat → Store × Progress → Store × Progress
  | 0, x => x
  | n + 1, x => runSteps env ctx params n (step env ctx params x.1 x.2)

/-- A call in progress. -/
structure Running where
  call : Call
  progress : Progress
  deriving DecidableEq, Repr

/-- Several calls in progress on one store. -/
structure Pool where
  store : Store
  running : List Running
  deriving DecidableEq, Repr

/-- The pool in which every call is about to make its first repository call. -/
def startPool (s : Store) (calls : List Call) : Pool :=
  { store := s, running := calls.map (fun c => { call := c, progress := .atGetProductById }) }

/-- The `i`-th call of the list makes its next repository call on the store; an
index past the end changes nothing. -/
def stepInList (s : Store) : Nat → List Running → Store × List Running
  | _, [] => (s, [])
  | 0, t :: rest =>
    ((step t.call.env t.call.ctx t.call.params s t.progress).1,
      { t with progress := (step t.call.env t.call.ctx t.call.params s t.progress).2 } :: rest)
  | i + 1, t :: rest => ((stepInList s i rest).1, t :: (stepInList s i rest).2)

/-- The `i`-th call of the pool makes its next repository call. -/
def stepAt (i : Nat) (pool : Pool) : Pool :=
  { store := (stepInList pool.store i pool.running).1
    running := (stepInList pool.store i pool.running).2 }

/-- An interleaving of the repository calls of the calls in the pool: the schedule
names, one after the other, the call that makes its next repository call. -/
def runSchedule (pool : Pool) : List Nat → Pool
  | [] => pool
  | i :: rest => runSchedule (stepAt i pool) rest

/-- The schedule that runs `n` calls one after the other, starting with call `k`:
each makes its seven repository calls before the next one starts. -/
def serialSchedule (k : Nat) : Nat → List Nat
  | 0 => []
  | n + 1 => List.replicate 7 k ++ serialSchedule (k + 1) n

/-- Whether the call has not yet written the product row. -/
def Progress.productPending : Progress → Bool
  | .atGetProductById => true
  | .atFindCategoryById _ => true
  | .atFindUserById _ _ => true
  | .atUpdateUser _ _ _ => true
  | .atUpdateProduct _ _ _ => true
  | .atUpdateCategory _ _ _ => false
  | .atCreateTransaction _ _ _ => false
  | .returned _ => false

/-- Whether the call has not yet written the user row. -/
def Progress.userPending : Progress → Bool
  | .atGetProductById => true
  | .atFindCategoryById _ => true
  | .atFindUserById _ _ => true
  | .atUpdateUser _ _ _ => true
  | .atUpdateProduct _ _ _ => false
  | .atUpdateCategory _ _ _ => false
  | .atCreateTransaction _ _ _ => false
  | .returned _ => false

/-- Number of calls that have not yet written the product row. -/
def pendingProducts (l : List Running) : Nat := l.countP (fun t => t.progress.productPending)

/-- Number of calls that have not yet written the user row. -/
def pendingUsers (l : List Running) : Nat := l.countP (fun t => t.progress.userPending)

/-- The setting of several identical orders: `calls` orders of `quantity` units of
the product `productId` (of category `categoryId`, at unit price `price`) placed
by the buyer `userId`, whose balance is `funds` at the start. -/
structure Sale where
  calls : Nat
  quantity : Int
  productId : Nat
  categoryId : Nat
  userId : Nat
  price : Nat
  funds : Nat
  call : Call

/-- A product row as it can be while `a` calls have not yet written it: the stock
covers those `a` orders and does not exceed the stock at the start. -/
def Sale.goodProduct (σ : Sale) (a : Nat) (product : models.Product) : Prop :=
  product.Id = σ.productId ∧ product.CategoryId = σ.categoryId ∧ product.Price = σ.price ∧
    (a : Int) * σ.quantity ≤ product.Stock ∧ product.Stock ≤ (σ.calls : Int) * σ.quantity

/-- A user row as it can be while `b` calls have not yet written it: the balance
covers those `b` orders and does not exceed the balance at the start. -/
def Sale.goodUser (σ : Sale) (b : Nat) (user : models.User) : Prop :=
  user.Id = σ.userId ∧ b * (toUint σ.quantity * σ.price) ≤ user.Balance ∧
    user.Balance ≤ σ.funds

/-- What is known of the local variables of a call at each point of its progress,
while `a` calls have not yet written the product row and `b` calls have not yet
written the user row; a call that has returned has returned 201. -/
def Sale.goodProgress (σ : Sale) (a b : Nat) : Progress → Prop
  | .atGetProductById => True
  | .atFindCategoryById product => σ.goodProduct a product
  | .atFindUserById product category => σ.goodProduct a product ∧ category.Id = σ.categoryId
  | .atUpdateUser product category user =>
    σ.goodProduct a product ∧ category.Id = σ.categoryId ∧ σ.goodUser b user
  | .atUpdateProduct product category _ =>
    σ.goodProduct a product ∧ category.Id = σ.categoryId
  | .atUpdateCategory _ category _ => category.Id = σ.categoryId
  | .atCreateTransaction _ _ _ => True
  | .returned response => response.Status = 201

/-- The side conditions of a sale: a positive quantity, every repository call
served, the call of the sale ordering that quantity of that product for that
buyer, and stock and balance at the start within the range of a Go `int` and
`uint`. -/
def Sale.wellFormed (σ : Sale) : Prop :=
  0 < σ.quantity ∧ σ.call.env.faults = Faults.none ∧
    σ.call.params = { ProductId := σ.productId, Quantity := σ.quantity } ∧
    toUint σ.call.ctx.userData.Id = σ.userId ∧
    (σ.calls : Int) * σ.quantity < 2 ^ 63 ∧ σ.funds < 2 ^ 64

/-- The invariant of the interleaved execution of the orders of a sale. -/
def Sale.invariant (σ : Sale) (pool : Pool) : Prop :=
  pool.running.length = σ.calls ∧
  (∀ t ∈ pool.running, t.call = σ.call ∧
    σ.goodProgress (pendingProducts pool.running) (pendingUsers pool.running) t.progress) ∧
  (∃ product, repositories.lookupRow models.Product.Id σ.productId pool.store.products =
      some product ∧ σ.goodProduct (pendingProducts pool.running) product) ∧
  (∃ category, repositories.lookupRow models.Category.Id σ.categoryId pool.store.categories =
      some category) ∧
  (∃ user, repositories.lookupRow models.User.Id σ.userId pool.store.users = some user ∧
      σ.goodUser (pendingUsers pool.running) user)

/-! ## The history as the record of what was sold -/

/-- Category a history row counts for: the category of the product the row names,
looked up in the products table. -/
def categoryOfRow (s : Store) (t : models.TransactionHistory) : Option Nat :=
  (repositories.lookupRow models.Product.Id t.ProductId s.products).map (fun x => x.CategoryId)

/-- Sum of the `Quantity` fields of the history rows whose product belongs to the
category `categoryId`. -/
def historySum (s : Store) (categoryId : Nat) : Int :=
  ((s.transactions.filter (fun t => categoryOfRow s t == some categoryId)).map
    (fun t => t.Quantity)).sum

/-! ## Concrete stores used to evaluate the service -/

/-- Product 1, a pen in category 7. -/
def penRow (price : Nat) (stock : Int) : models.Product :=
  { Id := 1, Title := "pen", Price := price, Stock := stock, CategoryId := 7,
    CreatedAt := 0, UpdatedAt := 0 }

/-- User 3. -/
def buyerRow (balance : Nat) : models.User :=
  { Id := 3, FullName := "Ani", Email := "ani@example.com", Password := "x",
    Balance := balance, CreatedAt := 0, UpdatedAt := 0 }

/-- Category 7. -/
def categoryRow (sold : Nat) : models.Category :=
  { Id := 7, Name := "stationery", SoldProductAmount := sold, CreatedAt := 0, UpdatedAt := 0 }

/-- A store with one product (id 1, category 7), one user (id 3) and one
category (id 7), and an empty history. -/
def sampleStore (price : Nat) (stock : Int) (balance sold : Nat) : Store :=
  { products := [penRow price stock]
    users := [buyerRow balance]
    categories := [categoryRow sold]
    transactions := [] }

/-- The sample store without its category row: the product points at a category
that does not exist. -/
def orphanStore (price : Nat) (stock : Int) (balance : Nat) : Store :=
  { sampleStore price stock balance 0 with categories := [] }

/-- Environment in which every repository call is served by the store. -/
def calmEnv : Env := { faults := Faults.none, now := 0 }

/-- Environment in which only `UpdateCategory` fails. -/
def categoryDownEnv : Env :=
  { faults := { Faults.none with UpdateCategory := some (GoError.other "connection lost") },
    now := 0 }

/-- A history row for product 1. -/
def soldRow (id userId : Nat) (quantity totalPrice : Int) : models.TransactionHistory :=
  { Id := id, ProductId := 1, UserId := userId, Quantity := quantity, TotalPrice := totalPrice,
    CreatedAt := 0, UpdatedAt := 0, Product := models.Product.zero, User := models.User.zero }

/-- A store with two buyers (3 and 4) and a history of three orders of one pen: two
by buyer 3 and, in between, one by buyer 4. -/
def ledgerStore : Store :=
  { products := [penRow 30 2]
    users := [buyerRow 40, { buyerRow 70 with Id := 4, FullName := "Budi", Email := "budi@example.com" }]
    categories := [categoryRow 3]
    transactions := [soldRow 1 3 1 30, soldRow 2 4 1 30, soldRow 3 3 1 30] }

/-- The sample store with free pens, a counter of 5 and a history of one order of 5
pens by buyer 3. -/
def countedStore : Store :=
  { sampleStore 0 5 100 5 with transactions := [soldRow 1 3 5 0] }

/-- Product 2, ink in category 8. -/
def inkRow : models.Product :=
  { Id := 2, Title := "ink", Price := 50, Stock := 9, CategoryId := 8, CreatedAt := 0,
    UpdatedAt := 0 }

/-- User 4. -/
def otherBuyerRow : models.User :=
  { Id := 4, FullName := "Budi", Email := "budi@example.com", Password := "x", Balance := 70,
    CreatedAt := 0, UpdatedAt := 0 }

/-- Category 8. -/
def inkCategoryRow : models.Category :=
  { Id := 8, Name := "inks", SoldProductAmount := 1, CreatedAt := 0, UpdatedAt := 0 }

/-- A store with two products, two users, two categories and a history of three
orders of one pen. -/
def bazaarStore : Store :=
  { products := [penRow 30 2, inkRow]
    users := [buyerRow 40, otherBuyerRow]
    categories := [categoryRow 3, inkCategoryRow]
    transactions := [soldRow 1 3 1 30, soldRow 2 4 1 30, soldRow 3 3 1 30] }

/-- Environment in which only `UpdateProduct` fails. -/
def productDownEnv : Env :=
  { faults := { Faults.none with UpdateProduct := some (GoError.other "connection lost") },
    now := 0 }

/-- Request context of the authenticated user 3. -/
def buyerCtx : Context := { userData := { Id := 3 } }

/-- An order for product 1. -/
def orderFor (quantity : Int) : params.CreateTransactions := { ProductId := 1, Quantity := quantity }

/-! # Properties -/

/-! ## Machine arithmetic -/

theorem toUint_lt (x : Int) : toUint x < wordSize := by
  unfold toUint wordSize; omega

theorem toUint_of_nonneg (x : Int) (h0 : 0 ≤ x) (h1 : x < (wordSize : Int)) :
    (toUint x : Int) = x := by
  unfold toUint wordSize at *; omega

theorem toInt_of_lt (n : Nat) (h : n < halfWord) : toInt n = (n : Int) := by
  unfold toInt halfWord wordSize at *
  split <;> omega

theorem wrapInt_of_isInt (x : Int) (h : IsInt x) : wrapInt x = x := by
  unfold wrapInt toInt toUint IsInt halfWord wordSize at *
  split <;> omega

theorem usub_of_le (a b : Nat) (ha : IsUint a) (h : b ≤ a) : usub a b = a - b := by
  unfold usub IsUint wordSize at *; omega

theorem uadd_of_lt (a b : Nat) (h : a + b < wordSize) : uadd a b = a + b := by
  unfold uadd wordSize at *; omega

theorem umul_lt (a b : Nat) : umul a b < wordSize := by
  unfold umul wordSize; omega

theorem umul_of_lt (a b : Nat) (h : a * b < wordSize) : umul a b = a * b := by
  unfold umul; exact Nat.mod_eq_of_lt h

theorem isub_of_le (a b : Int) (ha : IsInt a) (hb : 0 ≤ b) (h : b ≤ a) : isub a b = a - b := by
  unfold isub; apply wrapInt_of_isInt
  unfold IsInt halfWord at *; omega

/-- The machine-word total is the exact product when that fits a word. -/
theorem umul_toUint_exact (q : Int) (price : Nat) (h0 : 0 ≤ q)
    (h : q * (price : Int) < 2 ^ 64) (hq : q < 2 ^ 64) :
    ((umul (toUint q) price : Nat) : Int) = q * (price : Int) := by
  have hn := toUint_of_nonneg q h0 (by unfold wordSize; push_cast; omega)
  have hmul : ((toUint q * price : Nat) : Int) < 2 ^ 64 := by
    push_cast; rw [hn]; exact h
  have hmulN : toUint q * price < 2 ^ 64 := by exact_mod_cast hmul
  rw [umul_of_lt _ _ (by unfold wordSize; omega)]
  push_cast; rw [hn]

/-! ## Point lookup and point update on a table -/

namespace repositories

theorem lookupRow_key {α : Type} (key : α → Nat) (k : Nat) (l : List α) (x : α)
    (h : lookupRow key k l = some x) : key x = k ∧ x ∈ l := by
  unfold lookupRow at h
  have h1 := List.find?_some h
  exact ⟨by simpa using h1, List.mem_of_find?_eq_some h⟩

theorem lookupRow_updateRow_same {α : Type} (key : α → Nat) (k : Nat) (v : α) (hv : key v = k)
    (l : List α) (x : α) (h : lookupRow key k l = some x) :
    lookupRow key k (updateRow key k v l) = some v := by
  unfold lookupRow at *
  induction l with
  | nil => simp at h
  | cons a t ih =>
    by_cases hk : key a = k
    · simp [updateRow, List.find?_cons, hk, hv]
    · have hk2 : (key a == k) = false := by simpa using hk
      rw [List.find?_cons, hk2] at h
      simp only [updateRow, List.find?_cons, hk2, Bool.false_eq_true, if_false]
      exact ih h

theorem lookupRow_updateRow_other {α : Type} (key : α → Nat) (k j : Nat) (v : α)
    (hv : key v = k) (hj : j ≠ k) (l : List α) :
    lookupRow key j (updateRow key k v l) = lookupRow key j l := by
  unfold lookupRow
  induction l with
  | nil => rfl
  | cons a t ih =>
    by_cases hk : key a = k
    · have h1 : (key a == j) = false := by
        simp only [beq_eq_false_iff_ne, ne_eq]; intro h; exact hj (h ▸ hk)
      have h2 : (key v == j) = false := by
        simp only [beq_eq_false_iff_ne, ne_eq]; intro h; exact hj (h ▸ hv)
      have h3 : (key a == k) = true := by simpa using hk
      simp only [updateRow, List.find?_cons, h3, if_true, h1, h2]
    · have h3 : (key a == k) = false := by simpa using hk
      simp only [updateRow, List.find?_cons, h3, Bool.false_eq_true, if_false]
      rw [ih]

theorem mem_updateRow {α : Type} (key : α → Nat) (k : Nat) (v : α) (l : List α) (y : α)
    (h : y ∈ updateRow key k v l) : y = v ∨ y ∈ l := by
  induction l with
  | nil => simp [updateRow] at h
  | cons a t ih =>
    unfold updateRow at h
    split at h
    · rcases List.mem_cons.mp h with h1 | h1
      · exact Or.inl h1
      · exact Or.inr (List.mem_cons_of_mem _ h1)
    · rcases List.mem_cons.mp h with h1 | h1
      · exact Or.inr (h1 ▸ List.mem_cons_self _ _)
      · rcases ih h1 with h2 | h2
        · exact Or.inl h2
        · exact Or.inr (List.mem_cons_of_mem _ h2)

/-- A point update relates every row of the table to the row at the same position
afterwards: the row looked up to its replacement, every other row to itself. -/
theorem forall₂_updateRow {α : Type} (R : α → α → Prop) (key : α → Nat) (k : Nat) (v : α)
    (l : List α) (hrefl : ∀ a, R a a) (hv : ∀ x, lookupRow key k l = some x → R x v) :
    List.Forall₂ R l (updateRow key k v l) := by
  induction l with
  | nil => exact List.Forall₂.nil
  | cons a t ih =>
    unfold updateRow
    by_cases hk : key a = k
    · have h3 : (key a == k) = true := by simpa using hk
      simp only [h3, if_true]
      refine List.Forall₂.cons (hv a ?_) (List.forall₂_same.mpr (fun x _ => hrefl x))
      simp [lookupRow, List.find?_cons, h3]
    · have h3 : (key a == k) = false := by simpa using hk
      simp only [h3, Bool.false_eq_true, if_false]
      refine List.Forall₂.cons (hrefl a) (ih ?_)
      intro x hx
      apply hv
      simpa [lookupRow, List.find?_cons, h3] using hx

theorem GetProductById_ok (env : Env) (s : Store) (id : Nat) (product : models.Product)
    (h : GetProductById env s id = .ok product) :
    env.faults.GetProductById = none ∧ lookupRow models.Product.Id id s.products = some product := by
  unfold GetProductById at h
  cases hf : env.faults.GetProductById with
  | some e => simp [hf] at h
  | none =>
    cases hl : lookupRow models.Product.Id id s.products with
    | none => simp [hf, hl] at h
    | some x =>
      simp only [hf, hl, Except.ok.injEq] at h
      exact ⟨rfl, by rw [h]⟩

theorem FindCategoryById_ok (env : Env) (s : Store) (id : Nat) (category : models.Category)
    (h : FindCategoryById env s id = .ok category) :
    env.faults.FindCategoryById = none ∧
      lookupRow models.Category.Id id s.categories = some category := by
  unfold FindCategoryById at h
  cases hf : env.faults.FindCategoryById with
  | some e => simp [hf] at h
  | none =>
    cases hl : lookupRow models.Category.Id id s.categories with
    | none => simp [hf, hl] at h
    | some x =>
      simp only [hf, hl, Except.ok.injEq] at h
      exact ⟨rfl, by rw [h]⟩

theorem FindUserById_ok (env : Env) (s : Store) (id : Nat) (user : models.User)
    (h : FindUserById env s id = .ok user) :
    env.faults.FindUserById = none ∧ lookupRow models.User.Id id s.users = some user := by
  unfold FindUserById at h
  cases hf : env.faults.FindUserById with
  | some e => simp [hf] at h
  | none =>
    cases hl : lookupRow models.User.Id id s.users with
    | none => simp [hf, hl] at h
    | some x =>
      simp only [hf, hl, Except.ok.injEq] at h
      exact ⟨rfl, by rw [h]⟩

theorem UpdateUser_ok (env : Env) (s s1 : Store) (user : models.User)
    (h : UpdateUser env s user = .ok s1) :
    env.faults.UpdateUser = none ∧
      s1 = { s with users := updateRow models.User.Id user.Id user s.users } := by
  unfold UpdateUser at h
  cases hf : env.faults.UpdateUser with
  | some e => simp [hf] at h
  | none =>
    simp only [hf, Except.ok.injEq] at h
    exact ⟨rfl, h.symm⟩

theorem UpdateProduct_ok (env : Env) (s s1 : Store) (product : models.Product) (id : Nat)
    (h : UpdateProduct env s product id = .ok s1) :
    env.faults.UpdateProduct = none ∧
      s1 = { s with products := updateRow models.Product.Id id product s.products } := by
  unfold UpdateProduct at h
  cases hf : env.faults.UpdateProduct with
  | some e => simp [hf] at h
  | none =>
    simp only [hf, Except.ok.injEq] at h
    exact ⟨rfl, h.symm⟩

theorem UpdateCategory_ok (env : Env) (s s1 : Store) (category : models.Category) (id : Nat)
    (h : UpdateCategory env s category id = .ok s1) :
    env.faults.UpdateCategory = none ∧
      s1 = { s with categories := updateRow models.Category.Id id category s.categories } := by
  unfold UpdateCategory at h
  cases hf : env.faults.UpdateCategory with
  | some e => simp [hf] at h
  | none =>
    simp only [hf, Except.ok.injEq] at h
    exact ⟨rfl, h.symm⟩

theorem CreateTransaction_ok (env : Env) (s s1 : Store) (model : models.TransactionHistory)
    (h : repositories.CreateTransaction env s model = .ok s1) :
    env.faults.CreateTransaction = none ∧
      s1 = { s with transactions := s.transactions ++
              [{ model with Id := nextTransactionId s, CreatedAt := env.now,
                            UpdatedAt := env.now }] } := by
  unfold repositories.CreateTransaction at h
  cases hf : env.faults.CreateTransaction with
  | some e => simp [hf] at h
  | none =>
    simp only [hf, Except.ok.injEq] at h
    exact ⟨rfl, h.symm⟩

theorem UpdateUser_error (env : Env) (s : Store) (user : models.User) (e : GoError)
    (h : UpdateUser env s user = .error e) : env.faults.UpdateUser = some e := by
  unfold UpdateUser at h
  cases hf : env.faults.UpdateUser with
  | some e1 => simpa [hf] using h
  | none => simp [hf] at h

theorem UpdateProduct_error (env : Env) (s : Store) (product : models.Product) (id : Nat)
    (e : GoError) (h : UpdateProduct env s product id = .error e) :
    env.faults.UpdateProduct = some e := by
  unfold UpdateProduct at h
  cases hf : env.faults.UpdateProduct with
  | some e1 => simpa [hf] using h
  | none => simp [hf] at h

theorem UpdateCategory_error (env : Env) (s : Store) (category : models.Category) (id : Nat)
    (e : GoError) (h : UpdateCategory env s category id = .error e) :
    env.faults.UpdateCategory = some e := by
  unfold UpdateCategory at h
  cases hf : env.faults.UpdateCategory with
  | some e1 => simpa [hf] using h
  | none => simp [hf] at h

theorem CreateTransaction_error (env : Env) (s : Store) (model : models.TransactionHistory)
    (e : GoError) (h : repositories.CreateTransaction env s model = .error e) :
    env.faults.CreateTransaction = some e := by
  unfold repositories.CreateTransaction at h
  cases hf : env.faults.CreateTransaction with
  | some e1 => simpa [hf] using h
  | none => simp [hf] at h

end repositories

/-! ## The service: one case per exit of `CreateTransaction` -/

namespace services

open views repositories

/-- Case analysis on the exit taken by `CreateTransaction`: a property that holds
of the outcome written at each `return` of the source holds of the call. -/
theorem CreateTransaction_elim (env : Env) (s : Store) (ctx : Context)
    (p : params.CreateTransactions) (motive : Outcome views.CreateTransaction → Prop)
    (product_missing : GetProductById env s p.ProductId = .error GoError.ErrRecordNotFound →
      motive ⟨ErrorResponse 400 Message.M_BAD_REQUEST (GoError.other "product id is invalid"), s,
        [RepoCall.GetProductById p.ProductId]⟩)
    (product_error : ∀ e, e ≠ GoError.ErrRecordNotFound →
      GetProductById env s p.ProductId = .error e →
      motive ⟨ErrorResponse 500 Message.M_INTERNAL_SERVER_ERROR e, s,
        [RepoCall.GetProductById p.ProductId]⟩)
    (category_error : ∀ product e, GetProductById env s p.ProductId = .ok product →
      FindCategoryById env s product.CategoryId = .error e →
      motive ⟨ErrorResponse 500 Message.M_INTERNAL_SERVER_ERROR e, s,
        [RepoCall.GetProductById p.ProductId, RepoCall.FindCategoryById product.CategoryId]⟩)
    (stock_short : ∀ product category, GetProductById env s p.ProductId = .ok product →
      FindCategoryById env s product.CategoryId = .ok category →
      product.Stock < p.Quantity →
      motive ⟨ErrorResponse 400 Message.M_STOCK_IS_NOT_ENOUGH (GoError.other "stock is not enough"),
        s, [RepoCall.GetProductById p.ProductId, RepoCall.FindCategoryById product.CategoryId]⟩)
    (user_error : ∀ product category e, GetProductById env s p.ProductId = .ok product →
      FindCategoryById env s product.CategoryId = .ok category →
      ¬ product.Stock < p.Quantity →
      FindUserById env s (toUint ctx.userData.Id) = .error e →
      motive ⟨ErrorResponse 500 Message.M_INTERNAL_SERVER_ERROR e, s,
        [RepoCall.GetProductById p.ProductId, RepoCall.FindCategoryById product.CategoryId,
          RepoCall.FindUserById (toUint ctx.userData.Id)]⟩)
    (balance_short : ∀ product category user, GetProductById env s p.ProductId = .ok product →
      FindCategoryById env s product.CategoryId = .ok category →
      ¬ product.Stock < p.Quantity →
      FindUserById env s (toUint ctx.userData.Id) = .ok user →
      user.Balance < umul (toUint p.Quantity) product.Price →
      motive ⟨ErrorResponse 400 Message.M_BALANCE_IS_NOT_ENOUGH
          (GoError.other "balance is not enough"), s,
        [RepoCall.GetProductById p.ProductId, RepoCall.FindCategoryById product.CategoryId,
          RepoCall.FindUserById (toUint ctx.userData.Id)]⟩)
    (writes : ∀ product category user, GetProductById env s p.ProductId = .ok product →
      FindCategoryById env s product.CategoryId = .ok category →
      ¬ product.Stock < p.Quantity →
      FindUserById env s (toUint ctx.userData.Id) = .ok user →
      ¬ user.Balance < umul (toUint p.Quantity) product.Price →
      ∀ user1 product1 category1 model,
      user1 = { user with
                Balance := usub user.Balance (umul (toUint p.Quantity) product.Price) } →
      product1 = { product with Stock := isub product.Stock p.Quantity } →
      category1 = { category with
                    SoldProductAmount := uadd category.SoldProductAmount (toUint p.Quantity) } →
      model = ({ Id := 0, ProductId := p.ProductId, UserId := user.Id, Quantity := p.Quantity,
                 TotalPrice := imul p.Quantity (toInt product.Price), CreatedAt := 0,
                 UpdatedAt := 0, Product := models.Product.zero, User := models.User.zero } :
                models.TransactionHistory) →
      ∀ t3, t3 = [RepoCall.GetProductById p.ProductId,
        RepoCall.FindCategoryById product.CategoryId,
        RepoCall.FindUserById (toUint ctx.userData.Id)] →
      (∀ e, UpdateUser env s user1 = .error e →
        motive ⟨ErrorResponse 500 Message.M_INTERNAL_SERVER_ERROR e, s,
          t3 ++ [RepoCall.UpdateUser user1]⟩) ∧
      (∀ s1 e, UpdateUser env s user1 = .ok s1 →
        UpdateProduct env s1 product1 product.Id = .error e →
        motive ⟨ErrorResponse 500 Message.M_INTERNAL_SERVER_ERROR e, s1,
          t3 ++ [RepoCall.UpdateUser user1, RepoCall.UpdateProduct product1 product.Id]⟩) ∧
      (∀ s1 s2 e, UpdateUser env s user1 = .ok s1 →
        UpdateProduct env s1 product1 product.Id = .ok s2 →
        UpdateCategory env s2 category1 category.Id = .error e →
        motive ⟨ErrorResponse 500 Message.M_INTERNAL_SERVER_ERROR e, s2,
          t3 ++ [RepoCall.UpdateUser user1, RepoCall.UpdateProduct product1 product.Id,
            RepoCall.UpdateCategory category1 category.Id]⟩) ∧
      (∀ s1 s2 s3 e, UpdateUser env s user1 = .ok s1 →
        UpdateProduct env s1 product1 product.Id = .ok s2 →
        UpdateCategory env s2 category1 category.Id = .ok s3 →
        repositories.CreateTransaction env s3 model = .error e →
        motive ⟨ErrorResponse 500 Message.M_INTERNAL_SERVER_ERROR e, s3,
          t3 ++ [RepoCall.UpdateUser user1, RepoCall.UpdateProduct product1 product.Id,
            RepoCall.UpdateCategory category1 category.Id, RepoCall.CreateTransaction model]⟩) ∧
      (∀ s1 s2 s3 s4, UpdateUser env s user1 = .ok s1 →
        UpdateProduct env s1 product1 product.Id = .ok s2 →
        UpdateCategory env s2 category1 category.Id = .ok s3 →
        repositories.CreateTransaction env s3 model = .ok s4 →
        motive ⟨SuccessResponse 201 Message.M_CREATED
            { TotalPrice := umul product.Price (toUint p.Quantity)
              Quantity := toUint p.Quantity
              ProductTitle := product.Title }, s4,
          t3 ++ [RepoCall.UpdateUser user1, RepoCall.UpdateProduct product1 product.Id,
            RepoCall.UpdateCategory category1 category.Id, RepoCall.CreateTransaction model]⟩)) :
    motive (services.CreateTransaction env s ctx p) := by
  cases hp : GetProductById env s p.ProductId with
  | error e =>
    by_cases he : e = GoError.ErrRecordNotFound
    · have := product_missing (he ▸ hp)
      simpa [services.CreateTransaction, hp, he, http.StatusBadRequest] using this
    · have := product_error e he hp
      simpa [services.CreateTransaction, hp, he, http.StatusInternalServerError] using this
  | ok product =>
  cases hc : FindCategoryById env s product.CategoryId with
  | error e =>
    have := category_error product e hp hc
    simpa [services.CreateTransaction, hp, hc, http.StatusInternalServerError] using this
  | ok category =>
  by_cases hs : product.Stock < p.Quantity
  · have := stock_short product category hp hc hs
    simpa [services.CreateTransaction, hp, hc, hs, http.StatusBadRequest] using this
  cases hu : FindUserById env s (toUint ctx.userData.Id) with
  | error e =>
    have := user_error product category e hp hc hs hu
    simpa [services.CreateTransaction, hp, hc, hs, hu, http.StatusInternalServerError] using this
  | ok user =>
  by_cases hb : user.Balance < umul (toUint p.Quantity) product.Price
  · have := balance_short product category user hp hc hs hu hb
    simpa [services.CreateTransaction, hp, hc, hs, hu, hb, http.StatusBadRequest] using this
  obtain ⟨k1, k2, k3, k4, k5⟩ := writes product category user hp hc hs hu hb _ _ _ _ rfl rfl rfl rfl
    _ rfl
  cases h1 : UpdateUser env s
      { user with Balance := usub user.Balance (umul (toUint p.Quantity) product.Price) } with
  | error e =>
    have := k1 e h1
    simpa [services.CreateTransaction, hp, hc, hs, hu, hb, h1,
      http.StatusInternalServerError] using this
  | ok s1 =>
  cases h2 : UpdateProduct env s1 { product with Stock := isub product.Stock p.Quantity }
      product.Id with
  | error e =>
    have := k2 s1 e h1 h2
    simpa [services.CreateTransaction, hp, hc, hs, hu, hb, h1, h2,
      http.StatusInternalServerError] using this
  | ok s2 =>
  cases h3 : UpdateCategory env s2
      { category with
        SoldProductAmount := uadd category.SoldProductAmount (toUint p.Quantity) }
      category.Id with
  | error e =>
    have := k3 s1 s2 e h1 h2 h3
    simpa [services.CreateTransaction, hp, hc, hs, hu, hb, h1, h2, h3,
      http.StatusInternalServerError] using this
  | ok s3 =>
  cases h4 : repositories.CreateTransaction env s3
      { Id := 0, ProductId := p.ProductId, UserId := user.Id, Quantity := p.Quantity,
        TotalPrice := imul p.Quantity (toInt product.Price), CreatedAt := 0, UpdatedAt := 0,
        Product := models.Product.zero, User := models.User.zero } with
  | error e =>
    have := k4 s1 s2 s3 e h1 h2 h3 h4
    simpa [services.CreateTransaction, hp, hc, hs, hu, hb, h1, h2, h3, h4,
      http.StatusInternalServerError] using this
  | ok s4 =>
    have := k5 s1 s2 s3 s4 h1 h2 h3 h4
    simpa [services.CreateTransaction, hp, hc, hs, hu, hb, h1, h2, h3, h4,
      http.StatusCreated] using this

end services

/-! ## The service: the successful path -/

namespace services

open views repositories

/-- Outcome of an order on which every repository call is served and both checks pass. -/
theorem CreateTransaction_run (env : Env) (s : Store) (ctx : Context)
    (p : params.CreateTransactions) (product : models.Product) (category : models.Category)
    (user : models.User)
    (hp : GetProductById env s p.ProductId = .ok product)
    (hc : FindCategoryById env s product.CategoryId = .ok category)
    (hs : ¬ product.Stock < p.Quantity)
    (hu : FindUserById env s (toUint ctx.userData.Id) = .ok user)
    (hb : ¬ user.Balance < umul (toUint p.Quantity) product.Price)
    (w1 : env.faults.UpdateUser = none) (w2 : env.faults.UpdateProduct = none)
    (w3 : env.faults.UpdateCategory = none) (w4 : env.faults.CreateTransaction = none) :
    services.CreateTransaction env s ctx p =
      { response := SuccessResponse 201 Message.M_CREATED
          { TotalPrice := umul product.Price (toUint p.Quantity)
            Quantity := toUint p.Quantity
            ProductTitle := product.Title }
        store :=
          { products := updateRow models.Product.Id product.Id
                { product with Stock := isub product.Stock p.Quantity } s.products
            users := updateRow models.User.Id user.Id
                { user with Balance := usub user.Balance (umul (toUint p.Quantity) product.Price) }
                s.users
            categories := updateRow models.Category.Id category.Id
                { category with
                  SoldProductAmount := uadd category.SoldProductAmount (toUint p.Quantity) }
                s.categories
            transactions := s.transactions ++
              [{ Id := nextTransactionId s
                 ProductId := p.ProductId
                 UserId := user.Id
                 Quantity := p.Quantity
                 TotalPrice := imul p.Quantity (toInt product.Price)
                 CreatedAt := env.now
                 UpdatedAt := env.now
                 Product := models.Product.zero
                 User := models.User.zero }] }
        trace :=
          [RepoCall.GetProductById p.ProductId, RepoCall.FindCategoryById product.CategoryId,
            RepoCall.FindUserById (toUint ctx.userData.Id),
            RepoCall.UpdateUser
              { user with Balance := usub user.Balance (umul (toUint p.Quantity) product.Price) },
            RepoCall.UpdateProduct { product with Stock := isub product.Stock p.Quantity } product.Id,
            RepoCall.UpdateCategory
              { category with
                SoldProductAmount := uadd category.SoldProductAmount (toUint p.Quantity) }
              category.Id,
            RepoCall.CreateTransaction
              { Id := 0
                ProductId := p.ProductId
                UserId := user.Id
                Quantity := p.Quantity
                TotalPrice := imul p.Quantity (toInt product.Price)
                CreatedAt := 0
                UpdatedAt := 0
                Product := models.Product.zero
                User := models.User.zero }] } := by
  unfold services.CreateTransaction
  simp [hp, hc, hs, hu, hb, UpdateUser, UpdateProduct, UpdateCategory, repositories.CreateTransaction,
    w1, w2, w3, w4, nextTransactionId, http.StatusCreated]

/-- An order answered with 201 had every repository call served and both checks passed. -/
theorem CreateTransaction_created (env : Env) (s : Store) (ctx : Context)
    (p : params.CreateTransactions)
    (h : (services.CreateTransaction env s ctx p).response.Status = 201) :
    ∃ product category user,
      GetProductById env s p.ProductId = .ok product ∧
      FindCategoryById env s product.CategoryId = .ok category ∧
      ¬ product.Stock < p.Quantity ∧
      FindUserById env s (toUint ctx.userData.Id) = .ok user ∧
      ¬ user.Balance < umul (toUint p.Quantity) product.Price ∧
      env.faults.UpdateUser = none ∧ env.faults.UpdateProduct = none ∧
      env.faults.UpdateCategory = none ∧ env.faults.CreateTransaction = none := by
  cases hp : GetProductById env s p.ProductId with
  | error e =>
    exfalso
    unfold services.CreateTransaction at h
    simp only [hp] at h
    split at h <;> simp [ErrorResponse, http.StatusBadRequest, http.StatusInternalServerError] at h
  | ok product =>
  cases hc : FindCategoryById env s product.CategoryId with
  | error e =>
    exfalso
    simp [services.CreateTransaction, hp, hc, ErrorResponse, http.StatusInternalServerError] at h
  | ok category =>
  by_cases hs : product.Stock < p.Quantity
  · exfalso
    simp [services.CreateTransaction, hp, hc, hs, ErrorResponse, http.StatusBadRequest] at h
  cases hu : FindUserById env s (toUint ctx.userData.Id) with
  | error e =>
    exfalso
    simp [services.CreateTransaction, hp, hc, hs, hu, ErrorResponse,
      http.StatusInternalServerError] at h
  | ok user =>
  by_cases hb : user.Balance < umul (toUint p.Quantity) product.Price
  · exfalso
    simp [services.CreateTransaction, hp, hc, hs, hu, hb, ErrorResponse, http.StatusBadRequest] at h
  refine ⟨product, category, user, rfl, hc, hs, rfl, hb, ?_⟩
  cases w1 : env.faults.UpdateUser with
  | some e =>
    exfalso
    simp [services.CreateTransaction, hp, hc, hs, hu, hb, UpdateUser, w1, ErrorResponse,
      http.StatusInternalServerError] at h
  | none =>
  cases w2 : env.faults.UpdateProduct with
  | some e =>
    exfalso
    simp [services.CreateTransaction, hp, hc, hs, hu, hb, UpdateUser, w1, UpdateProduct, w2,
      ErrorResponse, http.StatusInternalServerError] at h
  | none =>
  cases w3 : env.faults.UpdateCategory with
  | some e =>
    exfalso
    simp [services.CreateTransaction, hp, hc, hs, hu, hb, UpdateUser, w1, UpdateProduct, w2,
      UpdateCategory, w3, ErrorResponse, http.StatusInternalServerError] at h
  | none =>
  cases w4 : env.faults.CreateTransaction with
  | some e =>
    exfalso
    simp [services.CreateTransaction, hp, hc, hs, hu, hb, UpdateUser, w1, UpdateProduct, w2,
      UpdateCategory, w3, repositories.CreateTransaction, w4, ErrorResponse,
      http.StatusInternalServerError] at h
  | none => exact ⟨rfl, rfl, rfl, rfl⟩

end services

/-! ## Conservation (C1) -/

/-- Claim C1 as stated fails: an order of 4294967296 units at unit price 4294967296
is answered with 201 while the balance stays at 100 and the recorded total is 0,
although quantity times price is 18446744073709551616. -/
theorem C1_counterexample :
    (services.CreateTransaction calmEnv (sampleStore 4294967296 4294967296 100 0) buyerCtx
        (orderFor 4294967296)).response.Status = 201 ∧
    (sampleStore 4294967296 4294967296 100 0).users.map (fun u => (u.Id, u.Balance)) = [(3, 100)] ∧
    (services.CreateTransaction calmEnv (sampleStore 4294967296 4294967296 100 0) buyerCtx
        (orderFor 4294967296)).store.users.map (fun u => (u.Id, u.Balance)) = [(3, 100)] ∧
    (services.CreateTransaction calmEnv (sampleStore 4294967296 4294967296 100 0) buyerCtx
        (orderFor 4294967296)).store.transactions.map (fun t => t.TotalPrice) = [0] ∧
    (100 : Int) ≠ 100 - 4294967296 * 4294967296 ∧ (0 : Int) ≠ 4294967296 * 4294967296 := by
  decide

/-- Claim C1, amended: on a 201 answer the product, the buyer and the category that
were read are found again in the store after the call with stock, balance and
sold amount changed by the quantity resp. the total in 64-bit arithmetic, and the
history has exactly one more row, carrying the product id, the buyer id, the
quantity and the 64-bit total; for a non-negative quantity with in-range operands
these are the exact integers `stock - qty`, `balance - qty * price`,
`sold + qty` and `qty * price`. -/
theorem conservation_on_created (env : Env) (s : Store) (ctx : Context)
    (p : params.CreateTransactions)
    (h : (services.CreateTransaction env s ctx p).response.Status = 201) :
    ∃ (product : models.Product) (category : models.Category) (user : models.User)
      (row : models.TransactionHistory),
      repositories.GetProductById env s p.ProductId = .ok product ∧
      repositories.FindCategoryById env s product.CategoryId = .ok category ∧
      repositories.FindUserById env s (toUint ctx.userData.Id) = .ok user ∧
      repositories.GetProductById env (services.CreateTransaction env s ctx p).store p.ProductId =
        .ok { product with Stock := isub product.Stock p.Quantity } ∧
      repositories.FindUserById env (services.CreateTransaction env s ctx p).store
          (toUint ctx.userData.Id) =
        .ok { user with
              Balance := usub user.Balance (umul (toUint p.Quantity) product.Price) } ∧
      repositories.FindCategoryById env (services.CreateTransaction env s ctx p).store
          product.CategoryId =
        .ok { category with
              SoldProductAmount := uadd category.SoldProductAmount (toUint p.Quantity) } ∧
      (services.CreateTransaction env s ctx p).store.transactions = s.transactions ++ [row] ∧
      row.ProductId = p.ProductId ∧ row.UserId = toUint ctx.userData.Id ∧
      row.Quantity = p.Quantity ∧ row.TotalPrice = imul p.Quantity (toInt product.Price) ∧
      (0 ≤ p.Quantity → p.Quantity * (product.Price : Int) < 2 ^ 63 →
        IsInt product.Stock → IsUint user.Balance →
        (category.SoldProductAmount : Int) + p.Quantity < 2 ^ 64 →
          isub product.Stock p.Quantity = product.Stock - p.Quantity ∧
          ((usub user.Balance (umul (toUint p.Quantity) product.Price) : Nat) : Int) =
            (user.Balance : Int) - p.Quantity * (product.Price : Int) ∧
          ((uadd category.SoldProductAmount (toUint p.Quantity) : Nat) : Int) =
            (category.SoldProductAmount : Int) + p.Quantity ∧
          imul p.Quantity (toInt product.Price) = p.Quantity * (product.Price : Int)) := by
  obtain ⟨product, category, user, hp, hc, hs, hu, hb, w1, w2, w3, w4⟩ :=
    services.CreateTransaction_created env s ctx p h
  have hrun := services.CreateTransaction_run env s ctx p product category user hp hc hs hu hb
    w1 w2 w3 w4
  obtain ⟨fp, lp⟩ := repositories.GetProductById_ok env s _ _ hp
  obtain ⟨fc, lc⟩ := repositories.FindCategoryById_ok env s _ _ hc
  obtain ⟨fu, lu⟩ := repositories.FindUserById_ok env s _ _ hu
  have kp := (repositories.lookupRow_key models.Product.Id _ _ _ lp).1
  have kc := (repositories.lookupRow_key models.Category.Id _ _ _ lc).1
  have ku := (repositories.lookupRow_key models.User.Id _ _ _ lu).1
  refine ⟨product, category, user,
    ⟨repositories.nextTransactionId s, p.ProductId, user.Id, p.Quantity,
      imul p.Quantity (toInt product.Price), env.now, env.now, models.Product.zero,
      models.User.zero⟩,
    hp, hc, hu, ?_, ?_, ?_, ?_, ?_, ?_, ?_, ?_, ?_⟩
  · have e := repositories.lookupRow_updateRow_same models.Product.Id product.Id
      { product with Stock := isub product.Stock p.Quantity } rfl s.products product
      (by rw [kp]; exact lp)
    rw [hrun]; unfold repositories.GetProductById
    simp only [fp, ← kp, e]
  · have e := repositories.lookupRow_updateRow_same models.User.Id user.Id
      { user with Balance := usub user.Balance (umul (toUint p.Quantity) product.Price) } rfl
      s.users user (by rw [ku]; exact lu)
    rw [hrun]; unfold repositories.FindUserById
    simp only [fu, ← ku, e]
  · have e := repositories.lookupRow_updateRow_same models.Category.Id category.Id
      { category with
        SoldProductAmount := uadd category.SoldProductAmount (toUint p.Quantity) } rfl
      s.categories category (by rw [kc]; exact lc)
    rw [hrun]; unfold repositories.FindCategoryById
    simp only [fc, ← kc, e]
  · rw [hrun]
  · rfl
  · exact ku
  · rfl
  · rfl
  · intro h0 hlt hstock hbal hsold
    have hq64 : p.Quantity < (wordSize : Int) := by
      unfold wordSize; push_cast; omega
    have hn := toUint_of_nonneg p.Quantity h0 hq64
    have hmul : ((toUint p.Quantity * product.Price : Nat) : Int) < 2 ^ 63 := by
      push_cast; rw [hn]; exact hlt
    have hmulN : toUint p.Quantity * product.Price < 2 ^ 63 := by exact_mod_cast hmul
    have hum : umul (toUint p.Quantity) product.Price = toUint p.Quantity * product.Price :=
      umul_of_lt _ _ (by unfold wordSize; omega)
    have hle : toUint p.Quantity * product.Price ≤ user.Balance := by
      rw [hum] at hb; omega
    refine ⟨isub_of_le _ _ hstock h0 (by omega), ?_, ?_, ?_⟩
    · rw [hum, usub_of_le _ _ hbal hle, Nat.cast_sub hle]
      push_cast; rw [hn]
    · rw [uadd_of_lt _ _ (by unfold wordSize; omega)]
      push_cast; rw [hn]
    · unfold imul
      rcases Nat.eq_zero_or_pos (toUint p.Quantity) with hz | hpos
      · have hq0 : p.Quantity = 0 := by omega
        rw [hq0]; simp; decide
      · have hprice : product.Price < halfWord := by
          unfold halfWord
          calc product.Price ≤ toUint p.Quantity * product.Price :=
                Nat.le_mul_of_pos_left _ hpos
            _ < 2 ^ 63 := hmulN
        rw [toInt_of_lt _ hprice]
        apply wrapInt_of_isInt
        unfold IsInt halfWord
        have : 0 ≤ p.Quantity * (product.Price : Int) := by positivity
        constructor
        · push_cast; omega
        · push_cast; exact hlt

/-- Claim C1, witness: 2 pens at 30 against a stock of 5 and a balance of 100. -/
theorem conservation_on_created_witness :
    (services.CreateTransaction calmEnv (sampleStore 30 5 100 0) buyerCtx
        (orderFor 2)).response.Status = 201 ∧
    ∃ (product : models.Product) (category : models.Category) (user : models.User)
      (row : models.TransactionHistory),
      repositories.GetProductById calmEnv (sampleStore 30 5 100 0) (orderFor 2).ProductId =
        .ok product ∧
      repositories.FindCategoryById calmEnv (sampleStore 30 5 100 0) product.CategoryId =
        .ok category ∧
      repositories.FindUserById calmEnv (sampleStore 30 5 100 0) (toUint buyerCtx.userData.Id) =
        .ok user ∧
      repositories.GetProductById calmEnv
          (services.CreateTransaction calmEnv (sampleStore 30 5 100 0) buyerCtx (orderFor 2)).store
          (orderFor 2).ProductId =
        .ok { product with Stock := isub product.Stock (orderFor 2).Quantity } ∧
      repositories.FindUserById calmEnv
          (services.CreateTransaction calmEnv (sampleStore 30 5 100 0) buyerCtx (orderFor 2)).store
          (toUint buyerCtx.userData.Id) =
        .ok { user with
              Balance := usub user.Balance (umul (toUint (orderFor 2).Quantity) product.Price) } ∧
      repositories.FindCategoryById calmEnv
          (services.CreateTransaction calmEnv (sampleStore 30 5 100 0) buyerCtx (orderFor 2)).store
          product.CategoryId =
        .ok { category with
              SoldProductAmount :=
                uadd category.SoldProductAmount (toUint (orderFor 2).Quantity) } ∧
      (services.CreateTransaction calmEnv (sampleStore 30 5 100 0) buyerCtx
          (orderFor 2)).store.transactions = (sampleStore 30 5 100 0).transactions ++ [row] ∧
      row.ProductId = (orderFor 2).ProductId ∧ row.UserId = toUint buyerCtx.userData.Id ∧
      row.Quantity = (orderFor 2).Quantity ∧
      row.TotalPrice = imul (orderFor 2).Quantity (toInt product.Price) ∧
      (0 ≤ (orderFor 2).Quantity → (orderFor 2).Quantity * (product.Price : Int) < 2 ^ 63 →
        IsInt product.Stock → IsUint user.Balance →
        (category.SoldProductAmount : Int) + (orderFor 2).Quantity < 2 ^ 64 →
          isub product.Stock (orderFor 2).Quantity = product.Stock - (orderFor 2).Quantity ∧
          ((usub user.Balance (umul (toUint (orderFor 2).Quantity) product.Price) : Nat) : Int) =
            (user.Balance : Int) - (orderFor 2).Quantity * (product.Price : Int) ∧
          ((uadd category.SoldProductAmount (toUint (orderFor 2).Quantity) : Nat) : Int) =
            (category.SoldProductAmount : Int) + (orderFor 2).Quantity ∧
          imul (orderFor 2).Quantity (toInt product.Price) =
            (orderFor 2).Quantity * (product.Price : Int)) :=
  ⟨by decide,
    conservation_on_created calmEnv (sampleStore 30 5 100 0) buyerCtx (orderFor 2) (by decide)⟩

/-! ## Rejections (C2, C3) -/

/-- Claim C2 as stated fails: the product exists with stock 5 and 6 units are
ordered, but its category does not resolve, and the answer is 500
INTERNAL_SERVER_ERROR rather than 400 STOCK_IS_NOT_ENOUGH. -/
theorem C2_counterexample :
    repositories.GetProductById calmEnv (orphanStore 30 5 100) (orderFor 6).ProductId =
      .ok (penRow 30 5) ∧
    (5 : Int) < (orderFor 6).Quantity ∧
    (services.CreateTransaction calmEnv (orphanStore 30 5 100) buyerCtx
        (orderFor 6)).response.Status = 500 ∧
    (services.CreateTransaction calmEnv (orphanStore 30 5 100) buyerCtx
        (orderFor 6)).response.Message = views.Message.M_INTERNAL_SERVER_ERROR := by
  decide

/-- Claim C2, amended: when the product and its category both resolve and the
requested quantity exceeds the stock read, the answer is 400 STOCK_IS_NOT_ENOUGH,
no write is issued and the store is unchanged. -/
theorem insufficient_stock_rejected (env : Env) (s : Store) (ctx : Context)
    (p : params.CreateTransactions) (product : models.Product) (category : models.Category)
    (hp : repositories.GetProductById env s p.ProductId = .ok product)
    (hc : repositories.FindCategoryById env s product.CategoryId = .ok category)
    (hq : product.Stock < p.Quantity) :
    (services.CreateTransaction env s ctx p).response.Status = 400 ∧
    (services.CreateTransaction env s ctx p).response.Message =
      views.Message.M_STOCK_IS_NOT_ENOUGH ∧
    (services.CreateTransaction env s ctx p).store = s ∧
    (∀ c ∈ (services.CreateTransaction env s ctx p).trace, c.isWrite = false) := by
  unfold services.CreateTransaction
  simp [hp, hc, hq, views.ErrorResponse, http.StatusBadRequest, RepoCall.isWrite]

/-- Claim C2, witness: stock 5, quantity 6. -/
theorem insufficient_stock_rejected_witness :
    (5 : Int) < (orderFor 6).Quantity ∧
    (services.CreateTransaction calmEnv (sampleStore 30 5 100 0) buyerCtx
        (orderFor 6)).response.Status = 400 ∧
    (services.CreateTransaction calmEnv (sampleStore 30 5 100 0) buyerCtx
        (orderFor 6)).response.Message = views.Message.M_STOCK_IS_NOT_ENOUGH ∧
    (services.CreateTransaction calmEnv (sampleStore 30 5 100 0) buyerCtx (orderFor 6)).store =
      sampleStore 30 5 100 0 ∧
    (∀ c ∈ (services.CreateTransaction calmEnv (sampleStore 30 5 100 0) buyerCtx
        (orderFor 6)).trace, c.isWrite = false) :=
  ⟨by decide,
    insufficient_stock_rejected calmEnv (sampleStore 30 5 100 0) buyerCtx (orderFor 6)
      (penRow 30 5)
      (categoryRow 0)
      (by decide) (by decide) (by decide)⟩

/-- Claim C3 as stated fails: product, category and buyer resolve, the quantity
4294967296 does not exceed the stock, and the balance 100 is less than the true
product 4294967296 * 4294967296; the machine-word product is 0, the answer is 201
and the store is changed. -/
theorem C3_counterexample :
    repositories.GetProductById calmEnv (sampleStore 4294967296 4294967296 100 0)
        (orderFor 4294967296).ProductId =
      .ok (penRow 4294967296 4294967296) ∧
    repositories.FindCategoryById calmEnv (sampleStore 4294967296 4294967296 100 0) 7 =
      .ok (categoryRow 0) ∧
    repositories.FindUserById calmEnv (sampleStore 4294967296 4294967296 100 0)
        (toUint buyerCtx.userData.Id) =
      .ok (buyerRow 100) ∧
    ¬ ((4294967296 : Int) < (orderFor 4294967296).Quantity) ∧
    ((100 : Nat) : Int) < (orderFor 4294967296).Quantity * ((4294967296 : Nat) : Int) ∧
    umul (toUint (orderFor 4294967296).Quantity) 4294967296 = 0 ∧
    (services.CreateTransaction calmEnv (sampleStore 4294967296 4294967296 100 0) buyerCtx
        (orderFor 4294967296)).response.Status = 201 ∧
    (services.CreateTransaction calmEnv (sampleStore 4294967296 4294967296 100 0) buyerCtx
        (orderFor 4294967296)).store ≠ sampleStore 4294967296 4294967296 100 0 := by
  decide

/-- Claim C3, amended: when product, category and buyer resolve, the quantity does
not exceed the stock and the balance is less than the machine-word product
`uint(quantity) * price`, the answer is 400 BALANCE_IS_NOT_ENOUGH, no write is
issued and the store is unchanged; the machine-word product is the true product
whenever the quantity is non-negative and the true product is below `2 ^ 64`. -/
theorem insufficient_balance_rejected (env : Env) (s : Store) (ctx : Context)
    (p : params.CreateTransactions) (product : models.Product) (category : models.Category)
    (user : models.User)
    (hp : repositories.GetProductById env s p.ProductId = .ok product)
    (hc : repositories.FindCategoryById env s product.CategoryId = .ok category)
    (hs : ¬ product.Stock < p.Quantity)
    (hu : repositories.FindUserById env s (toUint ctx.userData.Id) = .ok user)
    (hb : user.Balance < umul (toUint p.Quantity) product.Price) :
    (services.CreateTransaction env s ctx p).response.Status = 400 ∧
    (services.CreateTransaction env s ctx p).response.Message =
      views.Message.M_BALANCE_IS_NOT_ENOUGH ∧
    (services.CreateTransaction env s ctx p).store = s ∧
    (∀ c ∈ (services.CreateTransaction env s ctx p).trace, c.isWrite = false) ∧
    (0 ≤ p.Quantity → p.Quantity < 2 ^ 64 → p.Quantity * (product.Price : Int) < 2 ^ 64 →
      ((umul (toUint p.Quantity) product.Price : Nat) : Int) =
        p.Quantity * (product.Price : Int)) := by
  refine ⟨?_, ?_, ?_, ?_, fun h0 hq h => umul_toUint_exact _ _ h0 h hq⟩ <;>
  · unfold services.CreateTransaction
    simp [hp, hc, hs, hu, hb, views.ErrorResponse, http.StatusBadRequest, RepoCall.isWrite]

/-- Claim C3, witness: balance 100, price 30, quantity 4. -/
theorem insufficient_balance_rejected_witness :
    (100 : Nat) < umul (toUint (orderFor 4).Quantity) 30 ∧
    (services.CreateTransaction calmEnv (sampleStore 30 5 100 0) buyerCtx
        (orderFor 4)).response.Status = 400 ∧
    (services.CreateTransaction calmEnv (sampleStore 30 5 100 0) buyerCtx
        (orderFor 4)).response.Message = views.Message.M_BALANCE_IS_NOT_ENOUGH ∧
    (services.CreateTransaction calmEnv (sampleStore 30 5 100 0) buyerCtx (orderFor 4)).store =
      sampleStore 30 5 100 0 ∧
    (∀ c ∈ (services.CreateTransaction calmEnv (sampleStore 30 5 100 0) buyerCtx
        (orderFor 4)).trace, c.isWrite = false) ∧
    (0 ≤ (orderFor 4).Quantity → (orderFor 4).Quantity < 2 ^ 64 →
      (orderFor 4).Quantity * ((30 : Nat) : Int) < 2 ^ 64 →
      ((umul (toUint (orderFor 4).Quantity) 30 : Nat) : Int) =
        (orderFor 4).Quantity * ((30 : Nat) : Int)) :=
  ⟨by decide,
    insufficient_balance_rejected calmEnv (sampleStore 30 5 100 0) buyerCtx (orderFor 4)
      (penRow 30 5)
      (categoryRow 0)
      (buyerRow 100)
      (by decide) (by decide) (by decide) (by decide) (by decide)⟩

/-! ## Non-positive quantities (C4) -/

/-- Claim C4 as stated fails: an order of quantity 0 is not rejected; the service
makes all seven repository calls, answers 201 and appends a history row. -/
theorem C4_counterexample :
    (orderFor 0).Quantity ≤ 0 ∧
    (services.CreateTransaction calmEnv (sampleStore 30 5 100 0) buyerCtx
        (orderFor 0)).response.Status = 201 ∧
    (services.CreateTransaction calmEnv (sampleStore 30 5 100 0) buyerCtx
        (orderFor 0)).response.Error = none ∧
    (services.CreateTransaction calmEnv (sampleStore 30 5 100 0) buyerCtx
        (orderFor 0)).trace.length = 7 ∧
    (sampleStore 30 5 100 0).transactions.length = 0 ∧
    (services.CreateTransaction calmEnv (sampleStore 30 5 100 0) buyerCtx
        (orderFor 0)).store.transactions.map (fun t => t.Quantity) = [0] := by
  decide

/-- Claim C4, amended: `CreateTransaction` has no quantity guard of its own; an
order whose quantity is zero or negative is processed like any other. Its first
repository call is the `GetProductById` read. When the product, its category and
the buyer resolve, the stock read is not negative, the balance is not below the
machine-word total `uint(quantity) * price` and the four writes are served, the
answer is 201 and a history row with that quantity is appended; for quantity 0
the balance condition always holds. When no stock in the store is negative the
stock check never turns such an order away. Whenever the answer is 400 no write
was issued and the store is unchanged. -/
theorem nonpositive_quantity_not_guarded (env : Env) (s : Store) (ctx : Context)
    (p : params.CreateTransactions) (hq : p.Quantity ≤ 0) :
    (services.CreateTransaction env s ctx p).trace.head? =
      some (RepoCall.GetProductById p.ProductId) ∧
    ((services.CreateTransaction env s ctx p).response.Status = 400 →
      (services.CreateTransaction env s ctx p).store = s ∧
      ∀ c ∈ (services.CreateTransaction env s ctx p).trace, c.isWrite = false) ∧
    ((∀ x ∈ s.products, 0 ≤ x.Stock) →
      (services.CreateTransaction env s ctx p).response.Message ≠
        views.Message.M_STOCK_IS_NOT_ENOUGH) ∧
    (∀ product category user,
      repositories.GetProductById env s p.ProductId = .ok product →
      repositories.FindCategoryById env s product.CategoryId = .ok category →
      0 ≤ product.Stock →
      repositories.FindUserById env s (toUint ctx.userData.Id) = .ok user →
      ¬ user.Balance < umul (toUint p.Quantity) product.Price →
      env.faults.UpdateUser = none → env.faults.UpdateProduct = none →
      env.faults.UpdateCategory = none → env.faults.CreateTransaction = none →
      (services.CreateTransaction env s ctx p).response.Status = 201 ∧
      (services.CreateTransaction env s ctx p).trace.length = 7 ∧
      ∃ row, (services.CreateTransaction env s ctx p).store.transactions =
          s.transactions ++ [row] ∧
        row.Quantity = p.Quantity) ∧
    (p.Quantity = 0 → ∀ product category user,
      repositories.GetProductById env s p.ProductId = .ok product →
      repositories.FindCategoryById env s product.CategoryId = .ok category →
      0 ≤ product.Stock →
      repositories.FindUserById env s (toUint ctx.userData.Id) = .ok user →
      env.faults.UpdateUser = none → env.faults.UpdateProduct = none →
      env.faults.UpdateCategory = none → env.faults.CreateTransaction = none →
      (services.CreateTransaction env s ctx p).response.Status = 201 ∧
      (services.CreateTransaction env s ctx p).trace.length = 7 ∧
      ∃ row, (services.CreateTransaction env s ctx p).store.transactions =
          s.transactions ++ [row] ∧
        row.Quantity = 0) := by
  have accept : ∀ product category user,
      repositories.GetProductById env s p.ProductId = .ok product →
      repositories.FindCategoryById env s product.CategoryId = .ok category →
      0 ≤ product.Stock →
      repositories.FindUserById env s (toUint ctx.userData.Id) = .ok user →
      ¬ user.Balance < umul (toUint p.Quantity) product.Price →
      env.faults.UpdateUser = none → env.faults.UpdateProduct = none →
      env.faults.UpdateCategory = none → env.faults.CreateTransaction = none →
      (services.CreateTransaction env s ctx p).response.Status = 201 ∧
      (services.CreateTransaction env s ctx p).trace.length = 7 ∧
      ∃ row, (services.CreateTransaction env s ctx p).store.transactions =
          s.transactions ++ [row] ∧
        row.Quantity = p.Quantity := by
    intro product category user hp hc h0 hu hb w1 w2 w3 w4
    rw [services.CreateTransaction_run env s ctx p product category user hp hc (by omega) hu hb
      w1 w2 w3 w4]
    exact ⟨rfl, rfl, _, rfl, rfl⟩
  have base : (services.CreateTransaction env s ctx p).trace.head? =
        some (RepoCall.GetProductById p.ProductId) ∧
      ((services.CreateTransaction env s ctx p).response.Status = 400 →
        (services.CreateTransaction env s ctx p).store = s ∧
        ∀ c ∈ (services.CreateTransaction env s ctx p).trace, c.isWrite = false) ∧
      ((∀ x ∈ s.products, 0 ≤ x.Stock) →
        (services.CreateTransaction env s ctx p).response.Message ≠
          views.Message.M_STOCK_IS_NOT_ENOUGH) := by
    apply services.CreateTransaction_elim env s ctx p
      (fun o => o.trace.head? = some (RepoCall.GetProductById p.ProductId) ∧
        (o.response.Status = 400 → o.store = s ∧ ∀ c ∈ o.trace, c.isWrite = false) ∧
        ((∀ x ∈ s.products, 0 ≤ x.Stock) →
          o.response.Message ≠ views.Message.M_STOCK_IS_NOT_ENOUGH))
    · intro _; simp [views.ErrorResponse, RepoCall.isWrite]
    · intro e _ _; simp [views.ErrorResponse]
    · intro product e _ _; simp [views.ErrorResponse]
    · intro product category hp _ hs
      refine ⟨by simp, fun _ => ⟨rfl, by simp [RepoCall.isWrite]⟩, fun hall => ?_⟩
      exfalso
      have hmem := (repositories.lookupRow_key models.Product.Id _ _ _
        (repositories.GetProductById_ok env s _ _ hp).2).2
      have := hall product hmem
      omega
    · intro product category e _ _ _ _; simp [views.ErrorResponse]
    · intro product category user _ _ _ _ _; simp [views.ErrorResponse, RepoCall.isWrite]
    · intro product category user _ _ _ _ _ user1 product1 category1 model _ _ _ _ t3 ht3
      subst ht3
      refine ⟨?_, ?_, ?_, ?_, ?_⟩ <;> intros <;>
        simp [views.ErrorResponse, views.SuccessResponse]
  refine ⟨base.1, base.2.1, base.2.2, accept, ?_⟩
  · intro h0 product category user hp hc hst hu w1 w2 w3 w4
    have hb : ¬ user.Balance < umul (toUint p.Quantity) product.Price := by
      rw [h0]
      have : umul (toUint 0) product.Price = 0 := by
        unfold umul toUint wordSize; simp
      rw [this]; omega
    obtain ⟨h1, h2, row, h3, h4⟩ := accept product category user hp hc hst hu hb w1 w2 w3 w4
    exact ⟨h1, h2, row, h3, h4.trans h0⟩

/-- Claim C4, witness: buyer 3 orders 0 pens from the store with a history; the
order is accepted with 201 after all seven repository calls and a row of
quantity 0 is appended to the three rows of the history. -/
theorem nonpositive_quantity_not_guarded_witness :
    (orderFor 0).Quantity ≤ 0 ∧
    (services.CreateTransaction calmEnv ledgerStore buyerCtx (orderFor 0)).trace.head? =
      some (RepoCall.GetProductById 1) ∧
    (services.CreateTransaction calmEnv ledgerStore buyerCtx (orderFor 0)).response.Status =
      201 ∧
    (services.CreateTransaction calmEnv ledgerStore buyerCtx (orderFor 0)).trace.length = 7 ∧
    ∃ row, (services.CreateTransaction calmEnv ledgerStore buyerCtx (orderFor 0)).store.transactions =
        [soldRow 1 3 1 30, soldRow 2 4 1 30, soldRow 3 3 1 30] ++ [row] ∧
      row.Quantity = 0 := by
  have h := nonpositive_quantity_not_guarded calmEnv ledgerStore buyerCtx (orderFor 0)
    (by decide)
  have h5 := h.2.2.2.2 rfl (penRow 30 2) (categoryRow 3) (buyerRow 40) (by decide) (by decide)
    (by decide) (by decide) (by decide) (by decide) (by decide) (by decide)
  exact ⟨by decide, h.1, h5.1, h5.2.1, h5.2.2⟩

/-! ## Write failures (C5) -/

/-- Claim C5 as stated fails: with only `UpdateCategory` failing, the answer is 500
and the store after the call differs from the store before: the balance is
debited from 100 to 40 and the stock decremented from 5 to 3. -/
theorem C5_counterexample :
    (services.CreateTransaction categoryDownEnv (sampleStore 30 5 100 0) buyerCtx
        (orderFor 2)).response.Status = 500 ∧
    (services.CreateTransaction categoryDownEnv (sampleStore 30 5 100 0) buyerCtx
        (orderFor 2)).store ≠ sampleStore 30 5 100 0 ∧
    (services.CreateTransaction categoryDownEnv (sampleStore 30 5 100 0) buyerCtx
        (orderFor 2)).store.users.map (fun u => u.Balance) = [40] ∧
    (services.CreateTransaction categoryDownEnv (sampleStore 30 5 100 0) buyerCtx
        (orderFor 2)).store.products.map (fun x => x.Stock) = [3] := by
  decide

/-- Claim C5, amended: when an order passes all validations and one of the four
writes fails, the answer is 500 INTERNAL_SERVER_ERROR and no history row is
appended; the writes served before the failing one stay applied and the failing
one and those after it are not: the users table carries the debit exactly when
`UpdateUser` was served, the products table the decrement exactly when
`UpdateUser` and `UpdateProduct` were served, the categories table the increment
exactly when the first three writes were served. In particular the store equals
the store before the call when the failing write is the first one. -/
theorem write_failure_effect (env : Env) (s : Store) (ctx : Context)
    (p : params.CreateTransactions) (product : models.Product) (category : models.Category)
    (user : models.User)
    (hp : repositories.GetProductById env s p.ProductId = .ok product)
    (hc : repositories.FindCategoryById env s product.CategoryId = .ok category)
    (hs : ¬ product.Stock < p.Quantity)
    (hu : repositories.FindUserById env s (toUint ctx.userData.Id) = .ok user)
    (hb : ¬ user.Balance < umul (toUint p.Quantity) product.Price)
    (hw : env.faults.UpdateUser ≠ none ∨ env.faults.UpdateProduct ≠ none ∨
      env.faults.UpdateCategory ≠ none ∨ env.faults.CreateTransaction ≠ none) :
    (services.CreateTransaction env s ctx p).response.Status = 500 ∧
    (services.CreateTransaction env s ctx p).response.Message =
      views.Message.M_INTERNAL_SERVER_ERROR ∧
    (services.CreateTransaction env s ctx p).store.transactions = s.transactions ∧
    (env.faults.UpdateUser ≠ none → (services.CreateTransaction env s ctx p).store = s) ∧
    (services.CreateTransaction env s ctx p).store.users =
      (if env.faults.UpdateUser = none then
        repositories.updateRow models.User.Id user.Id
          { user with Balance := usub user.Balance (umul (toUint p.Quantity) product.Price) }
          s.users
      else s.users) ∧
    (services.CreateTransaction env s ctx p).store.products =
      (if env.faults.UpdateUser = none ∧ env.faults.UpdateProduct = none then
        repositories.updateRow models.Product.Id product.Id
          { product with Stock := isub product.Stock p.Quantity } s.products
      else s.products) ∧
    (services.CreateTransaction env s ctx p).store.categories =
      (if env.faults.UpdateUser = none ∧ env.faults.UpdateProduct = none ∧
          env.faults.UpdateCategory = none then
        repositories.updateRow models.Category.Id category.Id
          { category with
            SoldProductAmount := uadd category.SoldProductAmount (toUint p.Quantity) }
          s.categories
      else s.categories) := by
  cases w1 : env.faults.UpdateUser with
  | some e =>
    simp [services.CreateTransaction, hp, hc, hs, hu, hb, repositories.UpdateUser, w1,
      views.ErrorResponse, http.StatusInternalServerError]
  | none =>
  cases w2 : env.faults.UpdateProduct with
  | some e =>
    simp [services.CreateTransaction, hp, hc, hs, hu, hb, repositories.UpdateUser, w1,
      repositories.UpdateProduct, w2, views.ErrorResponse, http.StatusInternalServerError]
  | none =>
  cases w3 : env.faults.UpdateCategory with
  | some e =>
    simp [services.CreateTransaction, hp, hc, hs, hu, hb, repositories.UpdateUser, w1,
      repositories.UpdateProduct, w2, repositories.UpdateCategory, w3, views.ErrorResponse,
      http.StatusInternalServerError]
  | none =>
  cases w4 : env.faults.CreateTransaction with
  | some e =>
    simp [services.CreateTransaction, hp, hc, hs, hu, hb, repositories.UpdateUser, w1,
      repositories.UpdateProduct, w2, repositories.UpdateCategory, w3,
      repositories.CreateTransaction, w4, views.ErrorResponse, http.StatusInternalServerError]
  | none => simp [w1, w2, w3, w4] at hw

/-- Claim C5, witness: the category update fails on an order of 2 pens at 30; the
debit (100 to 40) and the decrement (5 to 3) stay applied, the counter and the
history are as before. -/
theorem write_failure_effect_witness :
    (categoryDownEnv.faults.UpdateUser = none ∧ categoryDownEnv.faults.UpdateProduct = none ∧
      categoryDownEnv.faults.UpdateCategory ≠ none) ∧
    (services.CreateTransaction categoryDownEnv (sampleStore 30 5 100 0) buyerCtx
        (orderFor 2)).response.Status = 500 ∧
    (services.CreateTransaction categoryDownEnv (sampleStore 30 5 100 0) buyerCtx
        (orderFor 2)).response.Message = views.Message.M_INTERNAL_SERVER_ERROR ∧
    (services.CreateTransaction categoryDownEnv (sampleStore 30 5 100 0) buyerCtx
        (orderFor 2)).store.transactions = [] ∧
    (services.CreateTransaction categoryDownEnv (sampleStore 30 5 100 0) buyerCtx
        (orderFor 2)).store.users = [buyerRow 40] ∧
    (services.CreateTransaction categoryDownEnv (sampleStore 30 5 100 0) buyerCtx
        (orderFor 2)).store.products = [penRow 30 3] ∧
    (services.CreateTransaction categoryDownEnv (sampleStore 30 5 100 0) buyerCtx
        (orderFor 2)).store.categories = [categoryRow 0] := by
  obtain ⟨h1, h2, h3, _, h5, h6, h7⟩ :=
    write_failure_effect categoryDownEnv (sampleStore 30 5 100 0) buyerCtx (orderFor 2)
      (penRow 30 5) (categoryRow 0) (buyerRow 100)
      (by decide) (by decide) (by decide) (by decide) (by decide) (Or.inr (Or.inr (Or.inl (by decide))))
  exact ⟨by decide, h1, h2, h3, h5.trans (by decide), h6.trans (by decide),
    h7.trans (by decide)⟩

/-! ## Stock stays non-negative (C6) -/

/-- One order whose stock subtraction stays in range keeps every stock a
non-negative Go `int`, whatever the sign of its quantity. -/
theorem CreateTransaction_stock_step (env : Env) (s : Store) (ctx : Context)
    (p : params.CreateTransactions)
    (hs : ∀ x ∈ s.products, IsInt x.Stock ∧ 0 ≤ x.Stock) (hfit : stockFits s p = true) :
    ∀ x ∈ (services.CreateTransaction env s ctx p).store.products, IsInt x.Stock ∧ 0 ≤ x.Stock := by
  apply services.CreateTransaction_elim env s ctx p
    (fun o => ∀ x ∈ o.store.products, IsInt x.Stock ∧ 0 ≤ x.Stock)
  · intro _; exact hs
  · intro e _ _; exact hs
  · intro product e _ _; exact hs
  · intro product category _ _ _; exact hs
  · intro product category e _ _ _ _; exact hs
  · intro product category user _ _ _ _ _; exact hs
  · intro product category user hp _ hstock _ _ user1 product1 category1 model _ hp1 _ _ t3 _
    have hlook := (repositories.GetProductById_ok env s _ _ hp).2
    have hlt : product.Stock - p.Quantity < 2 ^ 63 := by
      unfold stockFits at hfit
      rw [hlook] at hfit
      simpa using hfit
    have hnew : IsInt product1.Stock ∧ 0 ≤ product1.Stock := by
      rw [hp1]
      show IsInt (isub product.Stock p.Quantity) ∧ 0 ≤ isub product.Stock p.Quantity
      have hfitInt : IsInt (product.Stock - p.Quantity) := by
        unfold IsInt halfWord; push_cast; omega
      unfold isub
      rw [wrapInt_of_isInt _ hfitInt]
      exact ⟨hfitInt, by omega⟩
    have key : ∀ s1 s2, repositories.UpdateUser env s user1 = .ok s1 →
        repositories.UpdateProduct env s1 product1 product.Id = .ok s2 →
        ∀ x ∈ s2.products, IsInt x.Stock ∧ 0 ≤ x.Stock := by
      intro s1 s2 h1 h2 x hx
      rw [(repositories.UpdateProduct_ok env s1 s2 _ _ h2).2,
        (repositories.UpdateUser_ok env s s1 _ h1).2] at hx
      rcases repositories.mem_updateRow _ _ _ _ _ hx with h | h
      · rw [h]; exact hnew
      · exact hs x h
    refine ⟨fun e _ => hs, ?_, ?_, ?_, ?_⟩
    · intro s1 e h1 _ x hx
      rw [(repositories.UpdateUser_ok env s s1 _ h1).2] at hx
      exact hs x hx
    · intro s1 s2 e h1 h2 _
      exact key s1 s2 h1 h2
    · intro s1 s2 s3 e h1 h2 h3 _ x hx
      rw [(repositories.UpdateCategory_ok env s2 s3 _ _ h3).2] at hx
      exact key s1 s2 h1 h2 x hx
    · intro s1 s2 s3 s4 h1 h2 h3 h4 x hx
      rw [(repositories.CreateTransaction_ok env s3 s4 _ h4).2,
        (repositories.UpdateCategory_ok env s2 s3 _ _ h3).2] at hx
      exact key s1 s2 h1 h2 x hx

/-- On a store whose stocks are Go `int`s, the stock subtraction of an order of
non-negative quantity stays in range. -/
theorem stockFits_of_nonneg (s : Store) (p : params.CreateTransactions)
    (hs : ∀ x ∈ s.products, IsInt x.Stock ∧ 0 ≤ x.Stock) (hq : 0 ≤ p.Quantity) :
    stockFits s p = true := by
  unfold stockFits
  cases hl : repositories.lookupRow models.Product.Id p.ProductId s.products with
  | none => rfl
  | some product =>
    have hmem := (repositories.lookupRow_key models.Product.Id _ _ _ hl).2
    have := (hs product hmem).1
    unfold IsInt halfWord at this
    simp only [decide_eq_true_eq]
    push_cast at this
    omega

/-- Claim C6 as stated fails: from a stock of 9223372036854775807 an order of
quantity -1 for a free product is accepted and the fixed-width subtraction leaves
the stock at -9223372036854775808. -/
theorem C6_counterexample :
    (∀ x ∈ (sampleStore 0 9223372036854775807 0 5).products, IsInt x.Stock ∧ 0 ≤ x.Stock) ∧
    IsInt (orderFor (-1)).Quantity ∧
    (runOrders (sampleStore 0 9223372036854775807 0 5)
        [{ env := calmEnv, ctx := buyerCtx, params := orderFor (-1) }]).products.map
      (fun x => x.Stock) = [-9223372036854775808] ∧
    ¬ ∀ x ∈ (runOrders (sampleStore 0 9223372036854775807 0 5)
        [{ env := calmEnv, ctx := buyerCtx, params := orderFor (-1) }]).products, 0 ≤ x.Stock := by
  decide

/-- Claim C6, amended: starting from a store in which every stock is a
non-negative Go `int`, after any finite sequence of `CreateTransaction` calls with
arbitrary buyers, product ids, fault plans and quantities of either sign in which
no stock subtraction leaves the range of a Go `int` (for the product each call
names, `stock - quantity < 2 ^ 63` on the store the call runs on), every stock is
still a non-negative Go `int`. A sequence of calls with non-negative quantities
is always of that kind. -/
theorem stock_never_negative (s : Store) (calls : List Call)
    (hs : ∀ x ∈ s.products, IsInt x.Stock ∧ 0 ≤ x.Stock) :
    (runFits s calls = true →
      ∀ x ∈ (runOrders s calls).products, IsInt x.Stock ∧ 0 ≤ x.Stock) ∧
    ((∀ c ∈ calls, 0 ≤ c.params.Quantity) → runFits s calls = true) := by
  induction calls generalizing s with
  | nil => exact ⟨fun _ => hs, fun _ => rfl⟩
  | cons c rest ih =>
    constructor
    · intro hfit
      unfold runFits at hfit
      rw [Bool.and_eq_true] at hfit
      unfold runOrders
      exact (ih _ (CreateTransaction_stock_step c.env s c.ctx c.params hs hfit.1)).1 hfit.2
    · intro hq
      have h1 := stockFits_of_nonneg s c.params hs (hq c (List.mem_cons_self _ _))
      unfold runFits
      rw [Bool.and_eq_true]
      exact ⟨h1, (ih _ (CreateTransaction_stock_step c.env s c.ctx c.params hs h1)).2
        (fun d hd => hq d (List.mem_cons_of_mem _ hd))⟩

/-- Claim C6, witness: against a stock of 5 of a free product, an order of -1
(stock 6) and then an order of 3 (stock 3). -/
theorem stock_never_negative_witness :
    ((∀ x ∈ (sampleStore 0 5 100 0).products, IsInt x.Stock ∧ 0 ≤ x.Stock) ∧
      runFits (sampleStore 0 5 100 0)
        [{ env := calmEnv, ctx := buyerCtx, params := orderFor (-1) },
          { env := calmEnv, ctx := buyerCtx, params := orderFor 3 }] = true ∧
      (runOrders (sampleStore 0 5 100 0)
        [{ env := calmEnv, ctx := buyerCtx, params := orderFor (-1) }]).products.map
          (fun x => x.Stock) = [6] ∧
      (runOrders (sampleStore 0 5 100 0)
        [{ env := calmEnv, ctx := buyerCtx, params := orderFor (-1) },
          { env := calmEnv, ctx := buyerCtx, params := orderFor 3 }]).products.map
          (fun x => x.Stock) = [3]) ∧
    ∀ x ∈ (runOrders (sampleStore 0 5 100 0)
        [{ env := calmEnv, ctx := buyerCtx, params := orderFor (-1) },
          { env := calmEnv, ctx := buyerCtx, params := orderFor 3 }]).products,
      IsInt x.Stock ∧ 0 ≤ x.Stock :=
  ⟨by decide,
    (stock_never_negative (sampleStore 0 5 100 0)
      [{ env := calmEnv, ctx := buyerCtx, params := orderFor (-1) },
        { env := calmEnv, ctx := buyerCtx, params := orderFor 3 }]
      (by decide)).1 (by decide)⟩

/-! ## Sold amount (C7) -/

/-- Claim C7 as stated fails: an accepted order of quantity -1 for a free product
adds `uint(-1)` to the counter, which wraps from 5 down to 4. -/
theorem C7_counterexample :
    IsInt (orderFor (-1)).Quantity ∧
    (services.CreateTransaction calmEnv (sampleStore 0 5 100 5) buyerCtx
        (orderFor (-1))).response.Status = 201 ∧
    (sampleStore 0 5 100 5).categories.map (fun c => (c.Id, c.SoldProductAmount)) = [(7, 5)] ∧
    (services.CreateTransaction calmEnv (sampleStore 0 5 100 5) buyerCtx
        (orderFor (-1))).store.categories.map (fun c => (c.Id, c.SoldProductAmount)) =
      [(7, 4)] := by
  decide

/-- Claim C7, amended: for every call, whatever its outcome, whose quantity is
non-negative and does not carry any category counter of the store past
`2 ^ 64 - 1`, the categories after the call are the categories before it, row by
row with the same identifier and a sold amount that is greater or equal. -/
theorem sold_amount_monotone (env : Env) (s : Store) (ctx : Context)
    (p : params.CreateTransactions) (hq : 0 ≤ p.Quantity)
    (hfit : ∀ c ∈ s.categories, (c.SoldProductAmount : Int) + p.Quantity < 2 ^ 64) :
    List.Forall₂ (fun c c1 => c.Id = c1.Id ∧ c.SoldProductAmount ≤ c1.SoldProductAmount)
      s.categories (services.CreateTransaction env s ctx p).store.categories := by
  have hsame : ∀ l : List models.Category,
      List.Forall₂ (fun c c1 => c.Id = c1.Id ∧ c.SoldProductAmount ≤ c1.SoldProductAmount)
        l l := fun l => List.forall₂_same.mpr (fun x _ => ⟨rfl, le_refl _⟩)
  apply services.CreateTransaction_elim env s ctx p
    (fun o => List.Forall₂
      (fun c c1 => c.Id = c1.Id ∧ c.SoldProductAmount ≤ c1.SoldProductAmount)
      s.categories o.store.categories)
  · intro _; exact hsame _
  · intro e _ _; exact hsame _
  · intro product e _ _; exact hsame _
  · intro product category _ _ _; exact hsame _
  · intro product category e _ _ _ _; exact hsame _
  · intro product category user _ _ _ _ _; exact hsame _
  · intro product category user _ hc _ _ _ user1 product1 category1 model _ _ hc1 _ t3 _
    obtain ⟨_, lc⟩ := repositories.FindCategoryById_ok env s _ _ hc
    obtain ⟨_, hmem⟩ := repositories.lookupRow_key models.Category.Id _ _ _ lc
    have hfit1 := hfit category hmem
    have hn := toUint_of_nonneg p.Quantity hq (by unfold wordSize; push_cast; omega)
    have hadd : uadd category.SoldProductAmount (toUint p.Quantity) =
        category.SoldProductAmount + toUint p.Quantity :=
      uadd_of_lt _ _ (by unfold wordSize; omega)
    have key : ∀ s1 s2 s3, repositories.UpdateUser env s user1 = .ok s1 →
        repositories.UpdateProduct env s1 product1 product.Id = .ok s2 →
        repositories.UpdateCategory env s2 category1 category.Id = .ok s3 →
        List.Forall₂ (fun c c1 => c.Id = c1.Id ∧ c.SoldProductAmount ≤ c1.SoldProductAmount)
          s.categories s3.categories := by
      intro s1 s2 s3 h1 h2 h3
      rw [(repositories.UpdateCategory_ok env s2 s3 _ _ h3).2,
        (repositories.UpdateProduct_ok env s1 s2 _ _ h2).2,
        (repositories.UpdateUser_ok env s s1 _ h1).2]
      apply repositories.forall₂_updateRow
      · intro a; exact ⟨rfl, le_refl _⟩
      · intro x hx
        obtain ⟨hxid, hxmem⟩ := repositories.lookupRow_key models.Category.Id _ _ _ hx
        have hxfit := hfit x hxmem
        have hxeq : x = category := by
          have h5 := (repositories.lookupRow_key models.Category.Id _ _ _ lc).1
          have lc1 : repositories.lookupRow models.Category.Id category.Id s.categories =
              some category := by rw [h5]; exact lc
          rw [hx] at lc1
          exact Option.some.inj lc1
        subst hxeq
        rw [hc1]
        exact ⟨rfl, by show x.SoldProductAmount ≤ uadd _ _; rw [hadd]; omega⟩
    refine ⟨fun e _ => hsame _, ?_, ?_, ?_, ?_⟩
    · intro s1 e h1 _
      rw [(repositories.UpdateUser_ok env s s1 _ h1).2]
      exact hsame _
    · intro s1 s2 e h1 h2 _
      rw [(repositories.UpdateProduct_ok env s1 s2 _ _ h2).2,
        (repositories.UpdateUser_ok env s s1 _ h1).2]
      exact hsame _
    · intro s1 s2 s3 e h1 h2 h3 _
      exact key s1 s2 s3 h1 h2 h3
    · intro s1 s2 s3 s4 h1 h2 h3 h4
      rw [(repositories.CreateTransaction_ok env s3 s4 _ h4).2]
      exact key s1 s2 s3 h1 h2 h3

/-- Claim C7, witness: 2 pens sold from the sample store. -/
theorem sold_amount_monotone_witness :
    (0 ≤ (orderFor 2).Quantity ∧
      ∀ c ∈ (sampleStore 30 5 100 0).categories,
        (c.SoldProductAmount : Int) + (orderFor 2).Quantity < 2 ^ 64) ∧
    List.Forall₂ (fun c c1 => c.Id = c1.Id ∧ c.SoldProductAmount ≤ c1.SoldProductAmount)
      (sampleStore 30 5 100 0).categories
      (services.CreateTransaction calmEnv (sampleStore 30 5 100 0) buyerCtx
        (orderFor 2)).store.categories :=
  ⟨by decide,
    sold_amount_monotone calmEnv (sampleStore 30 5 100 0) buyerCtx (orderFor 2) (by decide)
      (by decide)⟩

/-! ## The balance debit (C8) -/

/-- Claim C8: when all three reads succeed and both checks pass, `UpdateUser` is
called exactly with the buyer row whose balance is the balance read minus the
machine-word amount `uint(quantity) * price` of the balance check; that amount
does not exceed the balance read, so the subtraction does not wrap and the
balance written is at most the balance read. -/
theorem balance_debit_never_wraps (env : Env) (s : Store) (ctx : Context)
    (p : params.CreateTransactions) (product : models.Product) (category : models.Category)
    (user : models.User)
    (hp : repositories.GetProductById env s p.ProductId = .ok product)
    (hc : repositories.FindCategoryById env s product.CategoryId = .ok category)
    (hs : ¬ product.Stock < p.Quantity)
    (hu : repositories.FindUserById env s (toUint ctx.userData.Id) = .ok user)
    (hb : ¬ user.Balance < umul (toUint p.Quantity) product.Price)
    (hword : IsUint user.Balance) :
    ∃ written : models.User,
      RepoCall.UpdateUser written ∈ (services.CreateTransaction env s ctx p).trace ∧
      (∀ u, RepoCall.UpdateUser u ∈ (services.CreateTransaction env s ctx p).trace →
        u = written) ∧
      written = { user with
                  Balance := usub user.Balance (umul (toUint p.Quantity) product.Price) } ∧
      umul (toUint p.Quantity) product.Price ≤ user.Balance ∧
      written.Balance ≤ user.Balance ∧
      (written.Balance : Int) =
        (user.Balance : Int) - (umul (toUint p.Quantity) product.Price : Nat) := by
  have hle : umul (toUint p.Quantity) product.Price ≤ user.Balance := Nat.le_of_not_lt hb
  have hsub := usub_of_le _ _ hword hle
  refine ⟨{ user with
            Balance := usub user.Balance (umul (toUint p.Quantity) product.Price) },
    ?_, ?_, rfl, hle, ?_, ?_⟩
  · cases w1 : env.faults.UpdateUser <;> cases w2 : env.faults.UpdateProduct <;>
      cases w3 : env.faults.UpdateCategory <;> cases w4 : env.faults.CreateTransaction <;>
      simp [services.CreateTransaction, hp, hc, hs, hu, hb, repositories.UpdateUser, w1,
        repositories.UpdateProduct, w2, repositories.UpdateCategory, w3,
        repositories.CreateTransaction, w4]
  · cases w1 : env.faults.UpdateUser <;> cases w2 : env.faults.UpdateProduct <;>
      cases w3 : env.faults.UpdateCategory <;> cases w4 : env.faults.CreateTransaction <;>
      simp [services.CreateTransaction, hp, hc, hs, hu, hb, repositories.UpdateUser, w1,
        repositories.UpdateProduct, w2, repositories.UpdateCategory, w3,
        repositories.CreateTransaction, w4]
  · show usub user.Balance _ ≤ user.Balance
    rw [hsub]; omega
  · show ((usub user.Balance _ : Nat) : Int) = _
    rw [hsub, Nat.cast_sub hle]

/-- Claim C8, witness: 2 pens at 30 debit a balance of 100. -/
theorem balance_debit_never_wraps_witness :
    (¬ (100 : Nat) < umul (toUint (orderFor 2).Quantity) 30 ∧ IsUint 100) ∧
    ∃ written : models.User,
      RepoCall.UpdateUser written ∈
        (services.CreateTransaction calmEnv (sampleStore 30 5 100 0) buyerCtx
          (orderFor 2)).trace ∧
      (∀ u, RepoCall.UpdateUser u ∈
        (services.CreateTransaction calmEnv (sampleStore 30 5 100 0) buyerCtx
          (orderFor 2)).trace → u = written) ∧
      written = { Id := 3, FullName := "Ani", Email := "ani@example.com", Password := "x",
                  Balance := usub 100 (umul (toUint (orderFor 2).Quantity) 30),
                  CreatedAt := 0, UpdatedAt := 0 } ∧
      umul (toUint (orderFor 2).Quantity) 30 ≤ 100 ∧
      written.Balance ≤ 100 ∧
      (written.Balance : Int) =
        ((100 : Nat) : Int) - (umul (toUint (orderFor 2).Quantity) 30 : Nat) :=
  ⟨by decide,
    balance_debit_never_wraps calmEnv (sampleStore 30 5 100 0) buyerCtx (orderFor 2)
      (penRow 30 5)
      (categoryRow 0)
      (buyerRow 100)
      (by decide) (by decide) (by decide) (by decide) (by decide) (by decide)⟩

/-! ## Unknown product (C9) -/

/-- Claim C9: when `GetProductById` fails, the service makes no further repository
call and leaves the store unchanged; the answer is 400 BAD_REQUEST when the error
is record-not-found and 500 INTERNAL_SERVER_ERROR for any other error. -/
theorem unknown_product_rejected (env : Env) (s : Store) (ctx : Context)
    (p : params.CreateTransactions) (e : GoError)
    (h : repositories.GetProductById env s p.ProductId = .error e) :
    (services.CreateTransaction env s ctx p).store = s ∧
    (services.CreateTransaction env s ctx p).trace = [RepoCall.GetProductById p.ProductId] ∧
    (e = GoError.ErrRecordNotFound →
      (services.CreateTransaction env s ctx p).response.Status = 400 ∧
      (services.CreateTransaction env s ctx p).response.Message =
        views.Message.M_BAD_REQUEST) ∧
    (e ≠ GoError.ErrRecordNotFound →
      (services.CreateTransaction env s ctx p).response.Status = 500 ∧
      (services.CreateTransaction env s ctx p).response.Message =
        views.Message.M_INTERNAL_SERVER_ERROR) := by
  unfold services.CreateTransaction
  simp only [h]
  by_cases he : e = GoError.ErrRecordNotFound
  · simp [he, views.ErrorResponse, http.StatusBadRequest]
  · simp [he, views.ErrorResponse, http.StatusInternalServerError]

/-- Claim C9, witness: product 1 is ordered from a store without products. -/
theorem unknown_product_rejected_witness :
    repositories.GetProductById calmEnv
        { products := [], users := [], categories := [], transactions := [] }
        (orderFor 2).ProductId = .error GoError.ErrRecordNotFound ∧
    (services.CreateTransaction calmEnv
        { products := [], users := [], categories := [], transactions := [] } buyerCtx
        (orderFor 2)).store =
      { products := [], users := [], categories := [], transactions := [] } ∧
    (services.CreateTransaction calmEnv
        { products := [], users := [], categories := [], transactions := [] } buyerCtx
        (orderFor 2)).trace = [RepoCall.GetProductById (orderFor 2).ProductId] ∧
    (GoError.ErrRecordNotFound = GoError.ErrRecordNotFound →
      (services.CreateTransaction calmEnv
        { products := [], users := [], categories := [], transactions := [] } buyerCtx
        (orderFor 2)).response.Status = 400 ∧
      (services.CreateTransaction calmEnv
        { products := [], users := [], categories := [], transactions := [] } buyerCtx
        (orderFor 2)).response.Message = views.Message.M_BAD_REQUEST) ∧
    (GoError.ErrRecordNotFound ≠ GoError.ErrRecordNotFound →
      (services.CreateTransaction calmEnv
        { products := [], users := [], categories := [], transactions := [] } buyerCtx
        (orderFor 2)).response.Status = 500 ∧
      (services.CreateTransaction calmEnv
        { products := [], users := [], categories := [], transactions := [] } buyerCtx
        (orderFor 2)).response.Message = views.Message.M_INTERNAL_SERVER_ERROR) :=
  ⟨by decide,
    unknown_product_rejected calmEnv
      { products := [], users := [], categories := [], transactions := [] } buyerCtx
      (orderFor 2) GoError.ErrRecordNotFound (by decide)⟩

/-! ## The result record (C10) -/

/-- Claim C10 as stated fails: all reads, checks and writes succeed for 4294967296
units at unit price 4294967296, and the payload carries `TotalPrice = 0`, not the
product 18446744073709551616. -/
theorem C10_counterexample :
    (services.CreateTransaction calmEnv (sampleStore 4294967296 4294967296 100 0) buyerCtx
        (orderFor 4294967296)).response =
      views.SuccessResponse 201 views.Message.M_CREATED
        { TotalPrice := 0, Quantity := 4294967296, ProductTitle := "pen" } ∧
    ((0 : Nat) : Int) ≠ (orderFor 4294967296).Quantity * ((4294967296 : Nat) : Int) := by
  decide

/-- Claim C10, amended: when all reads succeed, both checks pass and all four
writes succeed, the answer is the 201 Created success response whose payload has
`TotalPrice = price * uint(quantity)` in 64-bit unsigned arithmetic,
`Quantity = uint(quantity)` and the title of the product read; for a non-negative
quantity whose true total is below `2 ^ 64` these are `quantity * price` and
`quantity`. -/
theorem result_record (env : Env) (s : Store) (ctx : Context)
    (p : params.CreateTransactions) (product : models.Product) (category : models.Category)
    (user : models.User)
    (hp : repositories.GetProductById env s p.ProductId = .ok product)
    (hc : repositories.FindCategoryById env s product.CategoryId = .ok category)
    (hs : ¬ product.Stock < p.Quantity)
    (hu : repositories.FindUserById env s (toUint ctx.userData.Id) = .ok user)
    (hb : ¬ user.Balance < umul (toUint p.Quantity) product.Price)
    (w1 : env.faults.UpdateUser = none) (w2 : env.faults.UpdateProduct = none)
    (w3 : env.faults.UpdateCategory = none) (w4 : env.faults.CreateTransaction = none) :
    (services.CreateTransaction env s ctx p).response =
      views.SuccessResponse 201 views.Message.M_CREATED
        { TotalPrice := umul product.Price (toUint p.Quantity)
          Quantity := toUint p.Quantity
          ProductTitle := product.Title } ∧
    (0 ≤ p.Quantity → p.Quantity < 2 ^ 64 → p.Quantity * (product.Price : Int) < 2 ^ 64 →
      ((umul product.Price (toUint p.Quantity) : Nat) : Int) =
        p.Quantity * (product.Price : Int) ∧
      ((toUint p.Quantity : Nat) : Int) = p.Quantity) := by
  constructor
  · rw [services.CreateTransaction_run env s ctx p product category user hp hc hs hu hb
      w1 w2 w3 w4]
  · intro h0 hq h
    have hx := umul_toUint_exact _ _ h0 h hq
    have hcomm : umul product.Price (toUint p.Quantity) = umul (toUint p.Quantity) product.Price := by
      unfold umul; rw [Nat.mul_comm]
    rw [hcomm]
    exact ⟨hx, toUint_of_nonneg _ h0 (by unfold wordSize; push_cast; omega)⟩

/-- Claim C10, witness: 2 pens at 30. -/
theorem result_record_witness :
    (services.CreateTransaction calmEnv (sampleStore 30 5 100 0) buyerCtx
        (orderFor 2)).response =
      views.SuccessResponse 201 views.Message.M_CREATED
        { TotalPrice := umul 30 (toUint (orderFor 2).Quantity)
          Quantity := toUint (orderFor 2).Quantity
          ProductTitle := "pen" } ∧
    (0 ≤ (orderFor 2).Quantity → (orderFor 2).Quantity < 2 ^ 64 →
      (orderFor 2).Quantity * ((30 : Nat) : Int) < 2 ^ 64 →
      ((umul 30 (toUint (orderFor 2).Quantity) : Nat) : Int) =
        (orderFor 2).Quantity * ((30 : Nat) : Int) ∧
      ((toUint (orderFor 2).Quantity : Nat) : Int) = (orderFor 2).Quantity) :=
  result_record calmEnv (sampleStore 30 5 100 0) buyerCtx (orderFor 2)
    (penRow 30 5)
    (categoryRow 0)
    (buyerRow 100)
    (by decide) (by decide) (by decide) (by decide) (by decide) (by decide) (by decide)
    (by decide) (by decide)

/-! ## The read paths (C11) -/

/-- The `for ... append` loop of the read paths computes a map. -/
theorem foldl_append_singleton {α β : Type} (f : α → β) (l : List α) (acc : List β) :
    l.foldl (fun temp t => temp ++ [f t]) acc = acc ++ l.map f := by
  induction l generalizing acc with
  | nil => simp
  | cons a t ih => simp [List.foldl_cons, ih]

/-- Claim C11 as stated fails for the buyer's own list: the row appended by an
accepted order of quantity -1 is stored, and listed among all transactions, with
quantity -1, while `GetMyTransaction` lists it with quantity
18446744073709551615. -/
theorem C11_counterexample :
    (services.CreateTransaction calmEnv (sampleStore 0 5 100 5) buyerCtx
        (orderFor (-1))).response.Status = 201 ∧
    (repositories.GetMyTransaction calmEnv
        (services.CreateTransaction calmEnv (sampleStore 0 5 100 5) buyerCtx
          (orderFor (-1))).store (toUint buyerCtx.userData.Id)).toOption.map
      (List.map (fun t => t.Quantity)) = some [-1] ∧
    (services.GetMyTransaction calmEnv
        (services.CreateTransaction calmEnv (sampleStore 0 5 100 5) buyerCtx
          (orderFor (-1))).store buyerCtx).response.Data.map
      (List.map (fun e => e.Quantity)) = some [18446744073709551615] ∧
    (services.GetUserTransaction calmEnv
        (services.CreateTransaction calmEnv (sampleStore 0 5 100 5) buyerCtx
          (orderFor (-1))).store).response.Data.map
      (List.map (fun e => e.Quantity)) = some [-1] ∧
    ((18446744073709551615 : Nat) : Int) ≠ -1 := by
  decide

/-- Claim C11, amended: when the transactions repository returns a list of rows,
`GetMyTransaction` and `GetUserTransaction` answer 200 OK with a payload that has
one entry per row, in the order of the rows, each entry carrying the identifier,
product id and user id of its row and the identifier, title, price, stock and
category id of the joined product (and, for all transactions, the identifier,
email, full name and balance of the joined user). The list of all transactions
carries the quantity and total of the row; the buyer's own list carries them
converted to `uint`, which is the stored value when that is not negative and
gives it back under `int` otherwise. An empty list of rows gives an empty payload
that is present. Neither path changes the store. -/
theorem read_paths_project (env : Env) (s : Store) (ctx : Context) :
    (∀ rows, repositories.GetMyTransaction env s (toUint ctx.userData.Id) = .ok rows →
      (services.GetMyTransaction env s ctx).response.Status = 200 ∧
      (services.GetMyTransaction env s ctx).response.Message = views.Message.M_OK ∧
      (services.GetMyTransaction env s ctx).store = s ∧
      (rows = [] → (services.GetMyTransaction env s ctx).response.Data = some []) ∧
      ∃ payload, (services.GetMyTransaction env s ctx).response.Data = some payload ∧
        payload.length = rows.length ∧
        List.Forall₂
          (fun (t : models.TransactionHistory) (e : views.GetMyTransaction) =>
            e.Id = t.Id ∧ e.ProductId = t.ProductId ∧ e.UserId = t.UserId ∧
            e.Quantity = toUint t.Quantity ∧ e.TotalPrice = toUint t.TotalPrice ∧
            (IsInt t.Quantity → toInt e.Quantity = t.Quantity) ∧
            (IsInt t.TotalPrice → toInt e.TotalPrice = t.TotalPrice) ∧
            (0 ≤ t.Quantity → IsInt t.Quantity → (e.Quantity : Int) = t.Quantity) ∧
            (0 ≤ t.TotalPrice → IsInt t.TotalPrice → (e.TotalPrice : Int) = t.TotalPrice) ∧
            e.Product.Id = t.Product.Id ∧ e.Product.Title = t.Product.Title ∧
            e.Product.Price = t.Product.Price ∧ e.Product.Stock = t.Product.Stock ∧
            e.Product.CategoryId = t.Product.CategoryId)
          rows payload) ∧
    (∀ rows, repositories.GetUserTransaction env s = .ok rows →
      (services.GetUserTransaction env s).response.Status = 200 ∧
      (services.GetUserTransaction env s).response.Message = views.Message.M_OK ∧
      (services.GetUserTransaction env s).store = s ∧
      (rows = [] → (services.GetUserTransaction env s).response.Data = some []) ∧
      ∃ payload, (services.GetUserTransaction env s).response.Data = some payload ∧
        payload.length = rows.length ∧
        List.Forall₂
          (fun (t : models.TransactionHistory) (e : views.GetUserTransaction) =>
            e.Id = t.Id ∧ e.ProductId = t.ProductId ∧ e.UserId = t.UserId ∧
            e.Quantity = t.Quantity ∧ e.TotalPrice = t.TotalPrice ∧
            e.Product.Id = t.Product.Id ∧ e.Product.Title = t.Product.Title ∧
            e.Product.Price = t.Product.Price ∧ e.Product.Stock = t.Product.Stock ∧
            e.Product.CategoryId = t.Product.CategoryId ∧
            e.User.Id = t.User.Id ∧ e.User.Email = t.User.Email ∧
            e.User.FullName = t.User.FullName ∧ e.User.Balance = t.User.Balance)
          rows payload) := by
  constructor
  · intro rows h
    have e : services.GetMyTransaction env s ctx =
        ⟨views.SuccessResponse 200 views.Message.M_OK
          (rows.map (fun t =>
            { Id := t.Id, ProductId := t.ProductId, UserId := t.UserId,
              Quantity := toUint t.Quantity, TotalPrice := toUint t.TotalPrice,
              Product :=
                { Id := t.Product.Id, Title := t.Product.Title, Price := t.Product.Price,
                  Stock := t.Product.Stock, CategoryId := t.Product.CategoryId,
                  CreatedAt := t.Product.CreatedAt, UpdatedAt := t.Product.UpdatedAt } })),
          s, [RepoCall.GetMyTransaction (toUint ctx.userData.Id)]⟩ := by
      unfold services.GetMyTransaction
      simp only [h, foldl_append_singleton, List.nil_append]
      rfl
    rw [e]
    refine ⟨rfl, rfl, rfl, fun h0 => by rw [h0]; rfl, _, rfl, by simp, ?_⟩
    rw [List.forall₂_map_right_iff, List.forall₂_same]
    intro t _
    refine ⟨rfl, rfl, rfl, rfl, rfl, ?_, ?_, ?_, ?_, rfl, rfl, rfl, rfl, rfl⟩
    · exact fun h1 => wrapInt_of_isInt _ h1
    · exact fun h1 => wrapInt_of_isInt _ h1
    · intro h0 h1
      exact toUint_of_nonneg _ h0 (by unfold IsInt halfWord at h1; unfold wordSize; push_cast; omega)
    · intro h0 h1
      exact toUint_of_nonneg _ h0 (by unfold IsInt halfWord at h1; unfold wordSize; push_cast; omega)
  · intro rows h
    have e : services.GetUserTransaction env s =
        ⟨views.SuccessResponse 200 views.Message.M_OK
          (rows.map (fun t =>
            { Id := t.Id, ProductId := t.ProductId, UserId := t.UserId,
              Quantity := t.Quantity, TotalPrice := t.TotalPrice,
              Product :=
                { Id := t.Product.Id, Title := t.Product.Title, Price := t.Product.Price,
                  Stock := t.Product.Stock, CategoryId := t.Product.CategoryId,
                  CreatedAt := t.Product.CreatedAt, UpdatedAt := t.Product.UpdatedAt },
              User :=
                { Id := t.User.Id, Email := t.User.Email, FullName := t.User.FullName,
                  Balance := t.User.Balance, CreatedAt := t.User.CreatedAt,
                  UpdatedAt := t.User.UpdatedAt } })),
          s, [RepoCall.GetUserTransaction]⟩ := by
      unfold services.GetUserTransaction
      simp only [h, foldl_append_singleton, List.nil_append]
      rfl
    rw [e]
    refine ⟨rfl, rfl, rfl, fun h0 => by rw [h0]; rfl, _, rfl, by simp, ?_⟩
    rw [List.forall₂_map_right_iff, List.forall₂_same]
    intro t _
    exact ⟨rfl, rfl, rfl, rfl, rfl, rfl, rfl, rfl, rfl, rfl, rfl, rfl, rfl, rfl⟩

/-- Claim C11, witness: buyer 3 has two rows and buyer 4 one; the buyer's own list
has 2 entries, the list of all transactions 3, and the first entry of the own
list is the first row with its joined product. -/
theorem read_paths_project_witness :
    (repositories.GetMyTransaction calmEnv ledgerStore (toUint buyerCtx.userData.Id) =
        .ok [{ soldRow 1 3 1 30 with Product := penRow 30 2 },
             { soldRow 3 3 1 30 with Product := penRow 30 2 }] ∧
      (repositories.GetUserTransaction calmEnv ledgerStore).toOption.map List.length = some 3) ∧
    (∃ payload, (services.GetMyTransaction calmEnv ledgerStore buyerCtx).response.Data =
        some payload ∧ payload.length = 2) ∧
    (∃ payload, (services.GetUserTransaction calmEnv ledgerStore).response.Data =
        some payload ∧ payload.length = 3) := by
  refine ⟨by decide, ?_, ?_⟩
  · obtain ⟨_, _, _, _, payload, h1, h2, _⟩ :=
      (read_paths_project calmEnv ledgerStore buyerCtx).1 _ rfl
    exact ⟨payload, h1, h2.trans (by decide)⟩
  · obtain ⟨_, _, _, _, payload, h1, h2, _⟩ :=
      (read_paths_project calmEnv ledgerStore buyerCtx).2 _ rfl
    exact ⟨payload, h1, h2.trans (by decide)⟩

/-! ## The order of the writes (C13) -/

/-- Claim C13: for an order that passes validation, the writes are issued in the
order `UpdateUser`, `UpdateProduct`, `UpdateCategory`, history `CreateTransaction`
and the first failing one ends the call with 500 INTERNAL_SERVER_ERROR: the trace
holds the three reads followed by the writes up to and including the failing
one, and the store after the call is the store before it with exactly the writes
before the failing one applied. -/
theorem writes_in_order (env : Env) (s : Store) (ctx : Context)
    (p : params.CreateTransactions) (product : models.Product) (category : models.Category)
    (user : models.User)
    (hp : repositories.GetProductById env s p.ProductId = .ok product)
    (hc : repositories.FindCategoryById env s product.CategoryId = .ok category)
    (hs : ¬ product.Stock < p.Quantity)
    (hu : repositories.FindUserById env s (toUint ctx.userData.Id) = .ok user)
    (hb : ¬ user.Balance < umul (toUint p.Quantity) product.Price) :
    (∀ e, env.faults.UpdateUser = some e →
      services.CreateTransaction env s ctx p =
        ⟨views.ErrorResponse 500 views.Message.M_INTERNAL_SERVER_ERROR e, s,
          [RepoCall.GetProductById p.ProductId, RepoCall.FindCategoryById product.CategoryId,
            RepoCall.FindUserById (toUint ctx.userData.Id),
            RepoCall.UpdateUser
              { user with
                Balance := usub user.Balance (umul (toUint p.Quantity) product.Price) }]⟩) ∧
    (∀ e, env.faults.UpdateUser = none → env.faults.UpdateProduct = some e →
      services.CreateTransaction env s ctx p =
        ⟨views.ErrorResponse 500 views.Message.M_INTERNAL_SERVER_ERROR e,
          { s with
            users := repositories.updateRow models.User.Id user.Id
              { user with
                Balance := usub user.Balance (umul (toUint p.Quantity) product.Price) }
              s.users },
          [RepoCall.GetProductById p.ProductId, RepoCall.FindCategoryById product.CategoryId,
            RepoCall.FindUserById (toUint ctx.userData.Id),
            RepoCall.UpdateUser
              { user with
                Balance := usub user.Balance (umul (toUint p.Quantity) product.Price) },
            RepoCall.UpdateProduct { product with Stock := isub product.Stock p.Quantity }
              product.Id]⟩) ∧
    (∀ e, env.faults.UpdateUser = none → env.faults.UpdateProduct = none →
      env.faults.UpdateCategory = some e →
      services.CreateTransaction env s ctx p =
        ⟨views.ErrorResponse 500 views.Message.M_INTERNAL_SERVER_ERROR e,
          { s with
            users := repositories.updateRow models.User.Id user.Id
              { user with
                Balance := usub user.Balance (umul (toUint p.Quantity) product.Price) }
              s.users
            products := repositories.updateRow models.Product.Id product.Id
              { product with Stock := isub product.Stock p.Quantity } s.products },
          [RepoCall.GetProductById p.ProductId, RepoCall.FindCategoryById product.CategoryId,
            RepoCall.FindUserById (toUint ctx.userData.Id),
            RepoCall.UpdateUser
              { user with
                Balance := usub user.Balance (umul (toUint p.Quantity) product.Price) },
            RepoCall.UpdateProduct { product with Stock := isub product.Stock p.Quantity }
              product.Id,
            RepoCall.UpdateCategory
              { category with
                SoldProductAmount := uadd category.SoldProductAmount (toUint p.Quantity) }
              category.Id]⟩) ∧
    (∀ e, env.faults.UpdateUser = none → env.faults.UpdateProduct = none →
      env.faults.UpdateCategory = none → env.faults.CreateTransaction = some e →
      services.CreateTransaction env s ctx p =
        ⟨views.ErrorResponse 500 views.Message.M_INTERNAL_SERVER_ERROR e,
          { s with
            users := repositories.updateRow models.User.Id user.Id
              { user with
                Balance := usub user.Balance (umul (toUint p.Quantity) product.Price) }
              s.users
            products := repositories.updateRow models.Product.Id product.Id
              { product with Stock := isub product.Stock p.Quantity } s.products
            categories := repositories.updateRow models.Category.Id category.Id
              { category with
                SoldProductAmount := uadd category.SoldProductAmount (toUint p.Quantity) }
              s.categories },
          [RepoCall.GetProductById p.ProductId, RepoCall.FindCategoryById product.CategoryId,
            RepoCall.FindUserById (toUint ctx.userData.Id),
            RepoCall.UpdateUser
              { user with
                Balance := usub user.Balance (umul (toUint p.Quantity) product.Price) },
            RepoCall.UpdateProduct { product with Stock := isub product.Stock p.Quantity }
              product.Id,
            RepoCall.UpdateCategory
              { category with
                SoldProductAmount := uadd category.SoldProductAmount (toUint p.Quantity) }
              category.Id,
            RepoCall.CreateTransaction
              { Id := 0, ProductId := p.ProductId, UserId := user.Id, Quantity := p.Quantity,
                TotalPrice := imul p.Quantity (toInt product.Price), CreatedAt := 0,
                UpdatedAt := 0, Product := models.Product.zero, User := models.User.zero }]⟩) := by
  refine ⟨?_, ?_, ?_, ?_⟩
  · intro e w1
    simp [services.CreateTransaction, hp, hc, hs, hu, hb, repositories.UpdateUser, w1,
      http.StatusInternalServerError]
  · intro e w1 w2
    simp [services.CreateTransaction, hp, hc, hs, hu, hb, repositories.UpdateUser, w1,
      repositories.UpdateProduct, w2, http.StatusInternalServerError]
  · intro e w1 w2 w3
    simp [services.CreateTransaction, hp, hc, hs, hu, hb, repositories.UpdateUser, w1,
      repositories.UpdateProduct, w2, repositories.UpdateCategory, w3,
      http.StatusInternalServerError]
  · intro e w1 w2 w3 w4
    simp [services.CreateTransaction, hp, hc, hs, hu, hb, repositories.UpdateUser, w1,
      repositories.UpdateProduct, w2, repositories.UpdateCategory, w3,
      repositories.CreateTransaction, w4, http.StatusInternalServerError]

/-- Claim C13, witness: `UpdateProduct` fails on an order of 2 pens at 30; the
balance is debited from 100 to 40 while stock, sold amount and history are as
before. -/
theorem writes_in_order_witness :
    (productDownEnv.faults.UpdateUser = none ∧
      productDownEnv.faults.UpdateProduct = some (GoError.other "connection lost")) ∧
    services.CreateTransaction productDownEnv (sampleStore 30 5 100 0) buyerCtx (orderFor 2) =
      ⟨views.ErrorResponse 500 views.Message.M_INTERNAL_SERVER_ERROR
          (GoError.other "connection lost"),
        { sampleStore 30 5 100 0 with users := [buyerRow 40] },
        [RepoCall.GetProductById 1, RepoCall.FindCategoryById 7, RepoCall.FindUserById 3,
          RepoCall.UpdateUser (buyerRow 40), RepoCall.UpdateProduct (penRow 30 3) 1]⟩ :=
  ⟨by decide,
    (writes_in_order productDownEnv (sampleStore 30 5 100 0) buyerCtx (orderFor 2)
      (penRow 30 5) (categoryRow 0) (buyerRow 100)
      (by decide) (by decide) (by decide) (by decide) (by decide)).2.1
      (GoError.other "connection lost") (by decide) (by decide)⟩

/-! ## Integrity failures (C15) -/

/-- Claim C15: when the product resolves and either the lookup of its category
fails with any error, or the category resolves, the stock is sufficient and the
lookup of the authenticated buyer fails, the answer is 500
INTERNAL_SERVER_ERROR carrying that error, no write is issued and the store is
unchanged. -/
theorem integrity_failure_is_internal (env : Env) (s : Store) (ctx : Context)
    (p : params.CreateTransactions) (product : models.Product) (e : GoError)
    (hp : repositories.GetProductById env s p.ProductId = .ok product)
    (h : repositories.FindCategoryById env s product.CategoryId = .error e ∨
      ∃ category, repositories.FindCategoryById env s product.CategoryId = .ok category ∧
        ¬ product.Stock < p.Quantity ∧
        repositories.FindUserById env s (toUint ctx.userData.Id) = .error e) :
    (services.CreateTransaction env s ctx p).response =
      views.ErrorResponse 500 views.Message.M_INTERNAL_SERVER_ERROR e ∧
    (services.CreateTransaction env s ctx p).response.Status = 500 ∧
    (services.CreateTransaction env s ctx p).response.Message =
      views.Message.M_INTERNAL_SERVER_ERROR ∧
    (services.CreateTransaction env s ctx p).store = s ∧
    (∀ c ∈ (services.CreateTransaction env s ctx p).trace, c.isWrite = false) := by
  rcases h with hc | ⟨category, hc, hs, hu⟩
  · simp [services.CreateTransaction, hp, hc, views.ErrorResponse,
      http.StatusInternalServerError, RepoCall.isWrite]
  · simp [services.CreateTransaction, hp, hc, hs, hu, views.ErrorResponse,
      http.StatusInternalServerError, RepoCall.isWrite]

/-- Claim C15, witness: the product's category row is missing. -/
theorem integrity_failure_is_internal_witness :
    (repositories.GetProductById calmEnv (orphanStore 30 5 100) (orderFor 2).ProductId =
        .ok (penRow 30 5) ∧
      repositories.FindCategoryById calmEnv (orphanStore 30 5 100) (penRow 30 5).CategoryId =
        .error GoError.ErrRecordNotFound) ∧
    (services.CreateTransaction calmEnv (orphanStore 30 5 100) buyerCtx (orderFor 2)).response =
      views.ErrorResponse 500 views.Message.M_INTERNAL_SERVER_ERROR GoError.ErrRecordNotFound ∧
    (services.CreateTransaction calmEnv (orphanStore 30 5 100) buyerCtx
        (orderFor 2)).response.Status = 500 ∧
    (services.CreateTransaction calmEnv (orphanStore 30 5 100) buyerCtx
        (orderFor 2)).response.Message = views.Message.M_INTERNAL_SERVER_ERROR ∧
    (services.CreateTransaction calmEnv (orphanStore 30 5 100) buyerCtx (orderFor 2)).store =
      orphanStore 30 5 100 ∧
    (∀ c ∈ (services.CreateTransaction calmEnv (orphanStore 30 5 100) buyerCtx
        (orderFor 2)).trace, c.isWrite = false) :=
  ⟨by decide,
    integrity_failure_is_internal calmEnv (orphanStore 30 5 100) buyerCtx (orderFor 2)
      (penRow 30 5) GoError.ErrRecordNotFound (by decide) (Or.inl (by decide))⟩

/-! ## The frame of a successful order (C17) -/

/-- Claim C17: on a 201 answer the tables after the call are the tables before it,
row by row: every user row is unchanged except the buyer row that was read, which
differs at most in its balance; every product row is unchanged except the product
row that was read, which differs at most in its stock; every category row is
unchanged except the category row that was read, which differs at most in its
sold amount; the history before the call is kept and one row is appended. The
rows of every other identifier are found unchanged. -/
theorem frame_of_created (env : Env) (s : Store) (ctx : Context)
    (p : params.CreateTransactions)
    (h : (services.CreateTransaction env s ctx p).response.Status = 201) :
    ∃ (product : models.Product) (category : models.Category) (user : models.User)
      (row : models.TransactionHistory),
      repositories.GetProductById env s p.ProductId = .ok product ∧
      repositories.FindCategoryById env s product.CategoryId = .ok category ∧
      repositories.FindUserById env s (toUint ctx.userData.Id) = .ok user ∧
      List.Forall₂
        (fun a b => a = b ∨ (a = user ∧ ∃ balance, b = { user with Balance := balance }))
        s.users (services.CreateTransaction env s ctx p).store.users ∧
      List.Forall₂
        (fun a b => a = b ∨ (a = product ∧ ∃ stock, b = { product with Stock := stock }))
        s.products (services.CreateTransaction env s ctx p).store.products ∧
      List.Forall₂
        (fun a b => a = b ∨
          (a = category ∧ ∃ sold, b = { category with SoldProductAmount := sold }))
        s.categories (services.CreateTransaction env s ctx p).store.categories ∧
      (services.CreateTransaction env s ctx p).store.transactions = s.transactions ++ [row] ∧
      (∀ j, j ≠ toUint ctx.userData.Id →
        repositories.lookupRow models.User.Id j
            (services.CreateTransaction env s ctx p).store.users =
          repositories.lookupRow models.User.Id j s.users) ∧
      (∀ j, j ≠ p.ProductId →
        repositories.lookupRow models.Product.Id j
            (services.CreateTransaction env s ctx p).store.products =
          repositories.lookupRow models.Product.Id j s.products) ∧
      (∀ j, j ≠ product.CategoryId →
        repositories.lookupRow models.Category.Id j
            (services.CreateTransaction env s ctx p).store.categories =
          repositories.lookupRow models.Category.Id j s.categories) := by
  obtain ⟨product, category, user, hp, hc, hs, hu, hb, w1, w2, w3, w4⟩ :=
    services.CreateTransaction_created env s ctx p h
  have hrun := services.CreateTransaction_run env s ctx p product category user hp hc hs hu hb
    w1 w2 w3 w4
  obtain ⟨_, lp⟩ := repositories.GetProductById_ok env s _ _ hp
  obtain ⟨_, lc⟩ := repositories.FindCategoryById_ok env s _ _ hc
  obtain ⟨_, lu⟩ := repositories.FindUserById_ok env s _ _ hu
  have kp := (repositories.lookupRow_key models.Product.Id _ _ _ lp).1
  have kc := (repositories.lookupRow_key models.Category.Id _ _ _ lc).1
  have ku := (repositories.lookupRow_key models.User.Id _ _ _ lu).1
  rw [hrun]
  refine ⟨product, category, user, _, hp, hc, hu, ?_, ?_, ?_, rfl, ?_, ?_, ?_⟩
  · apply repositories.forall₂_updateRow
    · intro a; exact Or.inl rfl
    · intro x hx
      rw [ku, lu] at hx
      exact Or.inr ⟨(Option.some.inj hx).symm, _, rfl⟩
  · apply repositories.forall₂_updateRow
    · intro a; exact Or.inl rfl
    · intro x hx
      rw [kp, lp] at hx
      exact Or.inr ⟨(Option.some.inj hx).symm, _, rfl⟩
  · apply repositories.forall₂_updateRow
    · intro a; exact Or.inl rfl
    · intro x hx
      rw [kc, lc] at hx
      exact Or.inr ⟨(Option.some.inj hx).symm, _, rfl⟩
  · intro j hj
    refine repositories.lookupRow_updateRow_other models.User.Id user.Id j _ ?_ ?_ s.users
    · rfl
    · rw [ku]; exact hj
  · intro j hj
    refine repositories.lookupRow_updateRow_other models.Product.Id product.Id j _ ?_ ?_ s.products
    · rfl
    · rw [kp]; exact hj
  · intro j hj
    refine repositories.lookupRow_updateRow_other models.Category.Id category.Id j _ ?_ ?_ s.categories
    · rfl
    · rw [kc]; exact hj

/-- Claim C17, witness: buyer 3 orders one pen from a store with a second product,
a second user, a second category and three history rows; the rows of product 2,
user 4 and category 8 and the three history rows are as before, and the touched
rows differ at most in balance, stock and sold amount. -/
theorem frame_of_created_witness :
    (services.CreateTransaction calmEnv bazaarStore buyerCtx (orderFor 1)).response.Status =
      201 ∧
    ∃ row,
      (services.CreateTransaction calmEnv bazaarStore buyerCtx (orderFor 1)).store.transactions =
        [soldRow 1 3 1 30, soldRow 2 4 1 30, soldRow 3 3 1 30] ++ [row] ∧
      List.Forall₂
        (fun a b => a = b ∨
          (a = buyerRow 40 ∧ ∃ balance, b = { buyerRow 40 with Balance := balance }))
        [buyerRow 40, otherBuyerRow]
        (services.CreateTransaction calmEnv bazaarStore buyerCtx (orderFor 1)).store.users ∧
      List.Forall₂
        (fun a b => a = b ∨ (a = penRow 30 2 ∧ ∃ stock, b = { penRow 30 2 with Stock := stock }))
        [penRow 30 2, inkRow]
        (services.CreateTransaction calmEnv bazaarStore buyerCtx (orderFor 1)).store.products ∧
      List.Forall₂
        (fun a b => a = b ∨
          (a = categoryRow 3 ∧ ∃ sold, b = { categoryRow 3 with SoldProductAmount := sold }))
        [categoryRow 3, inkCategoryRow]
        (services.CreateTransaction calmEnv bazaarStore buyerCtx (orderFor 1)).store.categories ∧
      repositories.lookupRow models.User.Id 4
        (services.CreateTransaction calmEnv bazaarStore buyerCtx (orderFor 1)).store.users =
        some otherBuyerRow ∧
      repositories.lookupRow models.Product.Id 2
        (services.CreateTransaction calmEnv bazaarStore buyerCtx (orderFor 1)).store.products =
        some inkRow ∧
      repositories.lookupRow models.Category.Id 8
        (services.CreateTransaction calmEnv bazaarStore buyerCtx (orderFor 1)).store.categories =
        some inkCategoryRow := by
  refine ⟨by decide, ?_⟩
  obtain ⟨product, category, user, row, hp, hc, hu, fu, fp, fc, ht, lu, lp, lc⟩ :=
    frame_of_created calmEnv bazaarStore buyerCtx (orderFor 1) (by decide)
  have hp1 : repositories.GetProductById calmEnv bazaarStore (orderFor 1).ProductId =
      .ok (penRow 30 2) := by decide
  rw [hp1] at hp
  have hproduct : penRow 30 2 = product := Except.ok.inj hp
  subst hproduct
  have hc1 : repositories.FindCategoryById calmEnv bazaarStore (penRow 30 2).CategoryId =
      .ok (categoryRow 3) := by decide
  rw [hc1] at hc
  have hcategory : categoryRow 3 = category := Except.ok.inj hc
  subst hcategory
  have hu1 : repositories.FindUserById calmEnv bazaarStore (toUint buyerCtx.userData.Id) =
      .ok (buyerRow 40) := by decide
  rw [hu1] at hu
  have huser : buyerRow 40 = user := Except.ok.inj hu
  subst huser
  exact ⟨row, ht, fu, fp, fc, (lu 4 (by decide)).trans (by decide),
    (lp 2 (by decide)).trans (by decide), (lc 8 (by decide)).trans (by decide)⟩

/-! ## Sold amount and history (C14) -/

namespace repositories

/-- A point update that keeps some attribute of the row it replaces keeps that
attribute of every row looked up. -/
theorem lookupRow_updateRow_map {α β : Type} (key : α → Nat) (k : Nat) (v x : α) (f : α → β)
    (l : List α) (hv : key v = k) (hx : lookupRow key k l = some x) (hf : f v = f x) (j : Nat) :
    (lookupRow key j (updateRow key k v l)).map f = (lookupRow key j l).map f := by
  by_cases hj : j = k
  · subst hj
    rw [lookupRow_updateRow_same key j v hv l x hx, hx]
    simp [hf]
  · rw [lookupRow_updateRow_other key k j v hv hj l]

end repositories

/-- The history sum of a category after a row is appended and the product table is
changed without moving any product to another category. -/
theorem historySum_append (s s1 : Store) (row : models.TransactionHistory) (categoryId : Nat)
    (hcat : ∀ t, categoryOfRow s1 t = categoryOfRow s t)
    (ht : s1.transactions = s.transactions ++ [row]) :
    historySum s1 categoryId =
      historySum s categoryId +
        (if categoryOfRow s row = some categoryId then row.Quantity else 0) := by
  unfold historySum
  rw [ht]
  have hfun : (fun t => categoryOfRow s1 t == some categoryId) =
      (fun t => categoryOfRow s t == some categoryId) := by
    funext t; rw [hcat t]
  rw [hfun, List.filter_append, List.map_append, List.sum_append]
  congr 1
  by_cases h : categoryOfRow s row = some categoryId
  · simp [List.filter_cons, h]
  · simp [List.filter_cons, h]

/-- Claim C14 as stated fails: the sold amount 0 equals the sum over the empty
history; an accepted order of quantity -1 for a free product leaves the sold
amount at 18446744073709551615 and the history sum at -1. -/
theorem C14_counterexample :
    (∀ c ∈ (sampleStore 0 5 100 0).categories,
      (c.SoldProductAmount : Int) = historySum (sampleStore 0 5 100 0) c.Id) ∧
    (services.CreateTransaction calmEnv (sampleStore 0 5 100 0) buyerCtx
        (orderFor (-1))).response.Status = 201 ∧
    (services.CreateTransaction calmEnv (sampleStore 0 5 100 0) buyerCtx
        (orderFor (-1))).store.categories.map (fun c => (c.Id, c.SoldProductAmount)) =
      [(7, 18446744073709551615)] ∧
    historySum (services.CreateTransaction calmEnv (sampleStore 0 5 100 0) buyerCtx
        (orderFor (-1))).store 7 = -1 ∧
    ¬ ∀ c ∈ (services.CreateTransaction calmEnv (sampleStore 0 5 100 0) buyerCtx
        (orderFor (-1))).store.categories,
      (c.SoldProductAmount : Int) =
        historySum (services.CreateTransaction calmEnv (sampleStore 0 5 100 0) buyerCtx
          (orderFor (-1))).store c.Id := by
  decide

/-- The counter update `+= uint(quantity)` is the exact sum, for a quantity of
either sign, when that sum is a `uint`. -/
theorem uadd_toUint_exact (sold : Nat) (q : Int) (h0 : 0 ≤ (sold : Int) + q)
    (h1 : (sold : Int) + q < 2 ^ 64) : ((uadd sold (toUint q) : Nat) : Int) = (sold : Int) + q := by
  unfold uadd toUint wordSize
  omega

/-- Claim C14, amended: if before the call the category row found under each
identifier has a sold amount equal to the sum of the quantities of the history
rows whose product belongs to that category, then after an order of either sign
answered with 201 for which the counter of the ordered product's category plus
the quantity is a `uint` (at least 0 and below `2 ^ 64`), the same holds of the
store after the call. -/
theorem sold_matches_history_preserved (env : Env) (s : Store) (ctx : Context)
    (p : params.CreateTransactions)
    (hinv : ∀ categoryId c,
      repositories.lookupRow models.Category.Id categoryId s.categories = some c →
      (c.SoldProductAmount : Int) = historySum s categoryId)
    (h : (services.CreateTransaction env s ctx p).response.Status = 201)
    (hfit : ∀ product category,
      repositories.GetProductById env s p.ProductId = .ok product →
      repositories.FindCategoryById env s product.CategoryId = .ok category →
      0 ≤ (category.SoldProductAmount : Int) + p.Quantity ∧
        (category.SoldProductAmount : Int) + p.Quantity < 2 ^ 64) :
    ∀ categoryId c,
      repositories.lookupRow models.Category.Id categoryId
        (services.CreateTransaction env s ctx p).store.categories = some c →
      (c.SoldProductAmount : Int) =
        historySum (services.CreateTransaction env s ctx p).store categoryId := by
  obtain ⟨product, category, user, hp, hc, hs, hu, hb, w1, w2, w3, w4⟩ :=
    services.CreateTransaction_created env s ctx p h
  have hrun := services.CreateTransaction_run env s ctx p product category user hp hc hs hu hb
    w1 w2 w3 w4
  obtain ⟨_, lp⟩ := repositories.GetProductById_ok env s _ _ hp
  obtain ⟨_, lc⟩ := repositories.FindCategoryById_ok env s _ _ hc
  obtain ⟨kp, _⟩ := repositories.lookupRow_key models.Product.Id _ _ _ lp
  obtain ⟨kc, hmem⟩ := repositories.lookupRow_key models.Category.Id _ _ _ lc
  have hadd := uadd_toUint_exact category.SoldProductAmount p.Quantity
    (hfit product category hp hc).1 (hfit product category hp hc).2
  rw [hrun]
  intro categoryId c hlook
  simp only at hlook
  have hcat : ∀ t, categoryOfRow
      { products := repositories.updateRow models.Product.Id product.Id
          { product with Stock := isub product.Stock p.Quantity } s.products
        users := repositories.updateRow models.User.Id user.Id
          { user with Balance := usub user.Balance (umul (toUint p.Quantity) product.Price) }
          s.users
        categories := repositories.updateRow models.Category.Id category.Id
          { category with
            SoldProductAmount := uadd category.SoldProductAmount (toUint p.Quantity) }
          s.categories
        transactions := s.transactions ++
          [{ Id := repositories.nextTransactionId s, ProductId := p.ProductId, UserId := user.Id,
             Quantity := p.Quantity, TotalPrice := imul p.Quantity (toInt product.Price),
             CreatedAt := env.now, UpdatedAt := env.now, Product := models.Product.zero,
             User := models.User.zero }] } t = categoryOfRow s t := by
    intro t
    unfold categoryOfRow
    exact repositories.lookupRow_updateRow_map models.Product.Id product.Id
      { product with Stock := isub product.Stock p.Quantity } product
      (fun x => x.CategoryId) s.products rfl (by rw [kp]; exact lp) rfl t.ProductId
  rw [historySum_append s _ _ categoryId hcat rfl]
  have hrow : categoryOfRow s
      { Id := repositories.nextTransactionId s, ProductId := p.ProductId, UserId := user.Id,
        Quantity := p.Quantity, TotalPrice := imul p.Quantity (toInt product.Price),
        CreatedAt := env.now, UpdatedAt := env.now, Product := models.Product.zero,
        User := models.User.zero } = some product.CategoryId := by
    unfold categoryOfRow
    simp only [lp, Option.map_some']
  rw [hrow]
  by_cases hcid : categoryId = category.Id
  · subst hcid
    rw [repositories.lookupRow_updateRow_same models.Category.Id category.Id
      { category with
        SoldProductAmount := uadd category.SoldProductAmount (toUint p.Quantity) }
      rfl s.categories category (by rw [kc]; exact lc)] at hlook
    have hc1 := (Option.some.inj hlook).symm
    subst hc1
    have h0 := hinv category.Id category (by rw [kc]; exact lc)
    simp only [kc, if_true]
    rw [← kc, ← h0]
    exact hadd
  · rw [repositories.lookupRow_updateRow_other models.Category.Id category.Id categoryId
      { category with
        SoldProductAmount := uadd category.SoldProductAmount (toUint p.Quantity) }
      rfl hcid s.categories] at hlook
    have h0 := hinv categoryId c hlook
    have hne : ¬ (some product.CategoryId = some categoryId) := by
      intro h1
      exact hcid ((Option.some.inj h1).symm.trans kc.symm)
    simp only [hne, if_false, add_zero]
    exact h0

/-- Claim C14, witness: the counter of category 7 and its history sum are both 5;
an order of -1 free pens is accepted and leaves both at 4. -/
theorem sold_matches_history_preserved_witness :
    ((services.CreateTransaction calmEnv countedStore buyerCtx (orderFor (-1))).response.Status =
        201 ∧
      (countedStore.categories.map (fun c => c.SoldProductAmount) = [5] ∧
        historySum countedStore 7 = 5)) ∧
    ∃ c,
      repositories.lookupRow models.Category.Id 7
        (services.CreateTransaction calmEnv countedStore buyerCtx
          (orderFor (-1))).store.categories = some c ∧
      c.SoldProductAmount = 4 ∧
      (c.SoldProductAmount : Int) =
        historySum (services.CreateTransaction calmEnv countedStore buyerCtx
          (orderFor (-1))).store 7 := by
  refine ⟨by decide, categoryRow 4, by decide, by decide, ?_⟩
  refine sold_matches_history_preserved calmEnv countedStore buyerCtx (orderFor (-1))
    ?_ (by decide) ?_ 7 (categoryRow 4) (by decide)
  · intro categoryId c hc
    obtain ⟨hid, hm⟩ := repositories.lookupRow_key models.Category.Id categoryId _ c hc
    have hc0 : c = categoryRow 5 := by simpa [countedStore, sampleStore] using hm
    subst hc0
    rw [← hid]
    decide
  · intro product category hp hc
    have hp1 : repositories.GetProductById calmEnv countedStore (orderFor (-1)).ProductId =
        .ok (penRow 0 5) := by decide
    rw [hp1] at hp
    have hproduct : penRow 0 5 = product := Except.ok.inj hp
    subst hproduct
    have hc1 : repositories.FindCategoryById calmEnv countedStore (penRow 0 5).CategoryId =
        .ok (categoryRow 5) := by decide
    rw [hc1] at hc
    have hcategory : categoryRow 5 = category := Except.ok.inj hc
    subst hcategory
    decide

/-! ## The three computations of the total (C16) -/

theorem toUint_toInt (n : Nat) : toUint (toInt n) = n % wordSize := by
  unfold toUint toInt halfWord wordSize
  split <;> omega

theorem toUint_wrapInt (x : Int) : toUint (wrapInt x) = toUint x := by
  unfold wrapInt
  rw [toUint_toInt]
  exact Nat.mod_eq_of_lt (toUint_lt x)

theorem umul_comm (a b : Nat) : umul a b = umul b a := by
  unfold umul; rw [Nat.mul_comm]

/-- The signed total `quantity * int(price)` and the unsigned total
`uint(quantity) * price` are the same machine word. -/
theorem toUint_imul_toInt (q : Int) (price : Nat) :
    toUint (imul q (toInt price)) = umul (toUint q) price := by
  unfold imul
  rw [toUint_wrapInt]
  have h1 : toInt price % (wordSize : Int) = (price : Int) % (wordSize : Int) := by
    unfold toInt halfWord wordSize
    split <;> omega
  have h2 : q % (wordSize : Int) = ((toUint q : Nat) : Int) := by
    unfold toUint wordSize; omega
  have h3 : (q * toInt price) % (wordSize : Int) =
      ((umul (toUint q) price : Nat) : Int) := by
    unfold umul
    push_cast
    rw [Int.mul_emod, h1, h2]
    calc ((toUint q : Nat) : Int) * ((price : Int) % (wordSize : Int)) % (wordSize : Int)
        = (((toUint q : Nat) : Int) % (wordSize : Int)) *
            (((price : Int) % (wordSize : Int)) % (wordSize : Int)) % (wordSize : Int) :=
          Int.mul_emod _ _ _
      _ = (((toUint q : Nat) : Int) % (wordSize : Int)) *
            ((price : Int) % (wordSize : Int)) % (wordSize : Int) := by
          rw [Int.emod_emod_of_dvd _ (dvd_refl _)]
      _ = ((toUint q : Nat) : Int) * (price : Int) % (wordSize : Int) :=
          (Int.mul_emod _ _ _).symm
  unfold toUint at h2 ⊢
  rw [h3]
  exact Int.toNat_ofNat _

/-- Claim C16 as stated fails: 2147483648 units at unit price 4294967296 are paid
from a balance of 9223372036854775808; the amount debited and the total in the
response are 9223372036854775808, while the total stored in the history row is
-9223372036854775808, which is negative. -/
theorem C16_counterexample :
    (services.CreateTransaction calmEnv
        (sampleStore 4294967296 2147483648 9223372036854775808 0) buyerCtx
        (orderFor 2147483648)).response =
      views.SuccessResponse 201 views.Message.M_CREATED
        { TotalPrice := 9223372036854775808, Quantity := 2147483648, ProductTitle := "pen" } ∧
    umul (toUint (orderFor 2147483648).Quantity) 4294967296 = 9223372036854775808 ∧
    (services.CreateTransaction calmEnv
        (sampleStore 4294967296 2147483648 9223372036854775808 0) buyerCtx
        (orderFor 2147483648)).store.users.map (fun u => u.Balance) = [0] ∧
    (services.CreateTransaction calmEnv
        (sampleStore 4294967296 2147483648 9223372036854775808 0) buyerCtx
        (orderFor 2147483648)).store.transactions.map (fun t => t.TotalPrice) =
      [-9223372036854775808] ∧
    (-9223372036854775808 : Int) < 0 ∧
    (-9223372036854775808 : Int) ≠ ((9223372036854775808 : Nat) : Int) := by
  decide

/-- Claim C16, amended: on a 201 answer the amount debited from the buyer, the
total in the response and the total stored in the appended history row are the
same 64-bit word: the first two are equal as unsigned numbers, the stored total is
that word read as a signed `int`, and `GetMyTransaction` on the store after the
call lists the appended row last with that unsigned number as its total. When the
word is below `2 ^ 63` the stored total is the same non-negative integer. -/
theorem totals_agree_as_words (env : Env) (s : Store) (ctx : Context)
    (p : params.CreateTransactions)
    (h : (services.CreateTransaction env s ctx p).response.Status = 201) :
    ∃ (product : models.Product) (user : models.User) (row : models.TransactionHistory)
      (payload : views.CreateTransaction),
      repositories.GetProductById env s p.ProductId = .ok product ∧
      repositories.FindUserById env s (toUint ctx.userData.Id) = .ok user ∧
      repositories.FindUserById env (services.CreateTransaction env s ctx p).store
          (toUint ctx.userData.Id) =
        .ok { user with
              Balance := usub user.Balance (umul (toUint p.Quantity) product.Price) } ∧
      (services.CreateTransaction env s ctx p).store.transactions = s.transactions ++ [row] ∧
      row.TotalPrice = imul p.Quantity (toInt product.Price) ∧
      (services.CreateTransaction env s ctx p).response.Data = some payload ∧
      payload.TotalPrice = umul product.Price (toUint p.Quantity) ∧
      payload.TotalPrice = umul (toUint p.Quantity) product.Price ∧
      toUint row.TotalPrice = umul (toUint p.Quantity) product.Price ∧
      row.TotalPrice = toInt (umul (toUint p.Quantity) product.Price) ∧
      (umul (toUint p.Quantity) product.Price < 2 ^ 63 →
        row.TotalPrice = ((umul (toUint p.Quantity) product.Price : Nat) : Int) ∧
        0 ≤ row.TotalPrice) ∧
      (∀ env2 : Env, env2.faults.GetMyTransaction = none →
        ∃ older entry,
          (services.GetMyTransaction env2 (services.CreateTransaction env s ctx p).store
            ctx).response.Data = some (older ++ [entry]) ∧
          entry.Id = row.Id ∧
          entry.TotalPrice = umul (toUint p.Quantity) product.Price) := by
  obtain ⟨product, category, user, hp, hc, hs, hu, hb, w1, w2, w3, w4⟩ :=
    services.CreateTransaction_created env s ctx p h
  have hrun := services.CreateTransaction_run env s ctx p product category user hp hc hs hu hb
    w1 w2 w3 w4
  obtain ⟨fu, lu⟩ := repositories.FindUserById_ok env s _ _ hu
  have ku := (repositories.lookupRow_key models.User.Id _ _ _ lu).1
  have hword := toUint_imul_toInt p.Quantity product.Price
  have hsigned : imul p.Quantity (toInt product.Price) =
      toInt (umul (toUint p.Quantity) product.Price) := by
    rw [← hword]
    unfold imul wrapInt
    rw [toUint_toInt, Nat.mod_eq_of_lt (toUint_lt _)]
  rw [hrun]
  refine ⟨product, user, _, _, hp, hu, ?_, rfl, rfl, rfl, rfl, umul_comm _ _, hword, hsigned,
    ?_, ?_⟩
  · have e := repositories.lookupRow_updateRow_same models.User.Id user.Id
      { user with Balance := usub user.Balance (umul (toUint p.Quantity) product.Price) } rfl
      s.users user (by rw [ku]; exact lu)
    unfold repositories.FindUserById
    simp only [fu, ← ku, e]
  · intro hlt
    have hval : toInt (umul (toUint p.Quantity) product.Price) =
        ((umul (toUint p.Quantity) product.Price : Nat) : Int) :=
      toInt_of_lt _ (by unfold halfWord; exact hlt)
    show imul p.Quantity (toInt product.Price) = _ ∧ 0 ≤ imul p.Quantity (toInt product.Price)
    rw [hsigned, hval]
    exact ⟨rfl, Int.natCast_nonneg _⟩
  · intro env2 hf
    have hlast : List.filter (fun t => t.UserId == toUint ctx.userData.Id)
        [({ Id := repositories.nextTransactionId s, ProductId := p.ProductId, UserId := user.Id,
            Quantity := p.Quantity, TotalPrice := imul p.Quantity (toInt product.Price),
            CreatedAt := env.now, UpdatedAt := env.now, Product := models.Product.zero,
            User := models.User.zero } : models.TransactionHistory)] =
        [{ Id := repositories.nextTransactionId s, ProductId := p.ProductId, UserId := user.Id,
           Quantity := p.Quantity, TotalPrice := imul p.Quantity (toInt product.Price),
           CreatedAt := env.now, UpdatedAt := env.now, Product := models.Product.zero,
           User := models.User.zero }] := by
      simp [List.filter_cons, ku]
    unfold services.GetMyTransaction repositories.GetMyTransaction
    simp only [hf, foldl_append_singleton, List.nil_append, List.filter_append, List.map_append,
      hlast, List.map_cons, List.map_nil, views.SuccessResponse]
    exact ⟨_, _, rfl, rfl, hword⟩

/-- Claim C16, witness: 2 pens at 30; the response total, the stored total and the
total listed afterwards are all 60. -/
theorem totals_agree_as_words_witness :
    (services.CreateTransaction calmEnv (sampleStore 30 5 100 0) buyerCtx
        (orderFor 2)).response.Status = 201 ∧
    ∃ (row : models.TransactionHistory) (payload : views.CreateTransaction),
      (services.CreateTransaction calmEnv (sampleStore 30 5 100 0) buyerCtx
        (orderFor 2)).store.transactions = (sampleStore 30 5 100 0).transactions ++ [row] ∧
      (services.CreateTransaction calmEnv (sampleStore 30 5 100 0) buyerCtx
        (orderFor 2)).response.Data = some payload ∧
      payload.TotalPrice = 60 ∧ toUint row.TotalPrice = 60 ∧ row.TotalPrice = 60 ∧
      ∃ older entry,
        (services.GetMyTransaction calmEnv
          (services.CreateTransaction calmEnv (sampleStore 30 5 100 0) buyerCtx
            (orderFor 2)).store buyerCtx).response.Data = some (older ++ [entry]) ∧
        entry.Id = row.Id ∧ entry.TotalPrice = 60 := by
  refine ⟨by decide, ?_⟩
  obtain ⟨product, user, row, payload, hp, _, _, ht, _, hd, _, hpay, hrow, _, hsame, hmy⟩ :=
    totals_agree_as_words calmEnv (sampleStore 30 5 100 0) buyerCtx (orderFor 2) (by decide)
  have hpen : repositories.GetProductById calmEnv (sampleStore 30 5 100 0)
      (orderFor 2).ProductId = .ok (penRow 30 5) := by decide
  rw [hpen] at hp
  have hproduct : penRow 30 5 = product := Except.ok.inj hp
  subst hproduct
  have h60 : umul (toUint (orderFor 2).Quantity) (penRow 30 5).Price = 60 := by decide
  rw [h60] at hpay hrow hsame hmy
  obtain ⟨older, entry, hdata, hid, htotal⟩ := hmy calmEnv (by decide)
  exact ⟨row, payload, ht, hd, hpay, hrow, (hsame (by decide)).1, older, entry, hdata, hid,
    htotal⟩

/-! ## Selling the stock out, one order after the other (C18) -/

theorem runOutcomes_length (s : Store) (calls : List Call) :
    (runOutcomes s calls).length = calls.length := by
  induction calls generalizing s with
  | nil => rfl
  | cons c rest ih => simp [runOutcomes, ih]

/-- `N` orders of `q` units against a stock of `N * q`, paid from a sufficient
balance and with every repository call served, are all answered with 201 and
leave a stock of 0, with the product and its category still resolving. -/
theorem exhaustion_aux (q : Int) (env : Env) (ctx : Context) (pid : Nat)
    (henv : env.faults = Faults.none) (hq : 0 < q) (N : Nat) :
    ∀ (s : Store) (product : models.Product) (category : models.Category) (user : models.User),
      repositories.lookupRow models.Product.Id pid s.products = some product →
      repositories.lookupRow models.Category.Id product.CategoryId s.categories = some category →
      repositories.lookupRow models.User.Id (toUint ctx.userData.Id) s.users = some user →
      product.Stock = (N : Int) * q → IsInt product.Stock → IsUint user.Balance →
      (N : Int) * q * (product.Price : Int) ≤ (user.Balance : Int) →
      (∀ o ∈ runOutcomes s
          (List.replicate N { env := env, ctx := ctx, params := { ProductId := pid, Quantity := q } }),
        o.response.Status = 201) ∧
      ∃ (product0 : models.Product) (category0 : models.Category),
        repositories.lookupRow models.Product.Id pid
          (runOrders s (List.replicate N
            { env := env, ctx := ctx, params := { ProductId := pid, Quantity := q } })).products =
          some product0 ∧
        product0.Stock = 0 ∧
        repositories.lookupRow models.Category.Id product0.CategoryId
          (runOrders s (List.replicate N
            { env := env, ctx := ctx, params := { ProductId := pid, Quantity := q } })).categories =
          some category0 := by
  induction N with
  | zero =>
    intro s product category user lp lc _ hstock _ _ _
    refine ⟨by simp [runOutcomes], product, category, lp, by simpa using hstock, lc⟩
  | succ n ih =>
    intro s product category user lp lc lu hstock hint hword hbal
    have kp := (repositories.lookupRow_key models.Product.Id _ _ _ lp).1
    have kc := (repositories.lookupRow_key models.Category.Id _ _ _ lc).1
    have ku := (repositories.lookupRow_key models.User.Id _ _ _ lu).1
    have hm : (0 : Int) ≤ (n : Int) * q := mul_nonneg (Int.natCast_nonneg n) (le_of_lt hq)
    have hstock1 : product.Stock = (n : Int) * q + q := by
      rw [hstock]; push_cast; ring
    have hqlt : q < (wordSize : Int) := by
      unfold IsInt halfWord at hint; unfold wordSize; push_cast at hint ⊢; omega
    have hn := toUint_of_nonneg q (le_of_lt hq) hqlt
    have hmp : (0 : Int) ≤ (n : Int) * q * (product.Price : Int) :=
      mul_nonneg hm (Int.natCast_nonneg _)
    have hbal1 : (n : Int) * q * (product.Price : Int) + q * (product.Price : Int) ≤
        (user.Balance : Int) := by
      have : ((n + 1 : Nat) : Int) * q * (product.Price : Int) =
          (n : Int) * q * (product.Price : Int) + q * (product.Price : Int) := by
        push_cast; ring
      rw [← this]; exact hbal
    have hcast : ((toUint q * product.Price : Nat) : Int) = q * (product.Price : Int) := by
      push_cast; rw [hn]
    have hle : toUint q * product.Price ≤ user.Balance := by
      have : ((toUint q * product.Price : Nat) : Int) ≤ (user.Balance : Int) := by
        rw [hcast]; omega
      exact_mod_cast this
    have hum : umul (toUint q) product.Price = toUint q * product.Price :=
      umul_of_lt _ _ (lt_of_le_of_lt hle hword)
    have hp : repositories.GetProductById env s pid = .ok product := by
      simp [repositories.GetProductById, henv, Faults.none, lp]
    have hc : repositories.FindCategoryById env s product.CategoryId = .ok category := by
      simp [repositories.FindCategoryById, henv, Faults.none, lc]
    have hu : repositories.FindUserById env s (toUint ctx.userData.Id) = .ok user := by
      simp [repositories.FindUserById, henv, Faults.none, lu]
    have hs : ¬ product.Stock < q := by omega
    have hb : ¬ user.Balance < umul (toUint q) product.Price := by
      rw [hum]; omega
    have hrun := services.CreateTransaction_run env s ctx { ProductId := pid, Quantity := q }
      product category user hp hc hs hu hb (by simp [henv, Faults.none])
      (by simp [henv, Faults.none]) (by simp [henv, Faults.none]) (by simp [henv, Faults.none])
    have hnext := ih (services.CreateTransaction env s ctx { ProductId := pid, Quantity := q }).store
      { product with Stock := isub product.Stock q }
      { category with SoldProductAmount := uadd category.SoldProductAmount (toUint q) }
      { user with Balance := usub user.Balance (umul (toUint q) product.Price) }
      (by
        rw [hrun]
        have e := repositories.lookupRow_updateRow_same models.Product.Id product.Id
          { product with Stock := isub product.Stock q } rfl s.products product
          (by rw [kp]; exact lp)
        show repositories.lookupRow models.Product.Id pid
          (repositories.updateRow models.Product.Id product.Id
            { product with Stock := isub product.Stock q } s.products) = _
        rw [← kp]
        exact e)
      (by
        rw [hrun]
        have e := repositories.lookupRow_updateRow_same models.Category.Id category.Id
          { category with SoldProductAmount := uadd category.SoldProductAmount (toUint q) } rfl
          s.categories category (by rw [kc]; exact lc)
        show repositories.lookupRow models.Category.Id product.CategoryId
          (repositories.updateRow models.Category.Id category.Id
            { category with SoldProductAmount := uadd category.SoldProductAmount (toUint q) }
            s.categories) = _
        rw [← kc]
        exact e)
      (by
        rw [hrun]
        have e := repositories.lookupRow_updateRow_same models.User.Id user.Id
          { user with Balance := usub user.Balance (umul (toUint q) product.Price) } rfl
          s.users user (by rw [ku]; exact lu)
        show repositories.lookupRow models.User.Id (toUint ctx.userData.Id)
          (repositories.updateRow models.User.Id user.Id
            { user with Balance := usub user.Balance (umul (toUint q) product.Price) }
            s.users) = _
        rw [← ku]
        exact e)
      (by
        show isub product.Stock q = _
        rw [isub_of_le _ _ hint (le_of_lt hq) (by omega)]; omega)
      (by
        show IsInt (isub product.Stock q)
        rw [isub_of_le _ _ hint (le_of_lt hq) (by omega)]
        unfold IsInt at *; omega)
      (by
        show IsUint (usub user.Balance _)
        rw [hum, usub_of_le _ _ hword hle]
        unfold IsUint at *; omega)
      (by
        show _ ≤ ((usub user.Balance _ : Nat) : Int)
        rw [hum, usub_of_le _ _ hword hle, Nat.cast_sub hle, hcast]
        show (n : Int) * q * (product.Price : Int) ≤ _
        omega)
    obtain ⟨hall, product0, category0, h1, h2, h3⟩ := hnext
    refine ⟨?_, product0, category0, ?_, h2, ?_⟩
    · intro o ho
      simp only [List.replicate_succ, runOutcomes, List.mem_cons] at ho
      rcases ho with ho | ho
      · rw [ho, hrun]; rfl
      · exact hall o ho
    · simpa only [List.replicate_succ, runOrders] using h1
    · simpa only [List.replicate_succ, runOrders] using h3

/-- Claim C18: for every `N` and every `q > 0`, from a store in which the product
has stock `N * q` (a Go `int`), its category resolves, the buyer has a balance (a
Go `uint`) of at least `N * q * price`, and with every repository call served,
`N` successive orders of `q` units by that buyer are all answered with 201 and
leave the stock at exactly 0, and one more such order is answered with 400
STOCK_IS_NOT_ENOUGH. -/
theorem sequential_exhaustion (N : Nat) (q : Int) (env : Env) (ctx : Context) (pid : Nat)
    (s : Store) (product : models.Product) (category : models.Category) (user : models.User)
    (henv : env.faults = Faults.none) (hq : 0 < q)
    (lp : repositories.lookupRow models.Product.Id pid s.products = some product)
    (lc : repositories.lookupRow models.Category.Id product.CategoryId s.categories =
      some category)
    (lu : repositories.lookupRow models.User.Id (toUint ctx.userData.Id) s.users = some user)
    (hstock : product.Stock = (N : Int) * q) (hint : IsInt product.Stock)
    (hword : IsUint user.Balance)
    (hbal : (N : Int) * q * (product.Price : Int) ≤ (user.Balance : Int)) :
    (runOutcomes s (List.replicate N
      { env := env, ctx := ctx, params := { ProductId := pid, Quantity := q } })).length = N ∧
    (∀ o ∈ runOutcomes s (List.replicate N
        { env := env, ctx := ctx, params := { ProductId := pid, Quantity := q } }),
      o.response.Status = 201) ∧
    (∃ product0,
      repositories.lookupRow models.Product.Id pid
        (runOrders s (List.replicate N
          { env := env, ctx := ctx, params := { ProductId := pid, Quantity := q } })).products =
        some product0 ∧
      product0.Stock = 0) ∧
    (services.CreateTransaction env
      (runOrders s (List.replicate N
        { env := env, ctx := ctx, params := { ProductId := pid, Quantity := q } }))
      ctx { ProductId := pid, Quantity := q }).response.Status = 400 ∧
    (services.CreateTransaction env
      (runOrders s (List.replicate N
        { env := env, ctx := ctx, params := { ProductId := pid, Quantity := q } }))
      ctx { ProductId := pid, Quantity := q }).response.Message =
      views.Message.M_STOCK_IS_NOT_ENOUGH := by
  obtain ⟨hall, product0, category0, h1, h2, h3⟩ :=
    exhaustion_aux q env ctx pid henv hq N s product category user lp lc lu hstock hint hword hbal
  have hp : repositories.GetProductById env
      (runOrders s (List.replicate N
        { env := env, ctx := ctx, params := { ProductId := pid, Quantity := q } })) pid =
      .ok product0 := by
    simp [repositories.GetProductById, henv, Faults.none, h1]
  have hc : repositories.FindCategoryById env
      (runOrders s (List.replicate N
        { env := env, ctx := ctx, params := { ProductId := pid, Quantity := q } }))
      product0.CategoryId = .ok category0 := by
    simp [repositories.FindCategoryById, henv, Faults.none, h3]
  have hshort : product0.Stock < q := by omega
  refine ⟨by rw [runOutcomes_length, List.length_replicate], hall, ⟨product0, h1, h2⟩, ?_, ?_⟩
  · simp [services.CreateTransaction, hp, hc, hshort, views.ErrorResponse, http.StatusBadRequest]
  · simp [services.CreateTransaction, hp, hc, hshort, views.ErrorResponse]

/-- Claim C18, witness: two orders of 2 pens at 30 against a stock of 4 and a
balance of 200. -/
theorem sequential_exhaustion_witness :
    (calmEnv.faults = Faults.none ∧ (0 : Int) < 2 ∧
      (penRow 30 4).Stock = ((2 : Nat) : Int) * 2 ∧ IsInt (penRow 30 4).Stock ∧
      IsUint (buyerRow 200).Balance ∧
      ((2 : Nat) : Int) * 2 * ((penRow 30 4).Price : Int) ≤ ((buyerRow 200).Balance : Int)) ∧
    (runOutcomes (sampleStore 30 4 200 0) (List.replicate 2
      { env := calmEnv, ctx := buyerCtx, params := { ProductId := 1, Quantity := 2 } })).length =
      2 ∧
    (∀ o ∈ runOutcomes (sampleStore 30 4 200 0) (List.replicate 2
        { env := calmEnv, ctx := buyerCtx, params := { ProductId := 1, Quantity := 2 } }),
      o.response.Status = 201) ∧
    (∃ product0,
      repositories.lookupRow models.Product.Id 1
        (runOrders (sampleStore 30 4 200 0) (List.replicate 2
          { env := calmEnv, ctx := buyerCtx,
            params := { ProductId := 1, Quantity := 2 } })).products = some product0 ∧
      product0.Stock = 0) ∧
    (services.CreateTransaction calmEnv
      (runOrders (sampleStore 30 4 200 0) (List.replicate 2
        { env := calmEnv, ctx := buyerCtx, params := { ProductId := 1, Quantity := 2 } }))
      buyerCtx { ProductId := 1, Quantity := 2 }).response.Status = 400 ∧
    (services.CreateTransaction calmEnv
      (runOrders (sampleStore 30 4 200 0) (List.replicate 2
        { env := calmEnv, ctx := buyerCtx, params := { ProductId := 1, Quantity := 2 } }))
      buyerCtx { ProductId := 1, Quantity := 2 }).response.Message =
      views.Message.M_STOCK_IS_NOT_ENOUGH :=
  ⟨by decide,
    sequential_exhaustion 2 2 calmEnv buyerCtx 1 (sampleStore 30 4 200 0) (penRow 30 4)
      (categoryRow 0) (buyerRow 200) (by decide) (by decide) (by decide) (by decide) (by decide)
      (by decide) (by decide) (by decide) (by decide)⟩

/-! ## Interleaved orders (C12) -/

/-- A call that makes its seven repository calls without another call in between
does what `CreateTransaction` does: same store, same response. -/
theorem runSteps_alone (env : Env) (s : Store) (ctx : Context) (p : params.CreateTransactions) :
    runSteps env ctx p 7 (s, Progress.atGetProductById) =
      ((services.CreateTransaction env s ctx p).store,
        Progress.returned (services.CreateTransaction env s ctx p).response) := by
  cases hp : repositories.GetProductById env s p.ProductId with
  | error e =>
    by_cases he : e = GoError.ErrRecordNotFound
    · simp [runSteps, step, services.CreateTransaction, hp, he]
    · simp [runSteps, step, services.CreateTransaction, hp, he]
  | ok product =>
  cases hc : repositories.FindCategoryById env s product.CategoryId with
  | error e => simp [runSteps, step, services.CreateTransaction, hp, hc]
  | ok category =>
  by_cases hs : product.Stock < p.Quantity
  · simp [runSteps, step, services.CreateTransaction, hp, hc, hs]
  cases hu : repositories.FindUserById env s (toUint ctx.userData.Id) with
  | error e => simp [runSteps, step, services.CreateTransaction, hp, hc, hs, hu]
  | ok user =>
  by_cases hb : user.Balance < umul (toUint p.Quantity) product.Price
  · simp [runSteps, step, services.CreateTransaction, hp, hc, hs, hu, hb]
  cases h1 : repositories.UpdateUser env s
      { user with Balance := usub user.Balance (umul (toUint p.Quantity) product.Price) } with
  | error e => simp [runSteps, step, services.CreateTransaction, hp, hc, hs, hu, hb, h1]
  | ok s1 =>
  cases h2 : repositories.UpdateProduct env s1 { product with Stock := isub product.Stock p.Quantity }
      product.Id with
  | error e => simp [runSteps, step, services.CreateTransaction, hp, hc, hs, hu, hb, h1, h2]
  | ok s2 =>
  cases h3 : repositories.UpdateCategory env s2
      { category with
        SoldProductAmount := uadd category.SoldProductAmount (toUint p.Quantity) }
      category.Id with
  | error e => simp [runSteps, step, services.CreateTransaction, hp, hc, hs, hu, hb, h1, h2, h3]
  | ok s3 =>
  cases h4 : repositories.CreateTransaction env s3
      { Id := 0, ProductId := p.ProductId, UserId := user.Id, Quantity := p.Quantity,
        TotalPrice := imul p.Quantity (toInt product.Price), CreatedAt := 0, UpdatedAt := 0,
        Product := models.Product.zero, User := models.User.zero } with
  | error e =>
    simp [runSteps, step, services.CreateTransaction, hp, hc, hs, hu, hb, h1, h2, h3, h4]
  | ok s4 =>
    simp [runSteps, step, services.CreateTransaction, hp, hc, hs, hu, hb, h1, h2, h3, h4]

/-- A step at the position right after a prefix changes the call at that position
only. -/
theorem stepInList_at (s : Store) (pre : List Running) (t : Running) (post : List Running) :
    stepInList s pre.length (pre ++ t :: post) =
      ((step t.call.env t.call.ctx t.call.params s t.progress).1,
        pre ++ { t with progress := (step t.call.env t.call.ctx t.call.params s t.progress).2 } ::
          post) := by
  induction pre with
  | nil => rfl
  | cons a rest ih =>
    show stepInList s (rest.length + 1) (a :: (rest ++ t :: post)) = _
    simp only [stepInList, ih, List.cons_append]

/-- A step either names no call of the list and changes nothing, or is the step
of the call at that position. -/
theorem stepInList_cases (s : Store) (i : Nat) (l : List Running) :
    (l.length ≤ i ∧ stepInList s i l = (s, l)) ∨
    ∃ pre t post, l = pre ++ t :: post ∧ pre.length = i ∧
      stepInList s i l =
        ((step t.call.env t.call.ctx t.call.params s t.progress).1,
          pre ++ { t with
                   progress := (step t.call.env t.call.ctx t.call.params s t.progress).2 } ::
            post) := by
  induction l generalizing i with
  | nil => left; cases i <;> exact ⟨Nat.zero_le _, rfl⟩
  | cons a rest ih =>
    cases i with
    | zero => right; exact ⟨[], a, rest, rfl, rfl, rfl⟩
    | succ j =>
      rcases ih j with ⟨h0, h⟩ | ⟨pre, t, post, h1, h2, h3⟩
      · left
        refine ⟨by simpa using h0, ?_⟩
        simp only [stepInList, h]
      · right
        refine ⟨a :: pre, t, post, by rw [h1]; rfl, by simp [h2], ?_⟩
        simp only [stepInList, h3, List.cons_append]

/-- Seven steps of the call right after a prefix, with nothing in between, are the
call run on its own. -/
theorem runSchedule_replicate_at (n : Nat) (s : Store) (pre : List Running) (t : Running)
    (post : List Running) :
    runSchedule { store := s, running := pre ++ t :: post } (List.replicate n pre.length) =
      { store := (runSteps t.call.env t.call.ctx t.call.params n (s, t.progress)).1
        running := pre ++
          { t with
            progress := (runSteps t.call.env t.call.ctx t.call.params n (s, t.progress)).2 } ::
          post } := by
  induction n generalizing s t with
  | zero => rfl
  | succ k ih =>
    simp only [List.replicate_succ, runSchedule, stepAt, stepInList_at, runSteps]
    rw [ih]

/-- Run one after the other, the calls leave the store that the sequence of
`CreateTransaction` calls leaves, and each has returned the response of its
`CreateTransaction` call. -/
theorem runSchedule_serial (calls : List Call) (s : Store) (pre : List Running) :
    runSchedule
        { store := s
          running := pre ++ calls.map (fun c => { call := c, progress := .atGetProductById }) }
        (serialSchedule pre.length calls.length) =
      { store := runOrders s calls
        running := pre ++
          (List.zip calls (runOutcomes s calls)).map
            (fun x => { call := x.1, progress := .returned x.2.response }) } := by
  induction calls generalizing s pre with
  | nil => simp [serialSchedule, runSchedule, runOrders, runOutcomes]
  | cons c rest ih =>
    simp only [List.map_cons, List.length_cons, serialSchedule]
    have happ : ∀ (pool : Pool) (l1 l2 : List Nat),
        runSchedule pool (l1 ++ l2) = runSchedule (runSchedule pool l1) l2 := by
      intro pool l1 l2
      induction l1 generalizing pool with
      | nil => rfl
      | cons i l ihl =>
        show runSchedule (stepAt i pool) (l ++ l2) = runSchedule (runSchedule (stepAt i pool) l) l2
        exact ihl _
    rw [happ, runSchedule_replicate_at, runSteps_alone]
    have hlen : pre.length + 1 =
        (pre ++ [({ call := c,
                    progress := Progress.returned
                      (services.CreateTransaction c.env s c.ctx c.params).response } :
                  Running)]).length := by simp
    have hshape : ∀ (x : Running) (l : List Running), pre ++ x :: l = (pre ++ [x]) ++ l := by
      intro x l; simp
    rw [hshape, hlen, ih]
    simp [runOrders, runOutcomes]

theorem pendingProducts_split (pre : List Running) (t : Running) (post : List Running) :
    pendingProducts (pre ++ t :: post) =
      pendingProducts pre + (if t.progress.productPending = true then 1 else 0) +
        pendingProducts post := by
  unfold pendingProducts
  rw [List.countP_append, List.countP_cons]
  omega

theorem pendingUsers_split (pre : List Running) (t : Running) (post : List Running) :
    pendingUsers (pre ++ t :: post) =
      pendingUsers pre + (if t.progress.userPending = true then 1 else 0) +
        pendingUsers post := by
  unfold pendingUsers
  rw [List.countP_append, List.countP_cons]
  omega

theorem Sale.goodProduct_mono (σ : Sale) (a1 a : Nat) (product : models.Product)
    (hq : 0 < σ.quantity) (ha : a1 ≤ a) (h : σ.goodProduct a product) :
    σ.goodProduct a1 product := by
  obtain ⟨h1, h2, h3, h4, h5⟩ := h
  refine ⟨h1, h2, h3, le_trans ?_ h4, h5⟩
  exact mul_le_mul_of_nonneg_right (by exact_mod_cast ha) (le_of_lt hq)

theorem Sale.goodUser_mono (σ : Sale) (b1 b : Nat) (user : models.User) (hb : b1 ≤ b)
    (h : σ.goodUser b user) : σ.goodUser b1 user := by
  obtain ⟨h1, h2, h3⟩ := h
  exact ⟨h1, le_trans (Nat.mul_le_mul_right _ hb) h2, h3⟩

theorem Sale.goodProgress_mono (σ : Sale) (a1 a b1 b : Nat) (progress : Progress)
    (hq : 0 < σ.quantity) (ha : a1 ≤ a) (hb : b1 ≤ b) (h : σ.goodProgress a b progress) :
    σ.goodProgress a1 b1 progress := by
  cases progress with
  | atGetProductById => trivial
  | atFindCategoryById product => exact σ.goodProduct_mono a1 a product hq ha h
  | atFindUserById product category => exact ⟨σ.goodProduct_mono a1 a product hq ha h.1, h.2⟩
  | atUpdateUser product category user =>
    exact ⟨σ.goodProduct_mono a1 a product hq ha h.1, h.2.1, σ.goodUser_mono b1 b user hb h.2.2⟩
  | atUpdateProduct product category user =>
    exact ⟨σ.goodProduct_mono a1 a product hq ha h.1, h.2⟩
  | atUpdateCategory product category user => exact h
  | atCreateTransaction product category user => trivial
  | returned response => exact h

/-- The invariant after one call of the pool moved on: it is enough that the
pending counts did not grow and that the moved call and the three rows are good
for the new counts. -/
theorem Sale.invariant_replace (σ : Sale) (hq : 0 < σ.quantity) (s s1 : Store)
    (pre : List Running) (t : Running) (post : List Running) (progress : Progress)
    (hinv : σ.invariant { store := s, running := pre ++ t :: post })
    (ha : progress.productPending = true → t.progress.productPending = true)
    (hb : progress.userPending = true → t.progress.userPending = true)
    (hgood : σ.goodProgress
      (pendingProducts (pre ++ { t with progress := progress } :: post))
      (pendingUsers (pre ++ { t with progress := progress } :: post)) progress)
    (hP : ∃ product, repositories.lookupRow models.Product.Id σ.productId s1.products =
        some product ∧
      σ.goodProduct (pendingProducts (pre ++ { t with progress := progress } :: post)) product)
    (hC : ∃ category, repositories.lookupRow models.Category.Id σ.categoryId s1.categories =
        some category)
    (hU : ∃ user, repositories.lookupRow models.User.Id σ.userId s1.users = some user ∧
      σ.goodUser (pendingUsers (pre ++ { t with progress := progress } :: post)) user) :
    σ.invariant { store := s1, running := pre ++ { t with progress := progress } :: post } := by
  obtain ⟨hlen, hall, _, _, _⟩ := hinv
  have hale : pendingProducts (pre ++ { t with progress := progress } :: post) ≤
      pendingProducts (pre ++ t :: post) := by
    rw [pendingProducts_split, pendingProducts_split]
    simp only
    by_cases h1 : progress.productPending = true
    · simp [h1, ha h1]
    · by_cases h2 : t.progress.productPending = true <;> simp [h1, h2]
  have hble : pendingUsers (pre ++ { t with progress := progress } :: post) ≤
      pendingUsers (pre ++ t :: post) := by
    rw [pendingUsers_split, pendingUsers_split]
    simp only
    by_cases h1 : progress.userPending = true
    · simp [h1, hb h1]
    · by_cases h2 : t.progress.userPending = true <;> simp [h1, h2]
  refine ⟨?_, ?_, hP, hC, hU⟩
  · simpa using hlen
  · intro x hx
    simp only [List.mem_append, List.mem_cons] at hx
    rcases hx with hx | hx | hx
    · have := hall x (by simp [hx])
      exact ⟨this.1, σ.goodProgress_mono _ _ _ _ _ hq hale hble this.2⟩
    · rw [hx]
      exact ⟨(hall t (by simp)).1, hgood⟩
    · have := hall x (by simp [hx])
      exact ⟨this.1, σ.goodProgress_mono _ _ _ _ _ hq hale hble this.2⟩

/-- Every repository call of every call of the sale keeps the invariant, and moves
the call that makes it one position further: none is rejected, none fails. -/
theorem Sale.invariant_step (σ : Sale) (hwf : σ.wellFormed) (s : Store) (pre : List Running)
    (t : Running) (post : List Running)
    (hinv : σ.invariant { store := s, running := pre ++ t :: post }) :
    σ.invariant
      { store := (step t.call.env t.call.ctx t.call.params s t.progress).1
        running := pre ++
          { t with progress := (step t.call.env t.call.ctx t.call.params s t.progress).2 } ::
          post } ∧
    (step t.call.env t.call.ctx t.call.params s t.progress).2.rank =
      min 7 (t.progress.rank + 1) := by
  obtain ⟨hq, hfaults, hparams, huid, hrange, hfunds⟩ := hwf
  have hinv0 := hinv
  obtain ⟨_, hall, ⟨P, hlookP, hgoodP⟩, ⟨C, hlookC⟩, ⟨U, hlookU, hgoodU⟩⟩ := hinv
  obtain ⟨hcall, hgoodt⟩ := hall t (by simp)
  obtain ⟨call, progress⟩ := t
  simp only at hcall hgoodt ⊢
  subst hcall
  have hpid : σ.call.params.ProductId = σ.productId := by rw [hparams]
  have hqty : σ.call.params.Quantity = σ.quantity := by rw [hparams]
  have hCid := (repositories.lookupRow_key models.Category.Id _ _ _ hlookC).1
  have hread : ∀ s1 : Store, s1.products = s.products →
      repositories.GetProductById σ.call.env s1 σ.call.params.ProductId = .ok P := by
    intro s1 h1
    simp [repositories.GetProductById, hfaults, Faults.none, hpid, h1, hlookP]
  dsimp only at hlookP hlookC hlookU hgoodP hgoodU hgoodt
  rw [pendingProducts_split, pendingUsers_split] at hgoodt
  rw [pendingProducts_split] at hgoodP
  rw [pendingUsers_split] at hgoodU
  dsimp only at hgoodP hgoodU hgoodt
  cases progress with
  | atGetProductById =>
    have hstep : step σ.call.env σ.call.ctx σ.call.params s Progress.atGetProductById =
        (s, Progress.atFindCategoryById P) := by
      simp [step, hread s rfl]
    rw [hstep]
    refine ⟨?_, rfl⟩
    apply σ.invariant_replace hq s s pre _ post _ hinv0
    · intro _; rfl
    · intro _; rfl
    · rw [pendingProducts_split]; exact hgoodP
    · rw [pendingProducts_split]; exact ⟨P, hlookP, hgoodP⟩
    · exact ⟨C, hlookC⟩
    · rw [pendingUsers_split]; exact ⟨U, hlookU, hgoodU⟩
  | atFindCategoryById product =>
    obtain ⟨g1, g2, g3, g4, g5⟩ := hgoodt
    simp only [Progress.productPending, if_true] at g4 hgoodP
    have hone : σ.quantity ≤ product.Stock := by
      have h0 : 1 ≤ pendingProducts pre + 1 + pendingProducts post := by omega
      have h1 : (1 : Int) ≤ ((pendingProducts pre + 1 + pendingProducts post : Nat) : Int) := by
        exact_mod_cast h0
      exact le_trans (le_mul_of_one_le_left (le_of_lt hq) h1) g4
    have hstep : step σ.call.env σ.call.ctx σ.call.params s
        (Progress.atFindCategoryById product) = (s, Progress.atFindUserById product C) := by
      have hc : repositories.FindCategoryById σ.call.env s product.CategoryId = .ok C := by
        simp [repositories.FindCategoryById, hfaults, Faults.none, g2, hlookC]
      have hs : ¬ product.Stock < σ.call.params.Quantity := by rw [hqty]; omega
      simp [step, hc, hs]
    rw [hstep]
    refine ⟨?_, rfl⟩
    apply σ.invariant_replace hq s s pre _ post _ hinv0
    · intro _; rfl
    · intro _; rfl
    · rw [pendingProducts_split]
      simp only [Progress.productPending, if_true]
      exact ⟨⟨g1, g2, g3, g4, g5⟩, hCid⟩
    · rw [pendingProducts_split]; exact ⟨P, hlookP, hgoodP⟩
    · exact ⟨C, hlookC⟩
    · rw [pendingUsers_split]; exact ⟨U, hlookU, hgoodU⟩
  | atFindUserById product category =>
    obtain ⟨⟨g1, g2, g3, g4, g5⟩, g6⟩ := hgoodt
    simp only [Progress.productPending, Progress.userPending, if_true] at g4 hgoodP hgoodU
    obtain ⟨u1, u2, u3⟩ := hgoodU
    have hqp : toUint σ.quantity * σ.price ≤ U.Balance := by
      have : 1 * (toUint σ.quantity * σ.price) ≤
          (pendingUsers pre + 1 + pendingUsers post) * (toUint σ.quantity * σ.price) :=
        Nat.mul_le_mul_right _ (by omega)
      omega
    have hum : umul (toUint σ.quantity) σ.price = toUint σ.quantity * σ.price :=
      umul_of_lt _ _ (by unfold wordSize; omega)
    have hstep : step σ.call.env σ.call.ctx σ.call.params s
        (Progress.atFindUserById product category) =
        (s, Progress.atUpdateUser product category U) := by
      have hu : repositories.FindUserById σ.call.env s (toUint σ.call.ctx.userData.Id) =
          .ok U := by
        simp [repositories.FindUserById, hfaults, Faults.none, huid, hlookU]
      have hb : ¬ U.Balance < umul (toUint σ.call.params.Quantity) product.Price := by
        rw [hqty, g3, hum]; omega
      simp [step, hu, hb]
    rw [hstep]
    refine ⟨?_, rfl⟩
    apply σ.invariant_replace hq s s pre _ post _ hinv0
    · intro _; rfl
    · intro _; rfl
    · rw [pendingProducts_split, pendingUsers_split]
      simp only [Progress.productPending, Progress.userPending, if_true]
      exact ⟨⟨g1, g2, g3, g4, g5⟩, g6, u1, u2, u3⟩
    · rw [pendingProducts_split]; exact ⟨P, hlookP, hgoodP⟩
    · exact ⟨C, hlookC⟩
    · rw [pendingUsers_split]; exact ⟨U, hlookU, u1, u2, u3⟩
  | atUpdateUser product category user =>
    obtain ⟨⟨g1, g2, g3, g4, g5⟩, g6, u1, u2, u3⟩ := hgoodt
    simp only [Progress.productPending, Progress.userPending, if_true] at g4 hgoodP hgoodU u2
    have hsucc : (pendingUsers pre + 1 + pendingUsers post) * (toUint σ.quantity * σ.price) =
        (pendingUsers pre + pendingUsers post) * (toUint σ.quantity * σ.price) +
          toUint σ.quantity * σ.price := by ring
    have hum : umul (toUint σ.quantity) σ.price = toUint σ.quantity * σ.price :=
      umul_of_lt _ _ (by unfold wordSize; omega)
    have hword : IsUint user.Balance := by unfold IsUint wordSize; omega
    have hsub : usub user.Balance (umul (toUint σ.quantity) σ.price) =
        user.Balance - toUint σ.quantity * σ.price := by
      rw [hum]; exact usub_of_le _ _ hword (by omega)
    have hstep : step σ.call.env σ.call.ctx σ.call.params s
        (Progress.atUpdateUser product category user) =
        ({ s with
           users := repositories.updateRow models.User.Id user.Id
             { user with Balance := user.Balance - toUint σ.quantity * σ.price } s.users },
          Progress.atUpdateProduct product category
            { user with Balance := user.Balance - toUint σ.quantity * σ.price }) := by
      simp [step, repositories.UpdateUser, hfaults, Faults.none, hqty, g3, hsub]
    rw [hstep]
    refine ⟨?_, rfl⟩
    apply σ.invariant_replace hq s _ pre _ post _ hinv0
    · intro _; rfl
    · intro h; simp [Progress.userPending] at h
    · rw [pendingProducts_split]
      simp only [Progress.productPending, if_true]
      exact ⟨⟨g1, g2, g3, g4, g5⟩, g6⟩
    · rw [pendingProducts_split]; exact ⟨P, hlookP, hgoodP⟩
    · exact ⟨C, hlookC⟩
    · rw [pendingUsers_split]
      simp only [Progress.userPending, Bool.false_eq_true, if_false, add_zero]
      refine ⟨{ user with Balance := user.Balance - toUint σ.quantity * σ.price },
        ?_, u1, ?_, ?_⟩
      · show repositories.lookupRow models.User.Id σ.userId
          (repositories.updateRow models.User.Id user.Id _ s.users) = _
        have e : ∀ k, k = user.Id → repositories.lookupRow models.User.Id k s.users = some U →
            repositories.lookupRow models.User.Id k
              (repositories.updateRow models.User.Id user.Id
                { user with Balance := user.Balance - toUint σ.quantity * σ.price } s.users) =
              some { user with Balance := user.Balance - toUint σ.quantity * σ.price } := by
          intro k hk hl
          subst hk
          refine repositories.lookupRow_updateRow_same models.User.Id user.Id _ ?_ s.users U hl
          rfl
        exact e _ u1.symm hlookU
      · show _ ≤ user.Balance - toUint σ.quantity * σ.price
        omega
      · show user.Balance - toUint σ.quantity * σ.price ≤ σ.funds
        omega
  | atUpdateProduct product category user =>
    obtain ⟨⟨g1, g2, g3, g4, g5⟩, g6⟩ := hgoodt
    simp only [Progress.productPending, Progress.userPending, if_true, Bool.false_eq_true,
      if_false, add_zero] at g4 hgoodP hgoodU
    have hsucc : ((pendingProducts pre + 1 + pendingProducts post : Nat) : Int) * σ.quantity =
        ((pendingProducts pre + pendingProducts post : Nat) : Int) * σ.quantity + σ.quantity := by
      push_cast; ring
    have hnn : (0 : Int) ≤ ((pendingProducts pre + pendingProducts post : Nat) : Int) * σ.quantity :=
      mul_nonneg (Int.natCast_nonneg _) (le_of_lt hq)
    have hint : IsInt product.Stock := by
      unfold IsInt halfWord; push_cast; omega
    have hsub : isub product.Stock σ.quantity = product.Stock - σ.quantity :=
      isub_of_le _ _ hint (le_of_lt hq) (by omega)
    have hstep : step σ.call.env σ.call.ctx σ.call.params s
        (Progress.atUpdateProduct product category user) =
        ({ s with
           products := repositories.updateRow models.Product.Id product.Id
             { product with Stock := product.Stock - σ.quantity } s.products },
          Progress.atUpdateCategory { product with Stock := product.Stock - σ.quantity }
            category user) := by
      simp [step, repositories.UpdateProduct, hfaults, Faults.none, hqty, hsub]
    rw [hstep]
    refine ⟨?_, rfl⟩
    apply σ.invariant_replace hq s _ pre _ post _ hinv0
    · intro h; simp [Progress.productPending] at h
    · intro h; simp [Progress.userPending] at h
    · exact g6
    · rw [pendingProducts_split]
      simp only [Progress.productPending, Bool.false_eq_true, if_false, add_zero]
      refine ⟨{ product with Stock := product.Stock - σ.quantity }, ?_, g1, g2, g3, ?_, ?_⟩
      · show repositories.lookupRow models.Product.Id σ.productId
          (repositories.updateRow models.Product.Id product.Id _ s.products) = _
        have e : ∀ k, k = product.Id →
            repositories.lookupRow models.Product.Id k s.products = some P →
            repositories.lookupRow models.Product.Id k
              (repositories.updateRow models.Product.Id product.Id
                { product with Stock := product.Stock - σ.quantity } s.products) =
              some { product with Stock := product.Stock - σ.quantity } := by
          intro k hk hl
          subst hk
          refine repositories.lookupRow_updateRow_same models.Product.Id product.Id _ ?_
            s.products P hl
          rfl
        exact e _ g1.symm hlookP
      · show _ ≤ product.Stock - σ.quantity
        omega
      · show product.Stock - σ.quantity ≤ _
        omega
    · exact ⟨C, hlookC⟩
    · rw [pendingUsers_split]
      simp only [Progress.userPending, Bool.false_eq_true, if_false, add_zero]
      exact ⟨U, hlookU, hgoodU⟩
  | atUpdateCategory product category user =>
    simp only [Progress.productPending, Progress.userPending, Bool.false_eq_true,
      if_false, add_zero] at hgoodP hgoodU
    have g6 : category.Id = σ.categoryId := hgoodt
    have hstep : step σ.call.env σ.call.ctx σ.call.params s
        (Progress.atUpdateCategory product category user) =
        ({ s with
           categories := repositories.updateRow models.Category.Id category.Id
             { category with
               SoldProductAmount :=
                 uadd category.SoldProductAmount (toUint σ.call.params.Quantity) }
             s.categories },
          Progress.atCreateTransaction product
            { category with
              SoldProductAmount :=
                uadd category.SoldProductAmount (toUint σ.call.params.Quantity) } user) := by
      simp [step, repositories.UpdateCategory, hfaults, Faults.none]
    rw [hstep]
    refine ⟨?_, rfl⟩
    apply σ.invariant_replace hq s _ pre _ post _ hinv0
    · intro h; simp [Progress.productPending] at h
    · intro h; simp [Progress.userPending] at h
    · trivial
    · rw [pendingProducts_split]
      simp only [Progress.productPending, Bool.false_eq_true, if_false, add_zero]
      exact ⟨P, hlookP, hgoodP⟩
    · refine ⟨{ category with
          SoldProductAmount :=
            uadd category.SoldProductAmount (toUint σ.call.params.Quantity) }, ?_⟩
      show repositories.lookupRow models.Category.Id σ.categoryId
        (repositories.updateRow models.Category.Id category.Id _ s.categories) = _
      have e : ∀ k, k = category.Id →
          repositories.lookupRow models.Category.Id k s.categories = some C →
          repositories.lookupRow models.Category.Id k
            (repositories.updateRow models.Category.Id category.Id
              { category with
                SoldProductAmount :=
                  uadd category.SoldProductAmount (toUint σ.call.params.Quantity) }
              s.categories) =
            some { category with
              SoldProductAmount :=
                uadd category.SoldProductAmount (toUint σ.call.params.Quantity) } := by
        intro k hk hl
        subst hk
        refine repositories.lookupRow_updateRow_same models.Category.Id category.Id _ ?_
          s.categories C hl
        rfl
      exact e _ g6.symm hlookC
    · rw [pendingUsers_split]
      simp only [Progress.userPending, Bool.false_eq_true, if_false, add_zero]
      exact ⟨U, hlookU, hgoodU⟩
  | atCreateTransaction product category user =>
    simp only [Progress.productPending, Progress.userPending, Bool.false_eq_true,
      if_false, add_zero] at hgoodP hgoodU
    have hstep : ∃ s1 response,
        step σ.call.env σ.call.ctx σ.call.params s
          (Progress.atCreateTransaction product category user) =
          (s1, Progress.returned response) ∧ response.Status = 201 ∧
        s1.products = s.products ∧ s1.categories = s.categories ∧ s1.users = s.users := by
      simp only [step, repositories.CreateTransaction, hfaults, Faults.none]
      exact ⟨_, _, rfl, rfl, rfl, rfl, rfl⟩
    obtain ⟨s1, response, hstep, h201, e1, e2, e3⟩ := hstep
    rw [hstep]
    refine ⟨?_, rfl⟩
    apply σ.invariant_replace hq s _ pre _ post _ hinv0
    · intro h; simp [Progress.productPending] at h
    · intro h; simp [Progress.userPending] at h
    · exact h201
    · rw [pendingProducts_split, e1]
      simp only [Progress.productPending, Bool.false_eq_true, if_false, add_zero]
      exact ⟨P, hlookP, hgoodP⟩
    · rw [e2]; exact ⟨C, hlookC⟩
    · rw [pendingUsers_split, e3]
      simp only [Progress.userPending, Bool.false_eq_true, if_false, add_zero]
      exact ⟨U, hlookU, hgoodU⟩
  | returned response =>
    have hstep : step σ.call.env σ.call.ctx σ.call.params s (Progress.returned response) =
        (s, Progress.returned response) := rfl
    rw [hstep]
    exact ⟨hinv0, rfl⟩

theorem Progress.rank_le (progress : Progress) : progress.rank ≤ 7 := by
  cases progress <;> simp [Progress.rank]

theorem Progress.returned_of_rank (progress : Progress) (h : progress.rank = 7) :
    ∃ response, progress = Progress.returned response := by
  cases progress <;> simp [Progress.rank] at h
  exact ⟨_, rfl⟩

/-- Replacing the call at one position leaves the other positions alone. -/
theorem getElem?_replaced (pre : List Running) (t x : Running) (post : List Running)
    (j : Nat) :
    (pre ++ x :: post)[j]? = if j = pre.length then some x else (pre ++ t :: post)[j]? := by
  induction pre generalizing j with
  | nil =>
    cases j with
    | zero => simp
    | succ k => simp
  | cons a rest ih =>
    cases j with
    | zero => simp
    | succ k => simpa using ih k

theorem getElem?_middle (pre : List Running) (t : Running) (post : List Running) :
    (pre ++ t :: post)[pre.length]? = some t := by
  induction pre with
  | nil => simp
  | cons a rest ih => simpa using ih

/-- One step of the pool keeps the invariant; the call it names moves one position
further, the others stay where they are. -/
theorem Sale.invariant_stepAt (σ : Sale) (hwf : σ.wellFormed) (pool : Pool) (i : Nat)
    (hinv : σ.invariant pool) :
    σ.invariant (stepAt i pool) ∧
    ∀ (j : Nat) (t : Running), pool.running[j]? = some t →
      ∃ t1, (stepAt i pool).running[j]? = some t1 ∧
        t1.progress.rank = min 7 (t.progress.rank + if j = i then 1 else 0) := by
  obtain ⟨s, l⟩ := pool
  rcases stepInList_cases s i l with ⟨h0, h⟩ | ⟨pre, t, post, h1, h2, h3⟩
  · have e : stepAt i { store := s, running := l } = { store := s, running := l } := by
      simp only [stepAt, h]
    rw [e]
    refine ⟨hinv, ?_⟩
    intro j t hj
    have hlt : j < l.length := by
      rcases List.getElem?_eq_some.mp hj with ⟨hlt, _⟩
      exact hlt
    have hne : j ≠ i := by omega
    refine ⟨t, hj, ?_⟩
    have := t.progress.rank_le
    simp only [hne, if_false]
    omega
  · subst h1
    have hstep := σ.invariant_step hwf s pre t post hinv
    have e : stepAt i { store := s, running := pre ++ t :: post } =
        { store := (step t.call.env t.call.ctx t.call.params s t.progress).1
          running := pre ++
            { t with
              progress := (step t.call.env t.call.ctx t.call.params s t.progress).2 } ::
            post } := by
      simp only [stepAt, h3]
    rw [e]
    refine ⟨hstep.1, ?_⟩
    intro j t0 hj
    show ∃ t1, (pre ++ _ :: post)[j]? = some t1 ∧ _
    rw [getElem?_replaced pre t _ post j]
    by_cases hji : j = i
    · have hjp : j = pre.length := by omega
      have ht : t0 = t := by
        have e2 : (pre ++ t :: post)[j]? = some t := by
          rw [hjp]; exact getElem?_middle pre t post
        have e3 : some t0 = some t := by
          rw [← hj, ← e2]
        exact Option.some.inj e3
      subst ht
      refine ⟨{ t0 with
        progress := (step t0.call.env t0.call.ctx t0.call.params s t0.progress).2 }, ?_, ?_⟩
      · simp only [hjp, if_true]
      · simp only [hji, if_true]
        exact hstep.2
    · have hjp : j ≠ pre.length := by omega
      refine ⟨t0, by simp only [hjp, if_false]; exact hj, ?_⟩
      have := t0.progress.rank_le
      simp only [hji, if_false]
      omega

/-- Every interleaving keeps the invariant, and each call has moved as many
positions as the schedule names it, up to its return. -/
theorem Sale.invariant_runSchedule (σ : Sale) (hwf : σ.wellFormed) (schedule : List Nat) :
    ∀ pool : Pool, σ.invariant pool →
      σ.invariant (runSchedule pool schedule) ∧
      ∀ (j : Nat) (t : Running), pool.running[j]? = some t →
        ∃ t1, (runSchedule pool schedule).running[j]? = some t1 ∧
          t1.progress.rank = min 7 (t.progress.rank + schedule.count j) := by
  induction schedule with
  | nil =>
    intro pool hinv
    refine ⟨hinv, ?_⟩
    intro j t hj
    refine ⟨t, hj, ?_⟩
    have := t.progress.rank_le
    simp only [List.count_nil]
    omega
  | cons i rest ih =>
    intro pool hinv
    obtain ⟨h1, h2⟩ := σ.invariant_stepAt hwf pool i hinv
    obtain ⟨h3, h4⟩ := ih (stepAt i pool) h1
    refine ⟨h3, ?_⟩
    intro j t hj
    obtain ⟨t1, e1, r1⟩ := h2 j t hj
    obtain ⟨t2, e2, r2⟩ := h4 j t1 e1
    refine ⟨t2, e2, ?_⟩
    rw [r2, r1, List.count_cons]
    by_cases hji : j = i
    · subst hji
      simp only [if_true, beq_self_eq_true]
      omega
    · have hij : (i == j) = false := by
        simpa using fun h => hji h.symm
      simp only [hji, if_false, hij, Bool.false_eq_true]
      omega

/-- The invariant holds when all calls are about to start. -/
theorem Sale.invariant_start (σ : Sale) (hq : 0 < σ.quantity) (s : Store)
    (product : models.Product) (category : models.Category) (user : models.User)
    (lp : repositories.lookupRow models.Product.Id σ.productId s.products = some product)
    (lc : repositories.lookupRow models.Category.Id σ.categoryId s.categories = some category)
    (lu : repositories.lookupRow models.User.Id σ.userId s.users = some user)
    (hcat : product.CategoryId = σ.categoryId) (hprice : product.Price = σ.price)
    (hstock : product.Stock = (σ.calls : Int) * σ.quantity)
    (hbal : σ.calls * (toUint σ.quantity * σ.price) ≤ user.Balance)
    (hfunds : user.Balance ≤ σ.funds) :
    σ.invariant (startPool s (List.replicate σ.calls σ.call)) := by
  have kp := (repositories.lookupRow_key models.Product.Id _ _ _ lp).1
  have ku := (repositories.lookupRow_key models.User.Id _ _ _ lu).1
  have hlen : (startPool s (List.replicate σ.calls σ.call)).running.length = σ.calls := by
    simp [startPool]
  have ha : pendingProducts (startPool s (List.replicate σ.calls σ.call)).running ≤ σ.calls :=
    le_of_le_of_eq (List.countP_le_length _) hlen
  have hb : pendingUsers (startPool s (List.replicate σ.calls σ.call)).running ≤ σ.calls :=
    le_of_le_of_eq (List.countP_le_length _) hlen
  refine ⟨hlen, ?_, ⟨product, lp, ?_⟩, ⟨category, lc⟩, ⟨user, lu, ?_⟩⟩
  · intro t ht
    simp only [startPool, List.map_replicate] at ht
    rw [List.eq_of_mem_replicate ht]
    exact ⟨rfl, trivial⟩
  · refine ⟨kp, hcat, hprice, ?_, le_of_eq hstock⟩
    rw [hstock]
    exact mul_le_mul_of_nonneg_right (by exact_mod_cast ha) (le_of_lt hq)
  · exact ⟨ku, le_trans (Nat.mul_le_mul_right _ hb) hbal, hfunds⟩

/-- The serial schedule names each of its calls seven times. -/
theorem serialSchedule_count (n k j : Nat) (h1 : k ≤ j) (h2 : j < k + n) :
    (serialSchedule k n).count j = 7 := by
  induction n generalizing k with
  | zero => omega
  | succ m ih =>
    simp only [serialSchedule, List.count_append, List.count_replicate]
    by_cases hkj : k = j
    · subst hkj
      have h0 : ∀ (m1 k1 : Nat), k < k1 → (serialSchedule k1 m1).count k = 0 := by
        intro m1
        induction m1 with
        | zero => intro k1 _; rfl
        | succ m2 ih2 =>
          intro k1 hk1
          simp only [serialSchedule, List.count_append, List.count_replicate]
          have hne : (k1 == k) = false := by simpa using (by omega : k1 ≠ k)
          rw [ih2 (k1 + 1) (by omega)]
          simp [hne]
      rw [h0 m (k + 1) (by omega)]
      simp
    · have hne : (k == j) = false := by simpa using hkj
      rw [ih (k + 1) (by omega) (by omega)]
      simp [hne]

/-- Claim C12, counterexample: two orders of 1 pen at 30 against a stock of 2 and
a balance of 100; both calls read the product, the category and the buyer before
either writes. Both are answered with 201, and the stock ends at 1, not at 0. -/
theorem C12_counterexample :
    (runSchedule
        (startPool (sampleStore 30 2 100 0)
          (List.replicate 2 { env := calmEnv, ctx := buyerCtx, params := orderFor 1 }))
        [0, 0, 0, 1, 1, 1, 0, 0, 0, 0, 1, 1, 1, 1]).running.map
      (fun t => t.progress.status?) = [some 201, some 201] ∧
    (repositories.lookupRow models.Product.Id 1
      (runSchedule
        (startPool (sampleStore 30 2 100 0)
          (List.replicate 2 { env := calmEnv, ctx := buyerCtx, params := orderFor 1 }))
        [0, 0, 0, 1, 1, 1, 0, 0, 0, 0, 1, 1, 1, 1]).store.products).map
      (fun product => product.Stock) = some 1 := by
  decide

/-- Claim C12, amended: `N` calls for `q > 0` units of one product with stock
`N * q`, by a buyer whose balance covers `N * q * price`, with every repository
call served, interleaved at the level of single repository calls. In every
interleaving there are `N` calls, every call that has returned was answered with
201, and the product's stock lies between 0 and `N * q`; in every interleaving
that lets each call make its seven repository calls, all `N` calls have returned
with 201. The stock ends at 0 when the calls run one after the other, which is one
of these interleavings. -/
theorem interleaved_orders (N : Nat) (q : Int) (env : Env) (ctx : Context) (pid : Nat)
    (s : Store) (product : models.Product) (category : models.Category) (user : models.User)
    (henv : env.faults = Faults.none) (hq : 0 < q)
    (lp : repositories.lookupRow models.Product.Id pid s.products = some product)
    (lc : repositories.lookupRow models.Category.Id product.CategoryId s.categories =
      some category)
    (lu : repositories.lookupRow models.User.Id (toUint ctx.userData.Id) s.users = some user)
    (hstock : product.Stock = (N : Int) * q) (hint : IsInt product.Stock)
    (hword : IsUint user.Balance)
    (hbal : (N : Int) * q * (product.Price : Int) ≤ (user.Balance : Int)) :
    (∀ schedule : List Nat,
      (runSchedule
        (startPool s (List.replicate N
          { env := env, ctx := ctx, params := { ProductId := pid, Quantity := q } }))
        schedule).running.length = N ∧
      (∀ t ∈ (runSchedule
          (startPool s (List.replicate N
            { env := env, ctx := ctx, params := { ProductId := pid, Quantity := q } }))
          schedule).running,
        ∀ response, t.progress = Progress.returned response → response.Status = 201) ∧
      ((∀ j, j < N → 7 ≤ schedule.count j) →
        ∀ t ∈ (runSchedule
            (startPool s (List.replicate N
              { env := env, ctx := ctx, params := { ProductId := pid, Quantity := q } }))
            schedule).running,
          ∃ response, t.progress = Progress.returned response ∧ response.Status = 201) ∧
      ∃ product0,
        repositories.lookupRow models.Product.Id pid
          (runSchedule
            (startPool s (List.replicate N
              { env := env, ctx := ctx, params := { ProductId := pid, Quantity := q } }))
            schedule).store.products = some product0 ∧
        0 ≤ product0.Stock ∧ product0.Stock ≤ (N : Int) * q) ∧
    (∀ j, j < N → 7 ≤ (serialSchedule 0 N).count j) ∧
    ∃ product0,
      repositories.lookupRow models.Product.Id pid
        (runSchedule
          (startPool s (List.replicate N
            { env := env, ctx := ctx, params := { ProductId := pid, Quantity := q } }))
          (serialSchedule 0 N)).store.products = some product0 ∧
      product0.Stock = 0 := by
  refine ⟨?_, ?_, ?_⟩
  · intro schedule
    have hwf : Sale.wellFormed
        { calls := N, quantity := q, productId := pid, categoryId := product.CategoryId,
          userId := toUint ctx.userData.Id, price := product.Price, funds := user.Balance,
          call := { env := env, ctx := ctx, params := { ProductId := pid, Quantity := q } } } := by
      refine ⟨hq, henv, rfl, rfl, ?_, ?_⟩
      · show (N : Int) * q < 2 ^ 63
        unfold IsInt halfWord at hint
        omega
      · show user.Balance < 2 ^ 64
        unfold IsUint wordSize at hword
        exact hword
    have hpay : N * (toUint q * product.Price) ≤ user.Balance := by
      cases N with
      | zero => simp
      | succ n =>
        have hn : (0 : Int) ≤ (n : Int) * q := mul_nonneg (Int.natCast_nonneg n) (le_of_lt hq)
        have hq2 : q < (wordSize : Int) := by
          have h63 : product.Stock < 2 ^ 63 := by
            have := hint.2
            unfold halfWord at this
            exact_mod_cast this
          have hsum : product.Stock = (n : Int) * q + q := by
            rw [hstock]; push_cast; ring
          unfold wordSize
          push_cast
          omega
        have e := toUint_of_nonneg q (le_of_lt hq) hq2
        have : (((n + 1) * (toUint q * product.Price) : Nat) : Int) ≤ (user.Balance : Int) := by
          push_cast
          rw [e]
          push_cast at hbal
          linarith
        exact_mod_cast this
    have hstart := Sale.invariant_start
      { calls := N, quantity := q, productId := pid, categoryId := product.CategoryId,
        userId := toUint ctx.userData.Id, price := product.Price, funds := user.Balance,
        call := { env := env, ctx := ctx, params := { ProductId := pid, Quantity := q } } }
      hq s product category user lp lc lu rfl rfl hstock hpay (le_refl _)
    obtain ⟨hinv, hrank⟩ := Sale.invariant_runSchedule _ hwf schedule _ hstart
    obtain ⟨hlen, hall, ⟨product0, hl0, hg0⟩, _, _⟩ := hinv
    refine ⟨hlen, ?_, ?_, ⟨product0, hl0, ?_, hg0.2.2.2.2⟩⟩
    · intro t ht response hr
      have h := (hall t ht).2
      rw [hr] at h
      exact h
    · intro hfair t ht
      obtain ⟨j, hj⟩ := List.mem_iff_getElem?.mp ht
      have hjN : j < N := by
        rcases List.getElem?_eq_some.mp hj with ⟨hlt, _⟩
        rw [hlen] at hlt
        exact hlt
      have h0 : (startPool s (List.replicate N
          ({ env := env, ctx := ctx, params := { ProductId := pid, Quantity := q } } :
            Call))).running[j]? =
          some { call := { env := env, ctx := ctx, params := { ProductId := pid, Quantity := q } },
                 progress := Progress.atGetProductById } := by
        simp [startPool, List.getElem?_replicate, hjN]
      obtain ⟨t1, e1, r1⟩ := hrank j _ h0
      have ht1 : t1 = t := by
        have e3 : some t1 = some t := by rw [← e1, ← hj]
        exact Option.some.inj e3
      subst ht1
      have h7 : t1.progress.rank = 7 := by
        rw [r1]
        have := hfair j hjN
        simp only [Progress.rank]
        omega
      obtain ⟨response, hr⟩ := t1.progress.returned_of_rank h7
      refine ⟨response, hr, ?_⟩
      have h := (hall t1 ht).2
      rw [hr] at h
      exact h
    · exact le_trans (mul_nonneg (Int.natCast_nonneg _) (le_of_lt hq)) hg0.2.2.2.1
  · intro j hj
    rw [serialSchedule_count N 0 j (Nat.zero_le _) (by omega)]
  · obtain ⟨_, product0, category0, h1, h2, _⟩ :=
      exhaustion_aux q env ctx pid henv hq N s product category user lp lc lu hstock hint hword
        hbal
    have e := runSchedule_serial
      (List.replicate N
        ({ env := env, ctx := ctx, params := { ProductId := pid, Quantity := q } } : Call)) s []
    simp only [List.nil_append, List.length_nil, List.length_replicate] at e
    refine ⟨product0, ?_, h2⟩
    show repositories.lookupRow models.Product.Id pid
      (runSchedule
        { store := s
          running := (List.replicate N
            ({ env := env, ctx := ctx, params := { ProductId := pid, Quantity := q } } :
              Call)).map (fun c => { call := c, progress := Progress.atGetProductById }) }
        (serialSchedule 0 N)).store.products = some product0
    rw [e]
    exact h1

/-- Claim C12, witness: two orders of 1 pen at 30 against a stock of 2 and a
balance of 100. -/
theorem interleaved_orders_witness :
    (calmEnv.faults = Faults.none ∧ (0 : Int) < 1 ∧
      (penRow 30 2).Stock = ((2 : Nat) : Int) * 1 ∧ IsInt (penRow 30 2).Stock ∧
      IsUint (buyerRow 100).Balance ∧
      ((2 : Nat) : Int) * 1 * ((penRow 30 2).Price : Int) ≤ ((buyerRow 100).Balance : Int)) ∧
    (∀ schedule : List Nat,
      (runSchedule
        (startPool (sampleStore 30 2 100 0) (List.replicate 2
          { env := calmEnv, ctx := buyerCtx, params := { ProductId := 1, Quantity := 1 } }))
        schedule).running.length = 2 ∧
      (∀ t ∈ (runSchedule
          (startPool (sampleStore 30 2 100 0) (List.replicate 2
            { env := calmEnv, ctx := buyerCtx, params := { ProductId := 1, Quantity := 1 } }))
          schedule).running,
        ∀ response, t.progress = Progress.returned response → response.Status = 201) ∧
      ((∀ j, j < 2 → 7 ≤ schedule.count j) →
        ∀ t ∈ (runSchedule
            (startPool (sampleStore 30 2 100 0) (List.replicate 2
              { env := calmEnv, ctx := buyerCtx, params := { ProductId := 1, Quantity := 1 } }))
            schedule).running,
          ∃ response, t.progress = Progress.returned response ∧ response.Status = 201) ∧
      ∃ product0,
        repositories.lookupRow models.Product.Id 1
          (runSchedule
            (startPool (sampleStore 30 2 100 0) (List.replicate 2
              { env := calmEnv, ctx := buyerCtx, params := { ProductId := 1, Quantity := 1 } }))
            schedule).store.products = some product0 ∧
        0 ≤ product0.Stock ∧ product0.Stock ≤ ((2 : Nat) : Int) * 1) ∧
    (∀ j, j < 2 → 7 ≤ (serialSchedule 0 2).count j) ∧
    ∃ product0,
      repositories.lookupRow models.Product.Id 1
        (runSchedule
          (startPool (sampleStore 30 2 100 0) (List.replicate 2
            { env := calmEnv, ctx := buyerCtx, params := { ProductId := 1, Quantity := 1 } }))
          (serialSchedule 0 2)).store.products = some product0 ∧
      product0.Stock = 0 :=
  ⟨by decide,
    interleaved_orders 2 1 calmEnv buyerCtx 1 (sampleStore 30 2 100 0) (penRow 30 2)
      (categoryRow 0) (buyerRow 100) (by decide) (by decide) (by decide) (by decide) (by decide)
      (by decide) (by decide) (by decide) (by decide)⟩
